import Mathlib

/-! Verification of grav_map, the gravity grid to 24-bit bitmap converter `grav.c`.

A shallow embedding of `grav.c` and theorems about it.

Conventions of the embedding:

* The compile-time options of the program (`NLON`, `NLAT`, `INVERSE_SCALE`, the
  selected `DPI_*`) are collected in `Config`; every macro that depends on them
  becomes a function of the configuration and keeps its C name.
* `NLON`, `NLAT` and `INVERSE_SCALE` are `int` literals, so the macros built
  from them are `int` expressions. `int` is the 32-bit two's-complement type:
  the result of every `int` multiplication, addition and subtraction is reduced
  into `[-2^31, 2^31 - 1]` (`to_int32`; ISO C leaves signed overflow undefined,
  and this is the two's-complement value to which the compiler folds an
  overflowing constant expression), and `/` truncates towards zero. The two integer
  divisions of `OUTPUT_IMAGE_WIDTH` and `OUTPUT_IMAGE_HEIGHT` cannot overflow
  and are computed over `Nat`. The predicate `int_range` singles out the
  configurations in which no `int` expression overflows; there the macros have
  the values of the exact formulas `row_stride`, `row_width` and `W * H`, and
  the theorems stated for `int_range` do not depend on how an overflow is
  resolved.
* A value stored into a `uint32_t` / `uint16_t` / `uint8_t` object is reduced
  modulo `2^32` / `2^16` / `2^8` at the store, `uint32_t` arithmetic of the main
  loop wraps modulo `2^32`, and an `int` compared with a `uint32_t` is first
  converted to `uint32_t` (`int_bits`).
* An `int16_t` is an `Int` in `[-32768, 32767]`; bitwise operators act on the
  two's-complement bit pattern of the promoted 32-bit `int` (`int_bits`).
* Files are lists of bytes. The source file is a `List (Fin 256)`, the output
  file is the `List Nat` of bytes written so far.
* The `while` loop of `main` is run with explicit fuel; the theorems show that
  a fuel bound suffices, so the loop terminates. `loop_events` and `loop_heads`
  follow the same recursion and record what each iteration does and the state
  at each loop head.
* The `#if` / `#error` checks of lines 161-173 are predicates on the values of
  the macros they test (`error_checks`, `config_accepted`); the preprocessor
  evaluates them in `intmax_t`, where the row macros have their exact values.
-/

namespace GravMap

/-! ## Compile-time options -/

/-- The `DPI_*` option that is left uncommented (`grav.c` lines 12-17). -/
inductive DPI where
  | DPI_72
  | DPI_96
  | DPI_150
  | DPI_200
  | DPI_300
  deriving DecidableEq, Repr

/-- The compile-time constants of `grav.c` that a build may change. `NLON`,
`NLAT` and `INVERSE_SCALE` are the values of `int` literals. -/
structure Config where
  NLON : Nat
  NLAT : Nat
  INVERSE_SCALE : Nat
  dpi : DPI
  deriving DecidableEq, Repr

/-- The configuration checked in to the repository (lines 13, 25, 49, 50). -/
def reference_config : Config :=
  { NLON := 21600, NLAT := 17280, INVERSE_SCALE := 2, dpi := DPI.DPI_72 }

/-! ## Machine integers -/

/-- Value of `INT_MAX` for the 32-bit `int`. -/
def INT_MAX : Nat := 2147483647

/-- Number of values of a `uint32_t`. -/
def UINT32_MOD : Nat := 2 ^ 32

/-- Number of values of a `uint16_t`. -/
def UINT16_MOD : Nat := 2 ^ 16

/-- Number of values of a `uint8_t`. -/
def UINT8_MOD : Nat := 2 ^ 8

/-- Result of an `int` operation whose exact value is `x`: the 32-bit
two's-complement value congruent to `x` modulo `2^32 = 4294967296`, in
`[-2147483648, 2147483647]`. It is `x` itself when `x` is in that range;
otherwise the operation overflows, which ISO C leaves undefined, and this is
the wrap-around value to which the compiler folds the constant expression. -/
def to_int32 (x : Int) : Int := (x + 2147483648) % 4294967296 - 2147483648

/-- Two's-complement bit pattern of a 32-bit `int` (the type every operand of
`&`, `|`, `<<`, `>>` in `grav.c` is promoted to): the value modulo
`2^32 = 4294967296`. This is also the conversion of an `int` to `uint32_t`. -/
def int_bits (x : Int) : Nat := (x % 4294967296).toNat

/-- Conversion of an `int` value to `int16_t`: reduction modulo `2^16` into
`[-32768, 32767]`. -/
def to_int16 (n : Int) : Int := (n + 32768) % 65536 - 32768

/-! ## Output geometry macros -/

/-- Macro `#define OUTPUT_IMAGE_WIDTH (NLON / (INVERSE_SCALE / 2))`; a quotient
of non-negative `int` values, which does not overflow. -/
def OUTPUT_IMAGE_WIDTH (cfg : Config) : Nat := cfg.NLON / (cfg.INVERSE_SCALE / 2)

/-- Macro `#define OUTPUT_IMAGE_HEIGHT (NLAT / (INVERSE_SCALE / 2))`; a quotient
of non-negative `int` values, which does not overflow. -/
def OUTPUT_IMAGE_HEIGHT (cfg : Config) : Nat := cfg.NLAT / (cfg.INVERSE_SCALE / 2)

/-- Macro `#define OUTPUT_RAW_SINGLE_UNITS (OUTPUT_IMAGE_WIDTH * OUTPUT_IMAGE_HEIGHT)`,
an `int` product. -/
def OUTPUT_RAW_SINGLE_UNITS (cfg : Config) : Int :=
  to_int32 ((OUTPUT_IMAGE_WIDTH cfg : Int) * (OUTPUT_IMAGE_HEIGHT cfg : Int))

/-! ## Bitmap definitions -/

def BITS_PER_PIXEL : Nat := 24
def BITMAP_PLANES : Nat := 1
def BITMAP_COMPRESSION : Nat := 0
def BITMAP_COLORS_IN_PALLETTE : Nat := 0
def BITMAP_IMPORTANT_COLORS : Nat := 0

/-- Type `struct bitmap_file_header` (packed). -/
structure bitmap_file_header where
  signature : Nat × Nat
  file_size : Nat
  reserved : Nat
  fileoffset_to_pixelarray : Nat
  deriving DecidableEq, Repr

/-- Type `struct dib_header` (packed). -/
structure dib_header where
  header_size : Nat
  width_in_pixels : Nat
  height_in_pixels : Nat
  color_planes : Nat
  bits_per_pixel : Nat
  compression : Nat
  image_size : Nat
  x_pixels_per_meter : Nat
  y_pixels_per_meter : Nat
  colors_in_pallette : Nat
  important_colors : Nat
  deriving DecidableEq, Repr

/-- Type `struct bitmap` (packed). -/
structure bitmap where
  bitmap_file_header : bitmap_file_header
  dib_header : dib_header
  deriving DecidableEq, Repr

/-- Type `struct bitmap_pixel` (packed): three `uint8_t` in the order B, G, R. -/
structure bitmap_pixel where
  B : Nat
  G : Nat
  R : Nat
  deriving DecidableEq, Repr

/-- Value of `sizeof(bitmap_file_header)` under `#pragma pack(push,1)`: 2 + 4 + 4 + 4. -/
def sizeof_bitmap_file_header : Nat := 2 * 1 + 4 + 4 + 4

/-- Value of `sizeof(dib_header)` under `#pragma pack(push,1)`. -/
def sizeof_dib_header : Nat := 4 + 4 + 4 + 2 + 2 + 4 + 4 + 4 + 4 + 4 + 4

/-- Value of `sizeof(bitmap)` under `#pragma pack(push,1)`. -/
def sizeof_bitmap : Nat := sizeof_bitmap_file_header + sizeof_dib_header

def PIXEL_BYTES : Nat := 3

/-- Macro `X_PIXEL_PER_METER`, selected by the `DPI_*` option (lines 116-135). -/
def X_PIXEL_PER_METER (cfg : Config) : Nat :=
  match cfg.dpi with
  | DPI.DPI_72 => 2835
  | DPI.DPI_96 => 3780
  | DPI.DPI_150 => 5906
  | DPI.DPI_200 => 7874
  | DPI.DPI_300 => 11811

/-- Macro `Y_PIXEL_PER_METER`, selected by the `DPI_*` option (lines 116-135). -/
def Y_PIXEL_PER_METER (cfg : Config) : Nat :=
  match cfg.dpi with
  | DPI.DPI_72 => 2835
  | DPI.DPI_96 => 3780
  | DPI.DPI_150 => 5906
  | DPI.DPI_200 => 7874
  | DPI.DPI_300 => 11811

/-- Macro `#define OUTPUT_ROW_BYTES ((((BITS_PER_PIXEL * OUTPUT_IMAGE_WIDTH) + 31)/32)*4)`,
an `int` expression: every operation is a 32-bit `int` operation and `/`
truncates towards zero. -/
def OUTPUT_ROW_BYTES (cfg : Config) : Int :=
  to_int32 (Int.tdiv
    (to_int32 (to_int32 ((BITS_PER_PIXEL : Int) * (OUTPUT_IMAGE_WIDTH cfg : Int)) + 31)) 32 * 4)

/-- Macro `#define OUTPUT_ROW_BYTES_WITHOUT_PADDING ((BITS_PER_PIXEL * OUTPUT_IMAGE_WIDTH)/8)`,
an `int` expression. -/
def OUTPUT_ROW_BYTES_WITHOUT_PADDING (cfg : Config) : Int :=
  Int.tdiv (to_int32 ((BITS_PER_PIXEL : Int) * (OUTPUT_IMAGE_WIDTH cfg : Int))) 8

/-- Macro `#define OUTPUT_PIXEL_BYTE_COUNT (OUTPUT_ROW_BYTES * OUTPUT_IMAGE_HEIGHT)`,
an `int` product. -/
def OUTPUT_PIXEL_BYTE_COUNT (cfg : Config) : Int :=
  to_int32 (OUTPUT_ROW_BYTES cfg * (OUTPUT_IMAGE_HEIGHT cfg : Int))

/-- Macro `#define OUTPUT_FILE_SIZE (OUTPUT_PIXEL_BYTE_COUNT + sizeof(bitmap))`: the
`int` operand is converted to the 64-bit `size_t` of `sizeof` and the sum is
taken modulo `2^64 = 18446744073709551616`. -/
def OUTPUT_FILE_SIZE (cfg : Config) : Nat :=
  ((OUTPUT_PIXEL_BYTE_COUNT cfg + (sizeof_bitmap : Int)) % 18446744073709551616).toNat

/-- Macro `#define BYTE_SWAP(x) ( (((x) >> 8) & 0x00FF) | (((x) << 8) & 0xFF00) )`
for an `int` argument of `int16_t` range: `>>` is the arithmetic shift, `<<`
multiplies by `2^8` (no overflow in that range), and `&`, `|` act on the
two's-complement patterns. The result is a non-negative `int`. -/
def BYTE_SWAP (x : Int) : Nat :=
  ((int_bits (x >>> (8 : Nat))) &&& 0x00FF) ||| ((int_bits (x <<< (8 : Int))) &&& 0xFF00)

/-! ## Bitmap header -/

/-- Function `new_bitmap`: the header record `calloc`ed and filled at lines 176-204. All
fields are `uint32_t` except `color_planes` and `bits_per_pixel`
(`uint16_t`) and the two `uint8_t` signature bytes; `file_size` receives the
`size_t` value of `OUTPUT_FILE_SIZE` and `image_size` the `int` value of
`OUTPUT_RAW_SINGLE_UNITS`, both converted to `uint32_t`. -/
def new_bitmap (cfg : Config) : bitmap :=
  { bitmap_file_header :=
      { signature := ('B'.toNat, 'M'.toNat)
        file_size := OUTPUT_FILE_SIZE cfg % UINT32_MOD
        reserved := 0
        fileoffset_to_pixelarray := sizeof_bitmap % UINT32_MOD }
    dib_header :=
      { header_size := sizeof_dib_header % UINT32_MOD
        width_in_pixels := OUTPUT_IMAGE_WIDTH cfg % UINT32_MOD
        height_in_pixels := OUTPUT_IMAGE_HEIGHT cfg % UINT32_MOD
        color_planes := BITMAP_PLANES % UINT16_MOD
        bits_per_pixel := BITS_PER_PIXEL % UINT16_MOD
        compression := BITMAP_COMPRESSION % UINT32_MOD
        image_size := int_bits (OUTPUT_RAW_SINGLE_UNITS cfg)
        x_pixels_per_meter := X_PIXEL_PER_METER cfg % UINT32_MOD
        y_pixels_per_meter := Y_PIXEL_PER_METER cfg % UINT32_MOD
        colors_in_pallette := BITMAP_COLORS_IN_PALLETTE % UINT32_MOD
        important_colors := BITMAP_IMPORTANT_COLORS % UINT32_MOD } }

/-- The `n` bytes of an unsigned integer object in memory, least significant
byte first (the program runs on a little-endian machine, line 386). -/
def le_bytes : Nat → Nat → List Nat
  | 0, _ => []
  | n + 1, v => (v % 256) :: le_bytes n (v / 256)

/-- Memory image of a packed `bitmap`, as written by
`fwrite(bmp, 1, sizeof(bitmap), output_file)` (line 359). -/
def bitmap_bytes (b : bitmap) : List Nat :=
  [b.bitmap_file_header.signature.1 % 256, b.bitmap_file_header.signature.2 % 256]
    ++ le_bytes 4 b.bitmap_file_header.file_size
    ++ le_bytes 4 b.bitmap_file_header.reserved
    ++ le_bytes 4 b.bitmap_file_header.fileoffset_to_pixelarray
    ++ le_bytes 4 b.dib_header.header_size
    ++ le_bytes 4 b.dib_header.width_in_pixels
    ++ le_bytes 4 b.dib_header.height_in_pixels
    ++ le_bytes 2 b.dib_header.color_planes
    ++ le_bytes 2 b.dib_header.bits_per_pixel
    ++ le_bytes 4 b.dib_header.compression
    ++ le_bytes 4 b.dib_header.image_size
    ++ le_bytes 4 b.dib_header.x_pixels_per_meter
    ++ le_bytes 4 b.dib_header.y_pixels_per_meter
    ++ le_bytes 4 b.dib_header.colors_in_pallette
    ++ le_bytes 4 b.dib_header.important_colors

/-! ## Pixel output and colour mapping -/

/-- Function `bitmap_write_pixel`: the three `fputc` calls of lines 242-244, in the
order blue, green, red, each writing its argument as an `unsigned char`. The
output file is open, so the `NULL` test of line 235 does not fire. -/
def bitmap_write_pixel (fp : List Nat) (bp : bitmap_pixel) : List Nat :=
  fp ++ [bp.B % UINT8_MOD] ++ [bp.G % UINT8_MOD] ++ [bp.R % UINT8_MOD]

/-- Macro `#define BP_RGB(bp,r,g,b) bp->R=r;bp->G=g;bp->B=b` -/
def BP_RGB (bp : bitmap_pixel) (r g b : Nat) : bitmap_pixel :=
  { bp with R := r % UINT8_MOD, G := g % UINT8_MOD, B := b % UINT8_MOD }

/-- Function `z_to_pixel` (lines 252-307). `z` is the `int16_t` argument, `bp` the
pixel the pointer argument refers to; the updated pixel is returned. -/
def z_to_pixel (z : Int) (bp : bitmap_pixel) : bitmap_pixel :=
  if int_bits z &&& 0x1 ≠ 0 then
    if z < -300 then
      BP_RGB bp 0x00 0x00 0x66
    else if z < -200 ∧ z ≥ -300 then
      BP_RGB bp 0x00 0x00 0xcc
    else if z < -100 ∧ z ≥ -200 then
      BP_RGB bp 0x00 0x66 0xcc
    else if z < 0 ∧ z ≥ -100 then
      BP_RGB bp 0x00 0x99 0xff
    else if z < 100 ∧ z ≥ 0 then
      BP_RGB bp 0x00 0xdd 0xaa
    else if z < 200 ∧ z ≥ 100 then
      BP_RGB bp 0x00 0xff 0x00
    else if z < 300 ∧ z ≥ 200 then
      BP_RGB bp 0x99 0xff 0x66
    else if z < 400 ∧ z ≥ 300 then
      BP_RGB bp 0xcc 0xff 0x66
    else
      BP_RGB bp 0xff 0xff 0x66
  else
    BP_RGB bp 0xff 0xff 0xff

/-- Function `write_bitmap_row_padding` (lines 311-318): `rem` is the `int` difference
of the two row sizes converted to `uint8_t`, and the loop writes `rem` zero
bytes. -/
def write_bitmap_row_padding (cfg : Config) (fp : List Nat) : List Nat :=
  let rem : Nat :=
    (to_int32 (OUTPUT_ROW_BYTES cfg - OUTPUT_ROW_BYTES_WITHOUT_PADDING cfg) % 256).toNat
  fp ++ List.replicate rem 0

/-! ## Source file access -/

/-- The pair `fseek(input_file, off, 0); fread(&read_value, 1, 2, input_file)`
(lines 381-384) on a little-endian machine. `old` is the previous content of
`read_value`: a read that reaches the end of the file leaves the bytes it
could not fill unchanged. -/
def fread_int16 (src : List (Fin 256)) (off : Nat) (old : Int) : Int :=
  match src[off]?, src[off + 1]? with
  | some b0, some b1 => to_int16 ((b0.val : Int) + 256 * (b1.val : Int))
  | some b0, none => to_int16 ((b0.val : Int) + 256 * ((old % 65536) / 256))
  | none, _ => old

/-! ## The main loop -/

/-- Contents of the locals of `main` that are declared without an initialiser
(`pixel`, line 326, and `read_value`, line 342). -/
structure Uninit where
  pixel : bitmap_pixel
  read_value : Int

/-- The locals of `main` that the loop changes, and the bytes written to
`output_file` so far. -/
structure LoopState where
  i : Int
  current_output_column : Nat
  current_output_row : Nat
  source_row_x : Nat
  read_value : Int
  pixel : bitmap_pixel
  output_file : List Nat

/-- State of `main` when the `while` is reached (lines 323-363): the header
has been written to the output file. -/
def initial_state (cfg : Config) (u : Uninit) : LoopState :=
  { i := 0
    current_output_column := 0
    current_output_row := 0
    source_row_x := 0
    read_value := to_int16 u.read_value
    pixel := u.pixel
    output_file := bitmap_bytes (new_bitmap cfg) }

/-- The test of the `if` at line 369, in `uint32_t` arithmetic: the sum wraps
modulo `2^32` and the `int` macro is converted to `uint32_t`. -/
def at_end_of_row (cfg : Config) (st : LoopState) : Bool :=
  decide ((st.current_output_column + PIXEL_BYTES) % UINT32_MOD
    > int_bits (OUTPUT_ROW_BYTES_WITHOUT_PADDING cfg))

/-- The offset passed to `fseek` at line 381, in `uint32_t` arithmetic. -/
def seek_offset (cfg : Config) (st : LoopState) : Nat :=
  ((st.current_output_row * cfg.NLON) % UINT32_MOD + st.source_row_x) % UINT32_MOD

/-- One execution of the body of the `while` (lines 365-410). -/
def loop_body (cfg : Config) (src : List (Fin 256)) (st : LoopState) : LoopState :=
  if at_end_of_row cfg st then
    { st with
      output_file := write_bitmap_row_padding cfg st.output_file
      current_output_column := 0
      current_output_row := (st.current_output_row + cfg.INVERSE_SCALE) % UINT32_MOD
      source_row_x := 0 }
  else
    let read_value := fread_int16 src (seek_offset cfg st) st.read_value
    let read_value := to_int16 (BYTE_SWAP read_value)
    let pixel := z_to_pixel read_value st.pixel
    { st with
      read_value := read_value
      pixel := pixel
      output_file := bitmap_write_pixel st.output_file pixel
      source_row_x := (st.source_row_x + cfg.INVERSE_SCALE) % UINT32_MOD
      current_output_column := (st.current_output_column + PIXEL_BYTES) % UINT32_MOD
      i := to_int32 (st.i + 1) }

/-- The `while (i < OUTPUT_RAW_SINGLE_UNITS)` loop, an `int` comparison, run for
at most `fuel` iterations; `none` when the fuel does not suffice. -/
def main_loop (cfg : Config) (src : List (Fin 256)) : Nat → LoopState → Option LoopState
  | 0, st => if st.i < OUTPUT_RAW_SINGLE_UNITS cfg then none else some st
  | fuel + 1, st =>
    if st.i < OUTPUT_RAW_SINGLE_UNITS cfg then
      main_loop cfg src fuel (loop_body cfg src st)
    else
      some st

/-- The statement after the loop (lines 412-416); the `int` macro is converted
to `uint32_t` for the comparison. -/
def write_last_padding (cfg : Config) (st : LoopState) : List Nat :=
  if st.current_output_column > int_bits (OUTPUT_ROW_BYTES_WITHOUT_PADDING cfg) then
    write_bitmap_row_padding cfg st.output_file
  else
    st.output_file

/-- Function `main`: the content of the output file when the program returns, for the
source file `src`; `none` when `fuel` loop iterations do not suffice. -/
def main (cfg : Config) (src : List (Fin 256)) (u : Uninit) (fuel : Nat) :
    Option (List Nat) :=
  (main_loop cfg src fuel (initial_state cfg u)).map (write_last_padding cfg)

/-! ## Derived descriptions used to state the theorems -/

/-- The row stride of the bitmap format for the output width, in exact
arithmetic: `((24 * width + 31) / 32) * 4`. It is the value of the expression
of `OUTPUT_ROW_BYTES` when no operation overflows, and the value the
preprocessor, which computes in `intmax_t`, gives the macro in the `#if` of
line 169. -/
def row_stride (cfg : Config) : Nat :=
  (((BITS_PER_PIXEL * OUTPUT_IMAGE_WIDTH cfg) + 31) / 32) * 4

/-- The number of pixel bytes of an output row in exact arithmetic,
`(24 * width) / 8`: the value of the expression of
`OUTPUT_ROW_BYTES_WITHOUT_PADDING` when no operation overflows and in the `#if`
of line 169. -/
def row_width (cfg : Config) : Nat :=
  (BITS_PER_PIXEL * OUTPUT_IMAGE_WIDTH cfg) / 8

/-- A valid configuration in the sense of the specification: the scale is even
and both output dimensions are positive. -/
def valid_config (cfg : Config) : Prop :=
  cfg.INVERSE_SCALE % 2 = 0 ∧
  1 ≤ OUTPUT_IMAGE_WIDTH cfg ∧
  1 ≤ OUTPUT_IMAGE_HEIGHT cfg

instance (cfg : Config) : Decidable (valid_config cfg) := by
  unfold valid_config
  infer_instance

/-- The configurations in which no `int` expression of the program overflows:
the three constants are `int` values, and the exact values of
`BITS_PER_PIXEL * OUTPUT_IMAGE_WIDTH + 31` (inside `OUTPUT_ROW_BYTES`), of
`OUTPUT_RAW_SINGLE_UNITS` and of `OUTPUT_PIXEL_BYTE_COUNT` are at most
`INT_MAX`. -/
def int_range (cfg : Config) : Prop :=
  cfg.NLON ≤ INT_MAX ∧ cfg.NLAT ≤ INT_MAX ∧ cfg.INVERSE_SCALE ≤ INT_MAX ∧
  24 * OUTPUT_IMAGE_WIDTH cfg + 31 ≤ INT_MAX ∧
  OUTPUT_IMAGE_WIDTH cfg * OUTPUT_IMAGE_HEIGHT cfg ≤ INT_MAX ∧
  row_stride cfg * OUTPUT_IMAGE_HEIGHT cfg ≤ INT_MAX

instance (cfg : Config) : Decidable (int_range cfg) := by
  unfold int_range
  infer_instance

/-- Specification-side view of the source file (the "Source Grid" of the data
model, not a function of `grav.c`): sample (`row`, `col`) of the row-major
`NLON`-wide grid, two bytes per sample at byte offset `(row * NLON + col) * 2`,
most significant byte first, as a two's-complement 16-bit value; `none`
outside the file. -/
def source_grid (cfg : Config) (src : List (Fin 256)) (row col : Nat) : Option Int :=
  match src[(row * cfg.NLON + col) * 2]?, src[(row * cfg.NLON + col) * 2 + 1]? with
  | some hi, some lo => some (to_int16 (256 * (hi.val : Int) + (lo.val : Int)))
  | _, _ => none

/-- The three bytes `bitmap_write_pixel` appends for a pixel. -/
def pixel_bytes (bp : bitmap_pixel) : List Nat :=
  [bp.B % UINT8_MOD, bp.G % UINT8_MOD, bp.R % UINT8_MOD]

/-- Offset the loop seeks to for the `n`-th pixel it writes (`n` counts from
zero, row-major): output row `n / OUTPUT_IMAGE_WIDTH`, output column
`n % OUTPUT_IMAGE_WIDTH`. -/
def nth_seek_offset (cfg : Config) (n : Nat) : Nat :=
  (cfg.INVERSE_SCALE * (n / OUTPUT_IMAGE_WIDTH cfg) * cfg.NLON
    + cfg.INVERSE_SCALE * (n % OUTPUT_IMAGE_WIDTH cfg)) % UINT32_MOD

/-- Content of `read_value` after `n` pixels have been written. -/
def nth_read_value (cfg : Config) (src : List (Fin 256)) (u : Uninit) : Nat → Int
  | 0 => to_int16 u.read_value
  | n + 1 =>
    to_int16 (BYTE_SWAP (fread_int16 src (nth_seek_offset cfg n) (nth_read_value cfg src u n)))

/-- The `n`-th pixel the loop writes. -/
def nth_pixel (cfg : Config) (src : List (Fin 256)) (u : Uninit) (n : Nat) : bitmap_pixel :=
  z_to_pixel (nth_read_value cfg src u (n + 1)) u.pixel

/-- Pixel bytes of the first `c` pixels of output row `r`. -/
def row_pixels (cfg : Config) (src : List (Fin 256)) (u : Uninit) (r : Nat) : Nat → List Nat
  | 0 => []
  | c + 1 =>
    row_pixels cfg src u r c
      ++ pixel_bytes (nth_pixel cfg src u (r * OUTPUT_IMAGE_WIDTH cfg + c))

/-- Number of zero bytes `write_bitmap_row_padding` writes (its `rem`). -/
def row_padding (cfg : Config) : Nat :=
  (to_int32 (OUTPUT_ROW_BYTES cfg - OUTPUT_ROW_BYTES_WITHOUT_PADDING cfg) % 256).toNat

/-- Bytes of the first `r` output rows, each followed by its row padding. -/
def rows_before (cfg : Config) (src : List (Fin 256)) (u : Uninit) : Nat → List Nat
  | 0 => []
  | r + 1 =>
    rows_before cfg src u r
      ++ row_pixels cfg src u r (OUTPUT_IMAGE_WIDTH cfg)
      ++ List.replicate (row_padding cfg) 0

/-- Bytes written when the loop head is reached with `c` pixels of output row
`r` written: the header, `r` padded rows and `c` pixels. -/
def written (cfg : Config) (src : List (Fin 256)) (u : Uninit) (r c : Nat) : List Nat :=
  bitmap_bytes (new_bitmap cfg) ++ rows_before cfg src u r ++ row_pixels cfg src u r c

/-- The pixel the loop body computes at output coordinate (`r`, `c`) when the
two-byte read succeeds: line 381 seeks to
`current_output_row * NLON + source_row_x` with
`current_output_row = r * INVERSE_SCALE` and `source_row_x = c * INVERSE_SCALE`,
lines 384-390 read, swap and map. -/
def pixel_at (cfg : Config) (src : List (Fin 256)) (r c : Nat) : bitmap_pixel :=
  z_to_pixel
    (to_int16 (BYTE_SWAP (fread_int16 src
      ((r * cfg.INVERSE_SCALE) * cfg.NLON + c * cfg.INVERSE_SCALE) 0)))
    { B := 0, G := 0, R := 0 }

/-- The 4 x 4 example grid: row 0 is `[1, 2, 101, -1]`, rows 1 to 3 are zero,
most significant byte first. -/
def example_source : List (Fin 256) :=
  [0, 1, 0, 2, 0, 101, 255, 255] ++ List.replicate 24 0

/-- Arbitrary initial contents of the uninitialised locals for the examples. -/
def example_uninit : Uninit :=
  { pixel := { B := 7, G := 7, R := 7 }, read_value := 12345 }

/-- The example grid with `INVERSE_SCALE` 2. -/
def example_config_scale2 : Config :=
  { NLON := 4, NLAT := 4, INVERSE_SCALE := 2, dpi := DPI.DPI_72 }

/-- The example grid with `INVERSE_SCALE` 4. -/
def example_config_scale4 : Config :=
  { NLON := 4, NLAT := 4, INVERSE_SCALE := 4, dpi := DPI.DPI_72 }

/-- The reference grid with `INVERSE_SCALE` 64: output 675 x 540, three
padding bytes per row. -/
def reference_config_scale64 : Config :=
  { NLON := 21600, NLAT := 17280, INVERSE_SCALE := 64, dpi := DPI.DPI_72 }

/-- Loop invariant of the `while` of `main`: the state at the loop head when
`c` pixels of output row `r` have been written (`uint32_t` counters modulo
`2^32`). -/
structure LoopInv (cfg : Config) (src : List (Fin 256)) (u : Uninit) (r c : Nat)
    (st : LoopState) : Prop where
  i_eq : st.i = ((r * OUTPUT_IMAGE_WIDTH cfg + c : Nat) : Int)
  column_eq : st.current_output_column = 3 * c
  row_eq : st.current_output_row = (cfg.INVERSE_SCALE * r) % UINT32_MOD
  source_x_eq : st.source_row_x = (cfg.INVERSE_SCALE * c) % UINT32_MOD
  read_value_eq :
    st.read_value = nth_read_value cfg src u (r * OUTPUT_IMAGE_WIDTH cfg + c)
  output_eq : st.output_file = written cfg src u r c

/-- Number of loop iterations still to run from the loop head with `c` pixels
of output row `r` written. -/
def steps_left (cfg : Config) (r c : Nat) : Nat :=
  (OUTPUT_IMAGE_HEIGHT cfg - 1 - r) * (OUTPUT_IMAGE_WIDTH cfg + 1)
    + (OUTPUT_IMAGE_WIDTH cfg - c)

/-! ## The odd-sample chain as a list of guarded branches -/

/-- The `r`, `g`, `b` arguments of one `BP_RGB` call. -/
abbrev Colour : Type := Nat × Nat × Nat

/-- The eight explicitly guarded branches of the odd-sample chain of
`z_to_pixel` (lines 261-292), in program order: the condition of each `if` /
`else if` and the arguments of its `BP_RGB`. -/
def odd_chain : List ((Int → Bool) × Colour) :=
  [ (fun z => decide (z < -300), (0x00, 0x00, 0x66)),
    (fun z => decide (z < -200 ∧ z ≥ -300), (0x00, 0x00, 0xcc)),
    (fun z => decide (z < -100 ∧ z ≥ -200), (0x00, 0x66, 0xcc)),
    (fun z => decide (z < 0 ∧ z ≥ -100), (0x00, 0x99, 0xff)),
    (fun z => decide (z < 100 ∧ z ≥ 0), (0x00, 0xdd, 0xaa)),
    (fun z => decide (z < 200 ∧ z ≥ 100), (0x00, 0xff, 0x00)),
    (fun z => decide (z < 300 ∧ z ≥ 200), (0x99, 0xff, 0x66)),
    (fun z => decide (z < 400 ∧ z ≥ 300), (0xcc, 0xff, 0x66)) ]

/-- The arguments of the `BP_RGB` of the final `else` (lines 293-296). -/
def odd_catch_all : Colour := (0xff, 0xff, 0x66)

/-- Evaluation of an `if` / `else if` chain at `z`: the first branch whose
condition holds wins, `last` is the final `else`. -/
def first_match (z : Int) : List ((Int → Bool) × Colour) → Colour → Colour
  | [], last => last
  | (guard, colour) :: rest, last => if guard z then colour else first_match z rest last

/-- The function `z_to_pixel` with the guarded branches of its odd-sample
chain replaced by `chain` (the catch-all stays last). -/
def z_to_pixel_with (chain : List ((Int → Bool) × Colour)) (z : Int) (bp : bitmap_pixel) :
    bitmap_pixel :=
  if int_bits z &&& 0x1 ≠ 0 then
    BP_RGB bp (first_match z chain odd_catch_all).1 (first_match z chain odd_catch_all).2.1
      (first_match z chain odd_catch_all).2.2
  else
    BP_RGB bp 0xff 0xff 0xff

/-- Two branches of a chain never disagree at `z`: when both conditions hold
they store the same colour. -/
def chain_exclusive (z : Int) (chain : List ((Int → Bool) × Colour)) : Prop :=
  ∀ a ∈ chain, ∀ b ∈ chain, a.1 z = true → b.1 z = true → a.2 = b.2

/-! ## Compile-time error checks -/

/-- The test of line 165, `#if BITS_PER_PIXEL!=24`, as a predicate on the
value of the macro: `true` when the `#error` is not reached. -/
def bits_per_pixel_check (bits_per_pixel : Int) : Bool :=
  !(bits_per_pixel != 24)

/-- The test of line 169 as a predicate on the values of `OUTPUT_ROW_BYTES`
and `OUTPUT_ROW_BYTES_WITHOUT_PADDING`: `true` when the `#error` is not
reached. -/
def row_padding_check (row_bytes row_bytes_without_padding : Int) : Bool :=
  !((row_bytes - row_bytes_without_padding > 4) || (row_bytes - row_bytes_without_padding < 0))

/-- The error checks of lines 165-173 together. -/
def error_checks (bits_per_pixel row_bytes row_bytes_without_padding : Int) : Bool :=
  bits_per_pixel_check bits_per_pixel
    && row_padding_check row_bytes row_bytes_without_padding

/-- Whether the program builds for a configuration. The check of line 161
(`X_PIXEL_PER_METER` defined) passes because a `Config` selects a `DPI_*`
option; the `#if` of line 169 evaluates `NLON / (INVERSE_SCALE / 2)`, and the
preprocessor stops on a division by zero, so `INVERSE_SCALE / 2` must not be
zero; the remaining tests are `error_checks` on the values the preprocessor
gives the macros, which it computes in `intmax_t` (`row_stride`,
`row_width`). -/
def config_accepted (cfg : Config) : Bool :=
  decide (cfg.INVERSE_SCALE / 2 ≠ 0)
    && error_checks (BITS_PER_PIXEL : Int) (row_stride cfg : Int) (row_width cfg : Int)

/-- A configuration whose output has no pixels: `INVERSE_SCALE / 2 = 5`
exceeds both grid dimensions. -/
def empty_output_config : Config :=
  { NLON := 4, NLAT := 4, INVERSE_SCALE := 10, dpi := DPI.DPI_72 }

/-- A grid of one row of 100000000 samples, not shrunk: the output width is
100000000, and `BITS_PER_PIXEL * OUTPUT_IMAGE_WIDTH = 2400000000` exceeds
`INT_MAX`. -/
def wide_row_config : Config :=
  { NLON := 100000000, NLAT := 1, INVERSE_SCALE := 2, dpi := DPI.DPI_72 }

/-- A grid of one row of 178956972 samples, not shrunk:
`BITS_PER_PIXEL * OUTPUT_IMAGE_WIDTH = 2^32 + 32`, which the 32-bit `int`
holds as 32. -/
def folded_row_config : Config :=
  { NLON := 178956972, NLAT := 1, INVERSE_SCALE := 2, dpi := DPI.DPI_72 }

/-- A 65536 x 65536 grid, not shrunk: the number of output pixels is `2^32`,
which the 32-bit `int` of `OUTPUT_RAW_SINGLE_UNITS` holds as 0. -/
def square_grid_config : Config :=
  { NLON := 65536, NLAT := 65536, INVERSE_SCALE := 2, dpi := DPI.DPI_72 }

/-- A grid with the odd `INVERSE_SCALE = 613566757`, so that
`INVERSE_SCALE / 2 = 306783378`: the output is 7 x 1, no `int` expression
overflows, and `INVERSE_SCALE * 7 = 2^32 + 3`. -/
def odd_scale_config : Config :=
  { NLON := 2147483647, NLAT := 306783378, INVERSE_SCALE := 613566757, dpi := DPI.DPI_72 }

/-- A 65536 x 131072 grid with `INVERSE_SCALE = 131072`: the output is 1 x 2, no
`int` expression overflows, and the source file has `2^34` bytes. -/
def tall_grid_config : Config :=
  { NLON := 65536, NLAT := 131072, INVERSE_SCALE := 131072, dpi := DPI.DPI_72 }

/-! ## Iterations and loop-head states of a run -/

/-- What one iteration of the `while` of `main` does: a row reset (the `if` of
line 369 is taken) or a pixel write after seeking to an offset of the source. -/
inductive LoopEvent where
  | row_reset
  | pixel_write (seek : Nat)
  deriving DecidableEq, Repr

/-- The iterations the loop performs from a loop-head state, in order, for at
most `fuel` iterations. -/
def loop_events (cfg : Config) (src : List (Fin 256)) : Nat → LoopState → List LoopEvent
  | 0, _ => []
  | fuel + 1, st =>
    if st.i < OUTPUT_RAW_SINGLE_UNITS cfg then
      (if at_end_of_row cfg st then LoopEvent.row_reset
        else LoopEvent.pixel_write (seek_offset cfg st))
        :: loop_events cfg src fuel (loop_body cfg src st)
    else
      []

/-- The first `c` pixel writes of output row `r`. -/
def row_events (cfg : Config) (r : Nat) : Nat → List LoopEvent
  | 0 => []
  | c + 1 =>
    row_events cfg r c
      ++ [LoopEvent.pixel_write (nth_seek_offset cfg (r * OUTPUT_IMAGE_WIDTH cfg + c))]

/-- The iterations for the first `r` output rows: for each row
`OUTPUT_IMAGE_WIDTH` pixel writes, then one row reset. -/
def events_before (cfg : Config) : Nat → List LoopEvent
  | 0 => []
  | r + 1 =>
    events_before cfg r ++ row_events cfg r (OUTPUT_IMAGE_WIDTH cfg) ++ [LoopEvent.row_reset]

/-- All iterations of a run with at least one output row: `OUTPUT_IMAGE_HEIGHT`
rows of `OUTPUT_IMAGE_WIDTH` consecutive pixel writes, separated by single
row resets; none for an output without rows. -/
def all_events (cfg : Config) : List LoopEvent :=
  if OUTPUT_IMAGE_HEIGHT cfg = 0 then []
  else events_before cfg (OUTPUT_IMAGE_HEIGHT cfg - 1)
    ++ row_events cfg (OUTPUT_IMAGE_HEIGHT cfg - 1) (OUTPUT_IMAGE_WIDTH cfg)

/-- Whether an iteration is a pixel write. -/
def LoopEvent.is_pixel_write : LoopEvent → Bool
  | LoopEvent.row_reset => false
  | LoopEvent.pixel_write _ => true

/-- The states at the head of the `while` of `main`, in order, for at most
`fuel` iterations from a loop-head state; the last one is the state in which
the loop exits when the fuel suffices. -/
def loop_heads (cfg : Config) (src : List (Fin 256)) : Nat → LoopState → List LoopState
  | 0, st => [st]
  | fuel + 1, st =>
    st :: (if st.i < OUTPUT_RAW_SINGLE_UNITS cfg then
        loop_heads cfg src fuel (loop_body cfg src st)
      else
        [])

/-- Number of row resets performed before the `k`-th loop head of a run: the
number of earlier loop heads at which the test of line 369 holds. -/
def resets_before (cfg : Config) (heads : List LoopState) (k : Nat) : Nat :=
  (heads.take k).countP (at_end_of_row cfg)

/-! ## Further configurations and the unpadded pixel stream -/

/-- The reference grid (`NLON = 21600`, `NLAT = 17280`, lines 49-50) with an
arbitrary `INVERSE_SCALE` and `DPI_*` option. -/
def reference_grid (s : Nat) (d : DPI) : Config :=
  { NLON := 21600, NLAT := 17280, INVERSE_SCALE := s, dpi := d }

/-- Bytes of the first `n` pixels the loop writes, with nothing between them. -/
def pixel_stream (cfg : Config) (src : List (Fin 256)) (u : Uninit) : Nat → List Nat
  | 0 => []
  | n + 1 => pixel_stream cfg src u n ++ pixel_bytes (nth_pixel cfg src u n)

/-! ## Machine integer lemmas -/

theorem int_bits_eq (x : Int) : int_bits x = (x % 4294967296).toNat := rfl

theorem int_bits_and_one (z : Int) : int_bits z &&& 0x1 = (z % 2).toNat := by
  rw [int_bits_eq, Nat.and_one_is_mod]
  omega

theorem low_bit_set_iff (z : Int) : int_bits z &&& 0x1 ≠ 0 ↔ z % 2 = 1 := by
  rw [int_bits_and_one]
  omega

theorem and_div_256 (a b : Nat) : (a &&& b) / 256 = a / 256 &&& b / 256 := by
  have h : ∀ n : Nat, n / 256 = n / 2 / 2 / 2 / 2 / 2 / 2 / 2 / 2 := by
    intro n
    omega
  rw [h, h a, h b]
  simp only [Nat.and_div_two]

theorem and_0x00FF (n : Nat) : n &&& 0x00FF = n % 256 := by
  have h := Nat.and_pow_two_sub_one_eq_mod n 8
  norm_num at h
  exact h

theorem and_0xFF00 (n : Nat) : n &&& 0xFF00 = 256 * ((n / 256) % 256) := by
  have hdiv : (n &&& 0xFF00) / 256 = (n / 256) % 256 := by
    rw [and_div_256, ← and_0x00FF]
  have hmod : (n &&& 0xFF00) % 256 = 0 := by
    rw [← and_0x00FF, Nat.and_assoc]
    have hmask : (0xFF00 : Nat) &&& 0x00FF = 0 := by decide
    rw [hmask]
    simp
  omega

theorem shift_right_8 (x : Int) : x >>> (8 : Nat) = x / 256 := by
  rw [Int.shiftRight_eq_div_pow]
  norm_num

theorem shift_left_8 (x : Int) : x <<< (8 : Int) = x * 256 := by
  have h := Int.shiftLeft_eq_mul_pow x 8
  norm_num at h
  exact h

/-- Arithmetic reading of `BYTE_SWAP`: bits 8-15 of the argument move to bits
0-7 and bits 0-7 move to bits 8-15. -/
theorem BYTE_SWAP_eq (x : Int) :
    BYTE_SWAP x = ((x / 256) % 256).toNat + 256 * (x % 256).toNat := by
  unfold BYTE_SWAP
  rw [and_0x00FF, and_0xFF00, shift_right_8, shift_left_8, int_bits_eq, int_bits_eq]
  have h1 : ((x / 256) % 4294967296).toNat % 256 = ((x / 256) % 256).toNat := by omega
  have h2 : ((x * 256) % 4294967296).toNat / 256 % 256 = (x % 256).toNat := by omega
  rw [h1, h2, Nat.or_comm]
  have hb : (x / 256 % 256).toNat < 2 ^ 8 := by
    norm_num
    omega
  have h3 := @Nat.mul_add_lt_is_or 8 _ hb (x % 256).toNat
  norm_num at h3
  omega

theorem to_int16_range (n : Int) : -32768 ≤ to_int16 n ∧ to_int16 n ≤ 32767 := by
  unfold to_int16
  omega

/-- A complete two-byte read followed by the swap yields the big-endian value,
whatever `read_value` held before. -/
theorem swap_fread_full (src : List (Fin 256)) (off : Nat) (old : Int) (b0 b1 : Fin 256)
    (h0 : src[off]? = some b0) (h1 : src[off + 1]? = some b1) :
    to_int16 (BYTE_SWAP (fread_int16 src off old))
      = to_int16 (256 * (b0.val : Int) + (b1.val : Int)) := by
  have hb0 := b0.isLt
  have hb1 := b1.isLt
  have hlo : to_int16 ((b0.val : Int) + 256 * (b1.val : Int)) % 256 = (b0.val : Int) := by
    unfold to_int16
    omega
  have hhi : to_int16 ((b0.val : Int) + 256 * (b1.val : Int)) / 256 % 256 = (b1.val : Int) := by
    unfold to_int16
    omega
  have hswap : ((BYTE_SWAP (to_int16 ((b0.val : Int) + 256 * (b1.val : Int))) : Nat) : Int)
      = 256 * (b0.val : Int) + (b1.val : Int) := by
    rw [BYTE_SWAP_eq, hlo, hhi]
    omega
  simp only [fread_int16, h0, h1]
  rw [hswap]

/-! ## The colour mapper -/

theorem z_to_pixel_ignores_old (z : Int) (bp bp' : bitmap_pixel) :
    z_to_pixel z bp = z_to_pixel z bp' := by
  simp only [z_to_pixel, BP_RGB]

/-- C1: for every odd sample `z` (in particular every odd `int16_t`, negative
ones included) `z_to_pixel` stores exactly the (B, G, R) triple of the nine-row
table: the row is selected by the half-open interval that contains `z`. -/
theorem z_to_pixel_odd_table (z : Int) (bp : bitmap_pixel) (hodd : z % 2 = 1) :
    (z < -300 → z_to_pixel z bp = { B := 0x66, G := 0x00, R := 0x00 }) ∧
    (-300 ≤ z ∧ z < -200 → z_to_pixel z bp = { B := 0xCC, G := 0x00, R := 0x00 }) ∧
    (-200 ≤ z ∧ z < -100 → z_to_pixel z bp = { B := 0xCC, G := 0x66, R := 0x00 }) ∧
    (-100 ≤ z ∧ z < 0 → z_to_pixel z bp = { B := 0xFF, G := 0x99, R := 0x00 }) ∧
    (0 ≤ z ∧ z < 100 → z_to_pixel z bp = { B := 0xAA, G := 0xDD, R := 0x00 }) ∧
    (100 ≤ z ∧ z < 200 → z_to_pixel z bp = { B := 0x00, G := 0xFF, R := 0x00 }) ∧
    (200 ≤ z ∧ z < 300 → z_to_pixel z bp = { B := 0x66, G := 0xFF, R := 0x99 }) ∧
    (300 ≤ z ∧ z < 400 → z_to_pixel z bp = { B := 0x66, G := 0xFF, R := 0xCC }) ∧
    (400 ≤ z → z_to_pixel z bp = { B := 0x66, G := 0xFF, R := 0xFF }) := by
  have h1 : int_bits z &&& 0x1 ≠ 0 := (low_bit_set_iff z).mpr hodd
  refine ⟨?_, ?_, ?_, ?_, ?_, ?_, ?_, ?_, ?_⟩
  all_goals
    intro h
    unfold z_to_pixel
    rw [if_pos h1]
    repeat (first | rw [if_pos (by omega)] | rw [if_neg (by omega)])
  all_goals rfl

/-- Witness for C1 at the odd negative sample `-301`. -/
theorem z_to_pixel_odd_table_witness :
    (-301 : Int) % 2 = 1 ∧
      z_to_pixel (-301) { B := 0, G := 0, R := 0 } = { B := 0x66, G := 0x00, R := 0x00 } :=
  ⟨by decide,
    (z_to_pixel_odd_table (-301) { B := 0, G := 0, R := 0 } (by decide)).1 (by decide)⟩

/-- C2: for every even sample `z` (zero and negative even values included)
`z_to_pixel` stores pure white, B = G = R = 0xFF. -/
theorem z_to_pixel_even_white (z : Int) (bp : bitmap_pixel) (heven : z % 2 = 0) :
    z_to_pixel z bp = { B := 0xFF, G := 0xFF, R := 0xFF } := by
  have h1 : ¬ (int_bits z &&& 0x1 ≠ 0) := by
    rw [low_bit_set_iff]
    omega
  unfold z_to_pixel
  rw [if_neg h1]
  rfl

/-- Witness for C2 at the even negative sample `-302`. -/
theorem z_to_pixel_even_white_witness :
    (-302 : Int) % 2 = 0 ∧
      z_to_pixel (-302) { B := 0, G := 0, R := 0 } = { B := 0xFF, G := 0xFF, R := 0xFF } :=
  ⟨by decide, z_to_pixel_even_white (-302) { B := 0, G := 0, R := 0 } (by decide)⟩

/-! ## Byte order of the samples -/

theorem BYTE_SWAP_of_bytes (a b : Nat) (ha : a < 256) (x : Int)
    (hx : x % 65536 = (a : Int) + 256 * (b : Int)) : BYTE_SWAP x = b + 256 * a := by
  rw [BYTE_SWAP_eq]
  omega

theorem BYTE_SWAP_twice (v : Nat) (hv : v < 65536) : BYTE_SWAP (BYTE_SWAP (v : Int)) = v := by
  have h1 : BYTE_SWAP (v : Int) = v / 256 + 256 * (v % 256) :=
    BYTE_SWAP_of_bytes (v % 256) (v / 256) (by omega) v (by omega)
  have h2 := BYTE_SWAP_of_bytes (v / 256) (v % 256) (by omega)
    ((BYTE_SWAP (v : Int) : Nat) : Int) (by rw [h1]; omega)
  omega

theorem BYTE_SWAP_twice_int16 (x : Int) (hlo : -32768 ≤ x) (hhi : x ≤ 32767) :
    to_int16 (BYTE_SWAP (to_int16 (BYTE_SWAP x))) = x := by
  have h1 : BYTE_SWAP x = (x / 256 % 256).toNat + 256 * (x % 256).toNat := BYTE_SWAP_eq x
  have h2 := BYTE_SWAP_of_bytes (x / 256 % 256).toNat (x % 256).toNat (by omega)
    (to_int16 (BYTE_SWAP x)) (by rw [h1]; unfold to_int16; omega)
  rw [h2]
  unfold to_int16
  omega

/-- C9: when the two bytes `b0`, `b1` at the seek offset are read in file order,
`read_value` holds the little-endian load `b0 + 256 * b1`, and the value handed
to `z_to_pixel` after `BYTE_SWAP` and the conversion back to `int16_t` is the
big-endian two's-complement reading `256 * b0 + b1` reduced into
`[-32768, 32767]`; `BYTE_SWAP` is an involution on the 16-bit values, both on
the unsigned patterns and, up to the `int16_t` conversion, on the signed
values. -/
theorem byte_swap_reads_big_endian (src : List (Fin 256)) (off : Nat) (old : Int)
    (b0 b1 : Fin 256) (h0 : src[off]? = some b0) (h1 : src[off + 1]? = some b1) :
    fread_int16 src off old = to_int16 ((b0.val : Int) + 256 * (b1.val : Int)) ∧
    to_int16 (BYTE_SWAP (fread_int16 src off old))
      = to_int16 (256 * (b0.val : Int) + (b1.val : Int)) ∧
    -32768 ≤ to_int16 (256 * (b0.val : Int) + (b1.val : Int)) ∧
    to_int16 (256 * (b0.val : Int) + (b1.val : Int)) ≤ 32767 ∧
    (to_int16 (256 * (b0.val : Int) + (b1.val : Int))
      - (256 * (b0.val : Int) + (b1.val : Int))) % 65536 = 0 ∧
    (∀ v : Nat, v < 65536 → BYTE_SWAP (BYTE_SWAP v) = v) ∧
    (∀ x : Int, -32768 ≤ x → x ≤ 32767 → to_int16 (BYTE_SWAP (to_int16 (BYTE_SWAP x))) = x) := by
  refine ⟨?_, swap_fread_full src off old b0 b1 h0 h1, (to_int16_range _).1,
    (to_int16_range _).2, ?_, ?_, ?_⟩
  · simp only [fread_int16, h0, h1]
  · unfold to_int16
    omega
  · intro v hv
    exact BYTE_SWAP_twice v hv
  · intro x hlo hhi
    exact BYTE_SWAP_twice_int16 x hlo hhi

/-- Witness for C9: the bytes `0xFF 0x85` at offset 2 of a four-byte file are
read as the big-endian sample `-123`. -/
theorem byte_swap_reads_big_endian_witness :
    ([0, 1, 255, 133] : List (Fin 256))[2]? = some 255 ∧
    ([0, 1, 255, 133] : List (Fin 256))[2 + 1]? = some 133 ∧
    to_int16 (BYTE_SWAP (fread_int16 [0, 1, 255, 133] 2 0))
      = to_int16 (256 * (((255 : Fin 256)).val : Int) + (((133 : Fin 256)).val : Int)) ∧
    BYTE_SWAP (BYTE_SWAP ((513 : Nat) : Int)) = 513 :=
  ⟨by decide, by decide,
    (byte_swap_reads_big_endian [0, 1, 255, 133] 2 0 255 133 (by decide) (by decide)).2.1,
    (byte_swap_reads_big_endian [0, 1, 255, 133] 2 0 255 133 (by decide)
      (by decide)).2.2.2.2.2.1 513 (by decide)⟩

/-! ## Output geometry and header -/

theorem sizeof_bitmap_eq : sizeof_bitmap = 54 := rfl

theorem int_max_eq : INT_MAX = 2147483647 := rfl

theorem uint32_mod_eq : UINT32_MOD = 4294967296 := by
  unfold UINT32_MOD
  norm_num

theorem to_int32_eq (x : Int) (hlo : -2147483648 ≤ x) (hhi : x ≤ 2147483647) :
    to_int32 x = x := by
  unfold to_int32
  omega

theorem row_width_eq (cfg : Config) : row_width cfg = 3 * OUTPUT_IMAGE_WIDTH cfg := by
  unfold row_width BITS_PER_PIXEL
  omega

theorem row_stride_formula (cfg : Config) :
    row_stride cfg = ((24 * OUTPUT_IMAGE_WIDTH cfg + 31) / 32) * 4 := rfl

theorem row_stride_bounds (cfg : Config) :
    3 * OUTPUT_IMAGE_WIDTH cfg ≤ row_stride cfg ∧
      row_stride cfg < 3 * OUTPUT_IMAGE_WIDTH cfg + 4 ∧
      row_stride cfg % 4 = 0 := by
  rw [row_stride_formula]
  omega

/-- When `24 * width + 31` fits the `int`, no operation of `OUTPUT_ROW_BYTES`
overflows and the macro has its exact value. -/
theorem row_bytes_exact (cfg : Config) (h : 24 * OUTPUT_IMAGE_WIDTH cfg + 31 ≤ 2147483647) :
    OUTPUT_ROW_BYTES cfg = (row_stride cfg : Int) := by
  have hbpp : (BITS_PER_PIXEL : Int) = 24 := rfl
  have h1 : to_int32 ((24 : Int) * (OUTPUT_IMAGE_WIDTH cfg : Int))
      = 24 * (OUTPUT_IMAGE_WIDTH cfg : Int) := to_int32_eq _ (by omega) (by omega)
  have h2 : to_int32 ((24 : Int) * (OUTPUT_IMAGE_WIDTH cfg : Int) + 31)
      = 24 * (OUTPUT_IMAGE_WIDTH cfg : Int) + 31 := to_int32_eq _ (by omega) (by omega)
  unfold OUTPUT_ROW_BYTES
  rw [hbpp, h1, h2, Int.tdiv_eq_ediv (by omega) (by norm_num), row_stride_formula]
  unfold to_int32
  push_cast
  omega

/-- When `24 * width` fits the `int`, `OUTPUT_ROW_BYTES_WITHOUT_PADDING` is
`3 * width`. -/
theorem row_bytes_without_padding_exact (cfg : Config)
    (h : 24 * OUTPUT_IMAGE_WIDTH cfg + 31 ≤ 2147483647) :
    OUTPUT_ROW_BYTES_WITHOUT_PADDING cfg = ((3 * OUTPUT_IMAGE_WIDTH cfg : Nat) : Int) := by
  have hbpp : (BITS_PER_PIXEL : Int) = 24 := rfl
  have h1 : to_int32 ((24 : Int) * (OUTPUT_IMAGE_WIDTH cfg : Int))
      = 24 * (OUTPUT_IMAGE_WIDTH cfg : Int) := to_int32_eq _ (by omega) (by omega)
  unfold OUTPUT_ROW_BYTES_WITHOUT_PADDING
  rw [hbpp, h1, Int.tdiv_eq_ediv (by omega) (by norm_num)]
  push_cast
  omega

theorem row_bytes_toNat (cfg : Config) (h : 24 * OUTPUT_IMAGE_WIDTH cfg + 31 ≤ 2147483647) :
    (OUTPUT_ROW_BYTES cfg).toNat = row_stride cfg := by
  rw [row_bytes_exact cfg h, Int.toNat_ofNat]

/-- The `uint32_t` the row width is converted to in the comparisons of lines
369 and 413. -/
theorem row_width_bits (cfg : Config) (h : 24 * OUTPUT_IMAGE_WIDTH cfg + 31 ≤ 2147483647) :
    int_bits (OUTPUT_ROW_BYTES_WITHOUT_PADDING cfg) = 3 * OUTPUT_IMAGE_WIDTH cfg := by
  rw [row_bytes_without_padding_exact cfg h, int_bits_eq]
  have hn : 3 * OUTPUT_IMAGE_WIDTH cfg ≤ 2147483647 := by omega
  generalize 3 * OUTPUT_IMAGE_WIDTH cfg = n at hn ⊢
  omega

theorem raw_single_units_exact (cfg : Config)
    (h : OUTPUT_IMAGE_WIDTH cfg * OUTPUT_IMAGE_HEIGHT cfg ≤ 2147483647) :
    OUTPUT_RAW_SINGLE_UNITS cfg
      = ((OUTPUT_IMAGE_WIDTH cfg * OUTPUT_IMAGE_HEIGHT cfg : Nat) : Int) := by
  unfold OUTPUT_RAW_SINGLE_UNITS
  rw [← Int.ofNat_mul]
  exact to_int32_eq _ (by omega) (by omega)

theorem pixel_byte_count_exact (cfg : Config)
    (h : 24 * OUTPUT_IMAGE_WIDTH cfg + 31 ≤ 2147483647)
    (hbytes : row_stride cfg * OUTPUT_IMAGE_HEIGHT cfg ≤ 2147483647) :
    OUTPUT_PIXEL_BYTE_COUNT cfg = ((row_stride cfg * OUTPUT_IMAGE_HEIGHT cfg : Nat) : Int) := by
  unfold OUTPUT_PIXEL_BYTE_COUNT
  rw [row_bytes_exact cfg h, ← Int.ofNat_mul]
  exact to_int32_eq _ (by omega) (by omega)

theorem file_size_exact (cfg : Config)
    (h : 24 * OUTPUT_IMAGE_WIDTH cfg + 31 ≤ 2147483647)
    (hbytes : row_stride cfg * OUTPUT_IMAGE_HEIGHT cfg ≤ 2147483647) :
    OUTPUT_FILE_SIZE cfg = row_stride cfg * OUTPUT_IMAGE_HEIGHT cfg + 54 := by
  have hsz : (sizeof_bitmap : Int) = 54 := rfl
  unfold OUTPUT_FILE_SIZE
  rw [pixel_byte_count_exact cfg h hbytes, hsz]
  omega

theorem row_padding_eq (cfg : Config) (h : 24 * OUTPUT_IMAGE_WIDTH cfg + 31 ≤ 2147483647) :
    row_padding cfg = row_stride cfg - 3 * OUTPUT_IMAGE_WIDTH cfg := by
  have hb := row_stride_bounds cfg
  unfold row_padding
  rw [row_bytes_exact cfg h, row_bytes_without_padding_exact cfg h]
  unfold to_int32
  push_cast
  omega

theorem int_range_row (cfg : Config) (hir : int_range cfg) :
    24 * OUTPUT_IMAGE_WIDTH cfg + 31 ≤ 2147483647 := hir.2.2.2.1

theorem int_range_count (cfg : Config) (hir : int_range cfg) :
    OUTPUT_IMAGE_WIDTH cfg * OUTPUT_IMAGE_HEIGHT cfg ≤ 2147483647 := hir.2.2.2.2.1

theorem int_range_bytes (cfg : Config) (hir : int_range cfg) :
    row_stride cfg * OUTPUT_IMAGE_HEIGHT cfg ≤ 2147483647 := hir.2.2.2.2.2

theorem int_range_constants (cfg : Config) (hir : int_range cfg) :
    cfg.NLON ≤ 2147483647 ∧ cfg.NLAT ≤ 2147483647 ∧ cfg.INVERSE_SCALE ≤ 2147483647 :=
  ⟨hir.1, hir.2.1, hir.2.2.1⟩

/-- C5 as stated fails: for the output width 100000000 the `int` product
`24 * 100000000` overflows; `OUTPUT_ROW_BYTES` is -236870908, not
`((24*w + 31)/32)*4 = 300000000`, `OUTPUT_ROW_BYTES_WITHOUT_PADDING` is
-236870912, not `3*w`, and their difference is 4, outside {0, 1, 2, 3}. -/
theorem row_stride_overflow_counterexample :
    OUTPUT_IMAGE_WIDTH wide_row_config = 100000000 ∧
    OUTPUT_ROW_BYTES wide_row_config = -236870908 ∧
    ((((24 * 100000000 + 31) / 32) * 4 : Nat) : Int) = 300000000 ∧
    OUTPUT_ROW_BYTES wide_row_config ≠ ((((24 * 100000000 + 31) / 32) * 4 : Nat) : Int) ∧
    OUTPUT_ROW_BYTES_WITHOUT_PADDING wide_row_config = -236870912 ∧
    OUTPUT_ROW_BYTES_WITHOUT_PADDING wide_row_config ≠ 3 * 100000000 ∧
    OUTPUT_ROW_BYTES wide_row_config - OUTPUT_ROW_BYTES_WITHOUT_PADDING wide_row_config = 4 ∧
    OUTPUT_ROW_BYTES wide_row_config - OUTPUT_ROW_BYTES_WITHOUT_PADDING wide_row_config
      ∉ ({0, 1, 2, 3} : Set Int) := by
  have hd : OUTPUT_ROW_BYTES wide_row_config - OUTPUT_ROW_BYTES_WITHOUT_PADDING wide_row_config
      = 4 := by decide
  refine ⟨by decide, by decide, by decide, by decide, by decide, by decide, hd, ?_⟩
  rw [hd]
  simp

/-- C5, amended: for every output width `w` with `24*w + 31 ≤ INT_MAX` (the
width of an arbitrary configuration, `w ≤ 89478484`) at 24 bits per pixel,
`OUTPUT_ROW_BYTES = ((24*w + 31)/32)*4` is a multiple of 4, is at least
`OUTPUT_ROW_BYTES_WITHOUT_PADDING = (24*w)/8 = 3*w`, exceeds it by 0, 1, 2 or
3, and is the least multiple of 4 that is at least `3*w`. -/
theorem row_stride_least_multiple_of_four (cfg : Config) (w : Nat)
    (hw : OUTPUT_IMAGE_WIDTH cfg = w) (hfit : 24 * w + 31 ≤ INT_MAX) :
    OUTPUT_ROW_BYTES cfg = ((((24 * w + 31) / 32) * 4 : Nat) : Int) ∧
    OUTPUT_ROW_BYTES_WITHOUT_PADDING cfg = (((24 * w) / 8 : Nat) : Int) ∧
    OUTPUT_ROW_BYTES_WITHOUT_PADDING cfg = 3 * (w : Int) ∧
    OUTPUT_ROW_BYTES cfg % 4 = 0 ∧
    OUTPUT_ROW_BYTES_WITHOUT_PADDING cfg ≤ OUTPUT_ROW_BYTES cfg ∧
    OUTPUT_ROW_BYTES cfg - OUTPUT_ROW_BYTES_WITHOUT_PADDING cfg ∈ ({0, 1, 2, 3} : Set Int) ∧
    (∀ m : Int, m % 4 = 0 → 3 * (w : Int) ≤ m → OUTPUT_ROW_BYTES cfg ≤ m) := by
  have hfit' : 24 * OUTPUT_IMAGE_WIDTH cfg + 31 ≤ 2147483647 := by
    rw [hw]
    exact hfit
  have hs := row_bytes_exact cfg hfit'
  have hu := row_bytes_without_padding_exact cfg hfit'
  rw [hw] at hu
  rw [hs, hu, row_stride_formula, hw]
  clear hs hu hfit hfit' hw
  refine ⟨rfl, by push_cast; omega, by push_cast; rfl, by omega, by omega, ?_, ?_⟩
  · simp only [Set.mem_insert_iff, Set.mem_singleton_iff]
    omega
  · intro m hm hle
    omega

/-- Witness for the amended C5: width 675 (the reference grid at
`INVERSE_SCALE` 64) has row stride 2028 for 2025 pixel bytes. -/
theorem row_stride_least_multiple_of_four_witness :
    OUTPUT_IMAGE_WIDTH reference_config_scale64 = 675 ∧
    24 * 675 + 31 ≤ INT_MAX ∧
    OUTPUT_ROW_BYTES reference_config_scale64 = ((((24 * 675 + 31) / 32) * 4 : Nat) : Int) ∧
    OUTPUT_ROW_BYTES reference_config_scale64 = 2028 ∧
    OUTPUT_ROW_BYTES_WITHOUT_PADDING reference_config_scale64 = 3 * ((675 : Nat) : Int) :=
  ⟨by decide, by decide,
    (row_stride_least_multiple_of_four reference_config_scale64 675 (by decide) (by decide)).1,
    by decide,
    (row_stride_least_multiple_of_four reference_config_scale64 675 (by decide)
      (by decide)).2.2.1⟩

theorem le_bytes_length (n v : Nat) : (le_bytes n v).length = n := by
  induction n generalizing v with
  | zero => rfl
  | succ k ih => simp [le_bytes, ih]

theorem header_length (cfg : Config) : (bitmap_bytes (new_bitmap cfg)).length = 54 := by
  simp [bitmap_bytes, le_bytes_length]

/-- C6: for every configuration the header built by `new_bitmap`, written out
as packed little-endian bytes, is 54 bytes long (14 bytes of file header and 40
bytes of info header); it starts with `0x42 0x4D`, and reserved = 0, offset to
the pixel array = 54, info-header size = 40, planes = 1, bits per pixel = 24,
compression = 0, palette colours = 0 and important colours = 0, both as fields
and as bytes of the serialisation. -/
theorem header_layout (cfg : Config) :
    (bitmap_bytes (new_bitmap cfg)).length = 54 ∧
    sizeof_bitmap_file_header = 14 ∧ sizeof_dib_header = 40 ∧
    (bitmap_bytes (new_bitmap cfg)).take 2 = [0x42, 0x4D] ∧
    (new_bitmap cfg).bitmap_file_header.reserved = 0 ∧
    (new_bitmap cfg).bitmap_file_header.fileoffset_to_pixelarray = 54 ∧
    (new_bitmap cfg).dib_header.header_size = 40 ∧
    (new_bitmap cfg).dib_header.color_planes = 1 ∧
    (new_bitmap cfg).dib_header.bits_per_pixel = 24 ∧
    (new_bitmap cfg).dib_header.compression = 0 ∧
    (new_bitmap cfg).dib_header.colors_in_pallette = 0 ∧
    (new_bitmap cfg).dib_header.important_colors = 0 ∧
    bitmap_bytes (new_bitmap cfg) =
      [0x42, 0x4D]
        ++ le_bytes 4 (new_bitmap cfg).bitmap_file_header.file_size
        ++ [0, 0, 0, 0]
        ++ [54, 0, 0, 0]
        ++ [40, 0, 0, 0]
        ++ le_bytes 4 (new_bitmap cfg).dib_header.width_in_pixels
        ++ le_bytes 4 (new_bitmap cfg).dib_header.height_in_pixels
        ++ [1, 0]
        ++ [24, 0]
        ++ [0, 0, 0, 0]
        ++ le_bytes 4 (new_bitmap cfg).dib_header.image_size
        ++ le_bytes 4 (new_bitmap cfg).dib_header.x_pixels_per_meter
        ++ le_bytes 4 (new_bitmap cfg).dib_header.y_pixels_per_meter
        ++ [0, 0, 0, 0]
        ++ [0, 0, 0, 0] :=
  ⟨header_length cfg, by rfl, by rfl, by rfl, by rfl, by rfl, by rfl, by rfl, by rfl,
    by rfl, by rfl, by rfl, by
      simp [bitmap_bytes, new_bitmap, le_bytes, sizeof_bitmap, sizeof_bitmap_file_header,
        sizeof_dib_header, UINT32_MOD, UINT16_MOD, BITMAP_PLANES, BITS_PER_PIXEL,
        BITMAP_COMPRESSION, BITMAP_COLORS_IN_PALLETTE, BITMAP_IMPORTANT_COLORS]⟩

theorem new_bitmap_image_size (cfg : Config) :
    (new_bitmap cfg).dib_header.image_size = int_bits (OUTPUT_RAW_SINGLE_UNITS cfg) := by
  simp only [new_bitmap]

theorem new_bitmap_file_size (cfg : Config) :
    (new_bitmap cfg).bitmap_file_header.file_size = OUTPUT_FILE_SIZE cfg % UINT32_MOD := rfl

/-- Without `int` overflow the `file_size` field of the header is
`row_stride * height + 54`. -/
theorem new_bitmap_file_size_exact (cfg : Config)
    (h : 24 * OUTPUT_IMAGE_WIDTH cfg + 31 ≤ 2147483647)
    (hbytes : row_stride cfg * OUTPUT_IMAGE_HEIGHT cfg ≤ 2147483647) :
    (new_bitmap cfg).bitmap_file_header.file_size
      = row_stride cfg * OUTPUT_IMAGE_HEIGHT cfg + 54 := by
  rw [new_bitmap_file_size, file_size_exact cfg h hbytes, uint32_mod_eq]
  exact Nat.mod_eq_of_lt (by omega)

/-- C7 as stated fails: for the grid `NLON = 100000000`, `NLAT = 1` with the
even scale 2 the header field `file_size` is 4058096442, while
`54 + row_stride * height` is 300000054: the `int` product
`24 * 100000000` inside `OUTPUT_ROW_BYTES` overflows. -/
theorem header_geometry_counterexample :
    2 ≤ wide_row_config.INVERSE_SCALE ∧ wide_row_config.INVERSE_SCALE % 2 = 0 ∧
    (new_bitmap wide_row_config).bitmap_file_header.file_size = 4058096442 ∧
    54 + ((24 * (wide_row_config.NLON / (wide_row_config.INVERSE_SCALE / 2)) + 31) / 32 * 4)
        * (wide_row_config.NLAT / (wide_row_config.INVERSE_SCALE / 2)) = 300000054 ∧
    (new_bitmap wide_row_config).bitmap_file_header.file_size
      ≠ 54 + ((24 * (wide_row_config.NLON / (wide_row_config.INVERSE_SCALE / 2)) + 31) / 32 * 4)
        * (wide_row_config.NLAT / (wide_row_config.INVERSE_SCALE / 2)) := by
  decide

/-- C7, amended: for every grid and scale `s ≥ 2` in which no `int` expression
overflows (`int_range`), the geometry fields of the header are
width = `NLON / (s/2)`, height = `NLAT / (s/2)`, image_size = width * height (a
pixel count) and file_size = 54 + row_stride * height; the divisor `s/2` is at
least 1. -/
theorem header_geometry (cfg : Config) (hs : 2 ≤ cfg.INVERSE_SCALE) (hir : int_range cfg) :
    (new_bitmap cfg).dib_header.width_in_pixels = cfg.NLON / (cfg.INVERSE_SCALE / 2) ∧
    (new_bitmap cfg).dib_header.height_in_pixels = cfg.NLAT / (cfg.INVERSE_SCALE / 2) ∧
    (new_bitmap cfg).dib_header.image_size
      = (cfg.NLON / (cfg.INVERSE_SCALE / 2)) * (cfg.NLAT / (cfg.INVERSE_SCALE / 2)) ∧
    (new_bitmap cfg).bitmap_file_header.file_size
      = 54 + ((24 * (cfg.NLON / (cfg.INVERSE_SCALE / 2)) + 31) / 32 * 4)
          * (cfg.NLAT / (cfg.INVERSE_SCALE / 2)) ∧
    1 ≤ cfg.INVERSE_SCALE / 2 := by
  have hM := uint32_mod_eq
  have hrow := int_range_row cfg hir
  have hcount := int_range_count cfg hir
  have hbytes := int_range_bytes cfg hir
  obtain ⟨hlon, hlat, _⟩ := int_range_constants cfg hir
  clear hir
  have hW : OUTPUT_IMAGE_WIDTH cfg ≤ cfg.NLON := Nat.div_le_self _ _
  have hH : OUTPUT_IMAGE_HEIGHT cfg ≤ cfg.NLAT := Nat.div_le_self _ _
  have e1 : (new_bitmap cfg).dib_header.width_in_pixels = OUTPUT_IMAGE_WIDTH cfg :=
    Nat.mod_eq_of_lt (by omega)
  have e2 : (new_bitmap cfg).dib_header.height_in_pixels = OUTPUT_IMAGE_HEIGHT cfg :=
    Nat.mod_eq_of_lt (by omega)
  have e3 : (new_bitmap cfg).dib_header.image_size
      = OUTPUT_IMAGE_WIDTH cfg * OUTPUT_IMAGE_HEIGHT cfg := by
    rw [new_bitmap_image_size, raw_single_units_exact cfg hcount, int_bits_eq]
    generalize OUTPUT_IMAGE_WIDTH cfg * OUTPUT_IMAGE_HEIGHT cfg = n at hcount ⊢
    omega
  have e4 : (new_bitmap cfg).bitmap_file_header.file_size
      = row_stride cfg * OUTPUT_IMAGE_HEIGHT cfg + 54 :=
    new_bitmap_file_size_exact cfg hrow hbytes
  refine ⟨e1, e2, e3, ?_, by omega⟩
  rw [e4, row_stride_formula]
  unfold OUTPUT_IMAGE_WIDTH OUTPUT_IMAGE_HEIGHT
  omega

/-- Witness for the amended C7, the documented example: `NLON = 21600`,
`NLAT = 17280` and `INVERSE_SCALE = 16` give width 2700, height 2160 and
image_size 5832000. -/
theorem header_geometry_witness :
    2 ≤ (reference_grid 16 DPI.DPI_72).INVERSE_SCALE ∧
    int_range (reference_grid 16 DPI.DPI_72) ∧
    (new_bitmap (reference_grid 16 DPI.DPI_72)).dib_header.width_in_pixels = 2700 ∧
    (new_bitmap (reference_grid 16 DPI.DPI_72)).dib_header.height_in_pixels = 2160 ∧
    (new_bitmap (reference_grid 16 DPI.DPI_72)).dib_header.image_size = 5832000 ∧
    (new_bitmap (reference_grid 16 DPI.DPI_72)).bitmap_file_header.file_size
      = 54 + 8100 * 2160 := by
  have h := header_geometry (reference_grid 16 DPI.DPI_72) (by decide) (by decide)
  exact ⟨by decide, by decide, h.1, h.2.1, h.2.2.1, h.2.2.2.1⟩

/-! ## The main loop -/

theorem bitmap_write_pixel_eq (fp : List Nat) (bp : bitmap_pixel) :
    bitmap_write_pixel fp bp = fp ++ pixel_bytes bp := by
  simp [bitmap_write_pixel, pixel_bytes]

theorem write_bitmap_row_padding_eq (cfg : Config) (fp : List Nat) :
    write_bitmap_row_padding cfg fp = fp ++ List.replicate (row_padding cfg) 0 := rfl

theorem initial_state_inv (cfg : Config) (src : List (Fin 256)) (u : Uninit) :
    LoopInv cfg src u 0 0 (initial_state cfg u) where
  i_eq := by simp [initial_state]
  column_eq := rfl
  row_eq := by simp [initial_state]
  source_x_eq := by simp [initial_state]
  read_value_eq := by simp [initial_state, nth_read_value]
  output_eq := by simp [initial_state, written, rows_before, row_pixels]

theorem seek_offset_eq (cfg : Config) (src : List (Fin 256)) (u : Uninit) (r c : Nat)
    (st : LoopState) (hinv : LoopInv cfg src u r c st) (hc : c < OUTPUT_IMAGE_WIDTH cfg) :
    seek_offset cfg st = nth_seek_offset cfg (r * OUTPUT_IMAGE_WIDTH cfg + c) := by
  have hdiv : (r * OUTPUT_IMAGE_WIDTH cfg + c) / OUTPUT_IMAGE_WIDTH cfg = r := by
    rw [Nat.add_comm, Nat.add_mul_div_right _ _ (by omega), Nat.div_eq_of_lt hc, Nat.zero_add]
  have hmod : (r * OUTPUT_IMAGE_WIDTH cfg + c) % OUTPUT_IMAGE_WIDTH cfg = c := by
    rw [Nat.add_comm, Nat.add_mul_mod_self_right, Nat.mod_eq_of_lt hc]
  unfold seek_offset nth_seek_offset
  rw [hinv.row_eq, hinv.source_x_eq, hdiv, hmod, Nat.mod_mul_mod, ← Nat.add_mod]

theorem at_end_of_row_false (cfg : Config) (src : List (Fin 256)) (u : Uninit) (r c : Nat)
    (st : LoopState) (hinv : LoopInv cfg src u r c st) (hc : c < OUTPUT_IMAGE_WIDTH cfg)
    (hrow : 24 * OUTPUT_IMAGE_WIDTH cfg + 31 ≤ 2147483647) :
    at_end_of_row cfg st = false := by
  have hpb : PIXEL_BYTES = 3 := rfl
  unfold at_end_of_row
  rw [hinv.column_eq, decide_eq_false_iff_not, uint32_mod_eq, row_width_bits cfg hrow, hpb,
    Nat.mod_eq_of_lt (by omega : 3 * c + 3 < 4294967296)]
  omega

theorem at_end_of_row_true (cfg : Config) (src : List (Fin 256)) (u : Uninit) (r : Nat)
    (st : LoopState) (hinv : LoopInv cfg src u r (OUTPUT_IMAGE_WIDTH cfg) st)
    (hrow : 24 * OUTPUT_IMAGE_WIDTH cfg + 31 ≤ 2147483647) :
    at_end_of_row cfg st = true := by
  have hpb : PIXEL_BYTES = 3 := rfl
  unfold at_end_of_row
  rw [hinv.column_eq, decide_eq_true_iff, uint32_mod_eq, row_width_bits cfg hrow, hpb,
    Nat.mod_eq_of_lt (by omega : 3 * OUTPUT_IMAGE_WIDTH cfg + 3 < 4294967296)]
  omega

/-- A pixel iteration: with fewer than `OUTPUT_IMAGE_WIDTH` pixels of the row
written, the body reads a sample and writes one pixel; the `int` counter `i`
does not overflow. -/
theorem loop_body_pixel (cfg : Config) (src : List (Fin 256)) (u : Uninit) (r c : Nat)
    (st : LoopState) (hinv : LoopInv cfg src u r c st) (hc : c < OUTPUT_IMAGE_WIDTH cfg)
    (hrow : 24 * OUTPUT_IMAGE_WIDTH cfg + 31 ≤ 2147483647)
    (hi : r * OUTPUT_IMAGE_WIDTH cfg + c < 2147483647) :
    LoopInv cfg src u r (c + 1) (loop_body cfg src st) := by
  have hM := uint32_mod_eq
  have hpb : PIXEL_BYTES = 3 := rfl
  have hend := at_end_of_row_false cfg src u r c st hinv hc hrow
  have hoff := seek_offset_eq cfg src u r c st hinv hc
  unfold loop_body
  rw [hend]
  simp only [Bool.false_eq_true, if_false]
  constructor
  · show to_int32 (st.i + 1) = ((r * OUTPUT_IMAGE_WIDTH cfg + (c + 1) : Nat) : Int)
    rw [hinv.i_eq]
    generalize r * OUTPUT_IMAGE_WIDTH cfg = n at hi ⊢
    rw [to_int32_eq _ (by omega) (by omega)]
    omega
  · show (st.current_output_column + PIXEL_BYTES) % UINT32_MOD = 3 * (c + 1)
    rw [hinv.column_eq, hM, hpb]
    omega
  · show st.current_output_row = (cfg.INVERSE_SCALE * r) % UINT32_MOD
    exact hinv.row_eq
  · show (st.source_row_x + cfg.INVERSE_SCALE) % UINT32_MOD
      = (cfg.INVERSE_SCALE * (c + 1)) % UINT32_MOD
    rw [hinv.source_x_eq, Nat.mul_succ, hM]
    omega
  · show to_int16 (BYTE_SWAP (fread_int16 src (seek_offset cfg st) st.read_value))
      = nth_read_value cfg src u (r * OUTPUT_IMAGE_WIDTH cfg + (c + 1))
    rw [hoff, hinv.read_value_eq]
    rfl
  · show bitmap_write_pixel st.output_file
        (z_to_pixel (to_int16 (BYTE_SWAP (fread_int16 src (seek_offset cfg st) st.read_value)))
          st.pixel)
      = written cfg src u r (c + 1)
    rw [bitmap_write_pixel_eq, hoff, hinv.read_value_eq, hinv.output_eq,
      z_to_pixel_ignores_old _ st.pixel u.pixel]
    simp [written, row_pixels, nth_pixel, nth_read_value]

/-- A row reset: with the row complete, the body writes the row padding and
moves to the next row without reading a sample. -/
theorem loop_body_reset (cfg : Config) (src : List (Fin 256)) (u : Uninit) (r : Nat)
    (st : LoopState) (hinv : LoopInv cfg src u r (OUTPUT_IMAGE_WIDTH cfg) st)
    (hrow : 24 * OUTPUT_IMAGE_WIDTH cfg + 31 ≤ 2147483647) :
    LoopInv cfg src u (r + 1) 0 (loop_body cfg src st) := by
  have hM := uint32_mod_eq
  have hend := at_end_of_row_true cfg src u r st hinv hrow
  unfold loop_body
  rw [hend]
  simp only [if_true]
  constructor
  · show st.i = (((r + 1) * OUTPUT_IMAGE_WIDTH cfg + 0 : Nat) : Int)
    rw [hinv.i_eq, Nat.succ_mul]
    rfl
  · rfl
  · show (st.current_output_row + cfg.INVERSE_SCALE) % UINT32_MOD
      = (cfg.INVERSE_SCALE * (r + 1)) % UINT32_MOD
    rw [hinv.row_eq, Nat.mul_succ, hM]
    omega
  · show 0 = (cfg.INVERSE_SCALE * 0) % UINT32_MOD
    simp
  · show st.read_value = nth_read_value cfg src u ((r + 1) * OUTPUT_IMAGE_WIDTH cfg + 0)
    rw [hinv.read_value_eq, Nat.succ_mul]
    rfl
  · show write_bitmap_row_padding cfg st.output_file = written cfg src u (r + 1) 0
    rw [write_bitmap_row_padding_eq, hinv.output_eq]
    simp [written, rows_before, row_pixels]

theorem index_lt_total (cfg : Config) (r c : Nat) (hW : 1 ≤ OUTPUT_IMAGE_WIDTH cfg)
    (hr : r < OUTPUT_IMAGE_HEIGHT cfg) (hc : c ≤ OUTPUT_IMAGE_WIDTH cfg)
    (hmore : c < OUTPUT_IMAGE_WIDTH cfg ∨ r + 1 < OUTPUT_IMAGE_HEIGHT cfg) :
    r * OUTPUT_IMAGE_WIDTH cfg + c < OUTPUT_IMAGE_WIDTH cfg * OUTPUT_IMAGE_HEIGHT cfg := by
  rw [Nat.mul_comm (OUTPUT_IMAGE_WIDTH cfg)]
  rcases hmore with h | h
  · have h1 : (r + 1) * OUTPUT_IMAGE_WIDTH cfg
        ≤ OUTPUT_IMAGE_HEIGHT cfg * OUTPUT_IMAGE_WIDTH cfg := Nat.mul_le_mul_right _ hr
    rw [Nat.succ_mul] at h1
    omega
  · have h1 : (r + 1 + 1) * OUTPUT_IMAGE_WIDTH cfg
        ≤ OUTPUT_IMAGE_HEIGHT cfg * OUTPUT_IMAGE_WIDTH cfg := Nat.mul_le_mul_right _ h
    rw [Nat.succ_mul, Nat.succ_mul] at h1
    omega

theorem index_last_eq_total (cfg : Config) (hH : 1 ≤ OUTPUT_IMAGE_HEIGHT cfg) :
    (OUTPUT_IMAGE_HEIGHT cfg - 1) * OUTPUT_IMAGE_WIDTH cfg + OUTPUT_IMAGE_WIDTH cfg
      = OUTPUT_IMAGE_WIDTH cfg * OUTPUT_IMAGE_HEIGHT cfg := by
  obtain ⟨h, hh⟩ : ∃ h, OUTPUT_IMAGE_HEIGHT cfg = h + 1 := ⟨OUTPUT_IMAGE_HEIGHT cfg - 1, by omega⟩
  rw [hh, Nat.add_sub_cancel, Nat.mul_comm (OUTPUT_IMAGE_WIDTH cfg), Nat.succ_mul]

/-- The loop guard `i < OUTPUT_RAW_SINGLE_UNITS` at a state that satisfies the
invariant, when the pixel count fits the `int`. -/
theorem loop_guard_iff (cfg : Config) (src : List (Fin 256)) (u : Uninit) (r c : Nat)
    (st : LoopState) (hinv : LoopInv cfg src u r c st)
    (hcount : OUTPUT_IMAGE_WIDTH cfg * OUTPUT_IMAGE_HEIGHT cfg ≤ 2147483647) :
    st.i < OUTPUT_RAW_SINGLE_UNITS cfg
      ↔ r * OUTPUT_IMAGE_WIDTH cfg + c < OUTPUT_IMAGE_WIDTH cfg * OUTPUT_IMAGE_HEIGHT cfg := by
  rw [hinv.i_eq, raw_single_units_exact cfg hcount]
  exact Int.ofNat_lt

theorem main_loop_done (cfg : Config) (src : List (Fin 256)) (fuel : Nat) (st : LoopState)
    (h : ¬ st.i < OUTPUT_RAW_SINGLE_UNITS cfg) : main_loop cfg src fuel st = some st := by
  cases fuel with
  | zero => simp [main_loop, h]
  | succ f => simp [main_loop, h]

/-- The loop terminates: from a loop-head state with `c` pixels of row `r`
written, `steps_left cfg r c` iterations (or any larger fuel) lead to the state
in which every pixel of the last row has been written. -/
theorem main_loop_runs (cfg : Config) (src : List (Fin 256)) (u : Uninit)
    (hW : 1 ≤ OUTPUT_IMAGE_WIDTH cfg)
    (hrow : 24 * OUTPUT_IMAGE_WIDTH cfg + 31 ≤ 2147483647)
    (hcount : OUTPUT_IMAGE_WIDTH cfg * OUTPUT_IMAGE_HEIGHT cfg ≤ 2147483647) :
    ∀ (k fuel r c : Nat) (st : LoopState), LoopInv cfg src u r c st →
      r < OUTPUT_IMAGE_HEIGHT cfg → c ≤ OUTPUT_IMAGE_WIDTH cfg →
      steps_left cfg r c = k → k ≤ fuel →
      ∃ st', main_loop cfg src fuel st = some st' ∧
        LoopInv cfg src u (OUTPUT_IMAGE_HEIGHT cfg - 1) (OUTPUT_IMAGE_WIDTH cfg) st' := by
  intro k
  induction k with
  | zero =>
    intro fuel r c st hinv hr hc hk _
    unfold steps_left at hk
    have hk1 : OUTPUT_IMAGE_HEIGHT cfg - 1 - r = 0 := by
      rcases Nat.mul_eq_zero.mp (Nat.add_eq_zero_iff.mp hk).1 with h | h
      · exact h
      · omega
    have hk2 : OUTPUT_IMAGE_WIDTH cfg - c = 0 := (Nat.add_eq_zero_iff.mp hk).2
    have hr' : r = OUTPUT_IMAGE_HEIGHT cfg - 1 := by omega
    have hc' : c = OUTPUT_IMAGE_WIDTH cfg := by omega
    subst hc'
    rw [hr'] at hinv
    refine ⟨st, main_loop_done cfg src fuel st ?_, hinv⟩
    rw [loop_guard_iff cfg src u _ _ st hinv hcount, index_last_eq_total cfg (by omega)]
    omega
  | succ k ih =>
    intro fuel r c st hinv hr hc hk hfuel
    obtain ⟨f, hf⟩ : ∃ f, fuel = f + 1 := ⟨fuel - 1, by omega⟩
    subst hf
    unfold steps_left at hk
    by_cases hcW : c < OUTPUT_IMAGE_WIDTH cfg
    · have hlt := index_lt_total cfg r c hW hr hc (Or.inl hcW)
      have hi : st.i < OUTPUT_RAW_SINGLE_UNITS cfg :=
        (loop_guard_iff cfg src u r c st hinv hcount).mpr hlt
      have hstep := loop_body_pixel cfg src u r c st hinv hcW hrow (by omega)
      have hk' : steps_left cfg r (c + 1) = k := by
        unfold steps_left
        omega
      have hrun := ih f r (c + 1) (loop_body cfg src st) hstep hr (by omega) hk' (by omega)
      simpa [main_loop, hi] using hrun
    · have hc' : c = OUTPUT_IMAGE_WIDTH cfg := by omega
      subst hc'
      have hd : OUTPUT_IMAGE_HEIGHT cfg - 1 - r ≠ 0 := by
        intro h0
        rw [h0] at hk
        omega
      obtain ⟨d, hd'⟩ : ∃ d, OUTPUT_IMAGE_HEIGHT cfg - 1 - r = d + 1 :=
        ⟨OUTPUT_IMAGE_HEIGHT cfg - 1 - r - 1, by omega⟩
      have hr1 : r + 1 < OUTPUT_IMAGE_HEIGHT cfg := by omega
      have hi : st.i < OUTPUT_RAW_SINGLE_UNITS cfg :=
        (loop_guard_iff cfg src u r _ st hinv hcount).mpr
          (index_lt_total cfg r _ hW hr hc (Or.inr hr1))
      have hstep := loop_body_reset cfg src u r st hinv hrow
      have hk' : steps_left cfg (r + 1) 0 = k := by
        unfold steps_left
        have hd2 : OUTPUT_IMAGE_HEIGHT cfg - 1 - (r + 1) = d := by omega
        rw [hd', Nat.succ_mul] at hk
        rw [hd2]
        omega
      have hrun := ih f (r + 1) 0 (loop_body cfg src st) hstep hr1 (by omega) hk' (by omega)
      simpa [main_loop, hi] using hrun

/-- The fuel bound used for `main`: one iteration per pixel and one per row
reset. -/
theorem steps_left_start (cfg : Config) (hH : 1 ≤ OUTPUT_IMAGE_HEIGHT cfg) :
    steps_left cfg 0 0 + 1
      = OUTPUT_IMAGE_WIDTH cfg * OUTPUT_IMAGE_HEIGHT cfg + OUTPUT_IMAGE_HEIGHT cfg := by
  unfold steps_left
  obtain ⟨h, hh⟩ : ∃ h, OUTPUT_IMAGE_HEIGHT cfg = h + 1 := ⟨OUTPUT_IMAGE_HEIGHT cfg - 1, by omega⟩
  rw [hh, Nat.mul_succ, Nat.mul_succ, Nat.mul_comm (OUTPUT_IMAGE_WIDTH cfg) h]
  simp only [Nat.add_sub_cancel, Nat.sub_zero, Nat.mul_one]
  omega

/-- The fuel bound stated with the `int` macro `OUTPUT_RAW_SINGLE_UNITS` is the
bound `W * H + H` when the pixel count fits the `int`. -/
theorem fuel_of_units (cfg : Config) (fuel : Nat)
    (hcount : OUTPUT_IMAGE_WIDTH cfg * OUTPUT_IMAGE_HEIGHT cfg ≤ 2147483647)
    (hfuel : OUTPUT_RAW_SINGLE_UNITS cfg + OUTPUT_IMAGE_HEIGHT cfg ≤ fuel) :
    OUTPUT_IMAGE_WIDTH cfg * OUTPUT_IMAGE_HEIGHT cfg + OUTPUT_IMAGE_HEIGHT cfg ≤ fuel := by
  rw [raw_single_units_exact cfg hcount] at hfuel
  exact_mod_cast hfuel

/-- Closed form of the output of `main` when no `int` expression overflows: the
program terminates within `W * H + H` loop iterations and has then written the
header, `OUTPUT_IMAGE_HEIGHT - 1` padded rows and the pixels of the last row;
the statement after the loop writes nothing. -/
theorem main_eq_written (cfg : Config) (src : List (Fin 256)) (u : Uninit) (fuel : Nat)
    (hW : 1 ≤ OUTPUT_IMAGE_WIDTH cfg) (hH : 1 ≤ OUTPUT_IMAGE_HEIGHT cfg)
    (hir : int_range cfg)
    (hfuel : OUTPUT_IMAGE_WIDTH cfg * OUTPUT_IMAGE_HEIGHT cfg + OUTPUT_IMAGE_HEIGHT cfg
      ≤ fuel) :
    main cfg src u fuel
      = some (written cfg src u (OUTPUT_IMAGE_HEIGHT cfg - 1) (OUTPUT_IMAGE_WIDTH cfg)) := by
  have hrow := int_range_row cfg hir
  have hcount := int_range_count cfg hir
  have hstart := steps_left_start cfg hH
  obtain ⟨st', hrun, hinv⟩ := main_loop_runs cfg src u hW hrow hcount (steps_left cfg 0 0)
    fuel 0 0 (initial_state cfg u) (initial_state_inv cfg src u) (by omega) (by omega) rfl
    (by omega)
  have hlast : write_last_padding cfg st' = st'.output_file := by
    unfold write_last_padding
    rw [hinv.column_eq, row_width_bits cfg hrow]
    simp
  unfold main
  rw [hrun, Option.map_some', hlast, hinv.output_eq]

/-! ## Layout of the written bytes -/

theorem pixel_bytes_length (bp : bitmap_pixel) : (pixel_bytes bp).length = 3 := rfl

theorem row_pixels_length (cfg : Config) (src : List (Fin 256)) (u : Uninit) (r c : Nat) :
    (row_pixels cfg src u r c).length = 3 * c := by
  induction c with
  | zero => rfl
  | succ k ih =>
    simp only [row_pixels, List.length_append, ih, pixel_bytes_length]
    omega

theorem row_stride_eq (cfg : Config) (hrow : 24 * OUTPUT_IMAGE_WIDTH cfg + 31 ≤ 2147483647) :
    3 * OUTPUT_IMAGE_WIDTH cfg + row_padding cfg = row_stride cfg := by
  have h := row_stride_bounds cfg
  rw [row_padding_eq cfg hrow]
  omega

theorem rows_before_length (cfg : Config) (src : List (Fin 256)) (u : Uninit) (r : Nat)
    (hrow : 24 * OUTPUT_IMAGE_WIDTH cfg + 31 ≤ 2147483647) :
    (rows_before cfg src u r).length = r * row_stride cfg := by
  induction r with
  | zero => simp [rows_before]
  | succ k ih =>
    have hstride := row_stride_eq cfg hrow
    have hmul : (k + 1) * row_stride cfg
        = k * row_stride cfg + row_stride cfg := Nat.succ_mul k _
    simp only [rows_before, List.length_append, ih, row_pixels_length, List.length_replicate]
    omega

theorem written_length (cfg : Config) (src : List (Fin 256)) (u : Uninit) (r c : Nat)
    (hrow : 24 * OUTPUT_IMAGE_WIDTH cfg + 31 ≤ 2147483647) :
    (written cfg src u r c).length = 54 + r * row_stride cfg + 3 * c := by
  simp only [written, List.length_append, header_length, rows_before_length cfg src u r hrow,
    row_pixels_length]

theorem row_pixels_split (cfg : Config) (src : List (Fin 256)) (u : Uninit) (r c : Nat) :
    ∀ n : Nat, c < n → ∃ t, row_pixels cfg src u r n
      = row_pixels cfg src u r c
        ++ pixel_bytes (nth_pixel cfg src u (r * OUTPUT_IMAGE_WIDTH cfg + c)) ++ t := by
  intro n
  induction n with
  | zero =>
    intro h
    omega
  | succ k ih =>
    intro h
    by_cases hk : c = k
    · subst hk
      exact ⟨[], by simp [row_pixels]⟩
    · obtain ⟨t, ht⟩ := ih (by omega)
      refine ⟨t ++ pixel_bytes (nth_pixel cfg src u (r * OUTPUT_IMAGE_WIDTH cfg + k)), ?_⟩
      simp only [row_pixels, ht, List.append_assoc]

theorem rows_before_split (cfg : Config) (src : List (Fin 256)) (u : Uninit) (r : Nat) :
    ∀ n : Nat, r < n → ∃ t, rows_before cfg src u n
      = rows_before cfg src u r ++ row_pixels cfg src u r (OUTPUT_IMAGE_WIDTH cfg)
        ++ List.replicate (row_padding cfg) 0 ++ t := by
  intro n
  induction n with
  | zero =>
    intro h
    omega
  | succ k ih =>
    intro h
    by_cases hk : r = k
    · subst hk
      exact ⟨[], by simp [rows_before]⟩
    · obtain ⟨t, ht⟩ := ih (by omega)
      refine ⟨t ++ row_pixels cfg src u k (OUTPUT_IMAGE_WIDTH cfg)
        ++ List.replicate (row_padding cfg) 0, ?_⟩
      simp only [rows_before, ht, List.append_assoc]

/-- The bytes written up to pixel (`r`, `c`), then the pixel, are a prefix of
everything written later. -/
theorem written_split_pixel (cfg : Config) (src : List (Fin 256)) (u : Uninit) (r c : Nat)
    (hr : r < OUTPUT_IMAGE_HEIGHT cfg) (hc : c < OUTPUT_IMAGE_WIDTH cfg) :
    ∃ t, written cfg src u (OUTPUT_IMAGE_HEIGHT cfg - 1) (OUTPUT_IMAGE_WIDTH cfg)
      = written cfg src u r c
        ++ pixel_bytes (nth_pixel cfg src u (r * OUTPUT_IMAGE_WIDTH cfg + c)) ++ t := by
  obtain ⟨t1, ht1⟩ := row_pixels_split cfg src u r c (OUTPUT_IMAGE_WIDTH cfg) hc
  by_cases hlast : r = OUTPUT_IMAGE_HEIGHT cfg - 1
  · subst hlast
    exact ⟨t1, by simp only [written, ht1, List.append_assoc]⟩
  · obtain ⟨t2, ht2⟩ := rows_before_split cfg src u r (OUTPUT_IMAGE_HEIGHT cfg - 1) (by omega)
    refine ⟨t1 ++ List.replicate (row_padding cfg) 0 ++ t2
      ++ row_pixels cfg src u (OUTPUT_IMAGE_HEIGHT cfg - 1) (OUTPUT_IMAGE_WIDTH cfg), ?_⟩
    simp only [written, ht2, ht1, List.append_assoc]

/-- The bytes of a complete row that is not the last one are followed by the
row padding. -/
theorem written_split_padding (cfg : Config) (src : List (Fin 256)) (u : Uninit) (r : Nat)
    (hr : r + 1 < OUTPUT_IMAGE_HEIGHT cfg) :
    ∃ t, written cfg src u (OUTPUT_IMAGE_HEIGHT cfg - 1) (OUTPUT_IMAGE_WIDTH cfg)
      = written cfg src u r (OUTPUT_IMAGE_WIDTH cfg)
        ++ List.replicate (row_padding cfg) 0 ++ t := by
  obtain ⟨t2, ht2⟩ := rows_before_split cfg src u r (OUTPUT_IMAGE_HEIGHT cfg - 1) (by omega)
  refine ⟨t2 ++ row_pixels cfg src u (OUTPUT_IMAGE_HEIGHT cfg - 1) (OUTPUT_IMAGE_WIDTH cfg), ?_⟩
  simp only [written, ht2, List.append_assoc]

theorem getElem?_of_split (l a b t : List Nat) (h : l = a ++ b ++ t) (j : Nat)
    (hj : j < b.length) : l[a.length + j]? = b[j]? := by
  rw [h, List.append_assoc, List.getElem?_append_right (by omega),
    List.getElem?_append_left (by omega)]
  congr 1
  omega

/-! ## Which sample a pixel is taken from -/

theorem z_to_pixel_is_BP_RGB (z : Int) (bp : bitmap_pixel) :
    ∃ r g b, z_to_pixel z bp = BP_RGB bp r g b := by
  unfold z_to_pixel
  repeat' split
  all_goals exact ⟨_, _, _, rfl⟩

theorem pixel_bytes_z_to_pixel (z : Int) (bp : bitmap_pixel) :
    pixel_bytes (z_to_pixel z bp)
      = [(z_to_pixel z bp).B, (z_to_pixel z bp).G, (z_to_pixel z bp).R] := by
  obtain ⟨r, g, b, h⟩ := z_to_pixel_is_BP_RGB z bp
  rw [h]
  simp [pixel_bytes, BP_RGB, Nat.mod_mod]

/-- For an even scale `s = 2k`, the offset `r*s*NLON + c*s` the loop seeks to
for output pixel (`r`, `c`) is twice the row-major index of the sample at
source row `r*k`, source column `c*k`; the two bytes lie inside a source of
`2*NLON*NLAT` bytes, and the `uint32_t` computation does not wrap. -/
theorem seek_offset_in_source (cfg : Config) (hv : valid_config cfg)
    (hsrc32 : 2 * cfg.NLON * cfg.NLAT ≤ UINT32_MOD) (r c : Nat)
    (hr : r < OUTPUT_IMAGE_HEIGHT cfg) (hc : c < OUTPUT_IMAGE_WIDTH cfg) :
    (r * cfg.INVERSE_SCALE) * cfg.NLON + c * cfg.INVERSE_SCALE
      = ((r * (cfg.INVERSE_SCALE / 2)) * cfg.NLON + c * (cfg.INVERSE_SCALE / 2)) * 2 ∧
    (r * cfg.INVERSE_SCALE) * cfg.NLON + c * cfg.INVERSE_SCALE + 2 ≤ 2 * cfg.NLON * cfg.NLAT ∧
    nth_seek_offset cfg (r * OUTPUT_IMAGE_WIDTH cfg + c)
      = (r * cfg.INVERSE_SCALE) * cfg.NLON + c * cfg.INVERSE_SCALE := by
  obtain ⟨heven, hW, hH⟩ := hv
  rw [uint32_mod_eq] at hsrc32
  have hk : 0 < cfg.INVERSE_SCALE / 2 := by
    rcases Nat.eq_zero_or_pos (cfg.INVERSE_SCALE / 2) with h0 | hpos
    · unfold OUTPUT_IMAGE_WIDTH at hW
      rw [h0, Nat.div_zero] at hW
      omega
    · exact hpos
  have hs : cfg.INVERSE_SCALE = 2 * (cfg.INVERSE_SCALE / 2) := by omega
  have hrk : (r + 1) * (cfg.INVERSE_SCALE / 2) ≤ cfg.NLAT :=
    (Nat.le_div_iff_mul_le hk).mp hr
  have hck : (c + 1) * (cfg.INVERSE_SCALE / 2) ≤ cfg.NLON :=
    (Nat.le_div_iff_mul_le hk).mp hc
  generalize cfg.INVERSE_SCALE / 2 = k at hk hs hrk hck ⊢
  have h1 : (r * cfg.INVERSE_SCALE) * cfg.NLON + c * cfg.INVERSE_SCALE
      = ((r * k) * cfg.NLON + c * k) * 2 := by
    rw [hs]
    ring
  have h2 : ((r * k) * cfg.NLON + c * k) * 2 + 2 ≤ 2 * cfg.NLON * cfg.NLAT := by
    have ha : r * k + 1 ≤ cfg.NLAT := by
      rw [Nat.succ_mul] at hrk
      omega
    have hb : c * k + 1 ≤ cfg.NLON := by
      rw [Nat.succ_mul] at hck
      omega
    have hmul : (r * k + 1) * cfg.NLON ≤ cfg.NLAT * cfg.NLON := Nat.mul_le_mul_right _ ha
    have hmul2 : (r * k + 1) * cfg.NLON = (r * k) * cfg.NLON + cfg.NLON := Nat.succ_mul _ _
    have hcomm : 2 * cfg.NLON * cfg.NLAT = 2 * (cfg.NLAT * cfg.NLON) := by ring
    omega
  refine ⟨h1, by omega, ?_⟩
  have hdiv : (r * OUTPUT_IMAGE_WIDTH cfg + c) / OUTPUT_IMAGE_WIDTH cfg = r := by
    rw [Nat.add_comm, Nat.add_mul_div_right _ _ (by omega), Nat.div_eq_of_lt hc, Nat.zero_add]
  have hmod : (r * OUTPUT_IMAGE_WIDTH cfg + c) % OUTPUT_IMAGE_WIDTH cfg = c := by
    rw [Nat.add_comm, Nat.add_mul_mod_self_right, Nat.mod_eq_of_lt hc]
  unfold nth_seek_offset
  rw [hdiv, hmod, Nat.mul_comm cfg.INVERSE_SCALE r, Nat.mul_comm cfg.INVERSE_SCALE c,
    uint32_mod_eq]
  exact Nat.mod_eq_of_lt (by omega)

/-- With a source of at least `2*NLON*NLAT` bytes every read of the loop is
complete, so the pixel written for (`r`, `c`) does not depend on earlier
iterations: it is `pixel_at`, the colour of the big-endian sample at source
row `r * (INVERSE_SCALE/2)`, source column `c * (INVERSE_SCALE/2)`. -/
theorem nth_pixel_eq (cfg : Config) (src : List (Fin 256)) (u : Uninit)
    (hv : valid_config cfg) (hsrc32 : 2 * cfg.NLON * cfg.NLAT ≤ UINT32_MOD)
    (hsrc : 2 * cfg.NLON * cfg.NLAT ≤ src.length) (r c : Nat)
    (hr : r < OUTPUT_IMAGE_HEIGHT cfg) (hc : c < OUTPUT_IMAGE_WIDTH cfg) :
    nth_pixel cfg src u (r * OUTPUT_IMAGE_WIDTH cfg + c) = pixel_at cfg src r c ∧
    ∃ z, source_grid cfg src (r * (cfg.INVERSE_SCALE / 2)) (c * (cfg.INVERSE_SCALE / 2))
        = some z ∧
      pixel_at cfg src r c = z_to_pixel z { B := 0, G := 0, R := 0 } := by
  obtain ⟨h1, h2, h3⟩ := seek_offset_in_source cfg hv hsrc32 r c hr hc
  generalize hoff : (r * cfg.INVERSE_SCALE) * cfg.NLON + c * cfg.INVERSE_SCALE = off at h1 h2 h3
  have hlt0 : off < src.length := by omega
  have hlt1 : off + 1 < src.length := by omega
  have hb0 : src[off]? = some src[off] := List.getElem?_eq_getElem hlt0
  have hb1 : src[off + 1]? = some src[off + 1] := List.getElem?_eq_getElem hlt1
  have hread : ∀ old, to_int16 (BYTE_SWAP (fread_int16 src off old))
      = to_int16 (256 * ((src[off]).val : Int) + ((src[off + 1]).val : Int)) :=
    fun old => swap_fread_full src off old _ _ hb0 hb1
  refine ⟨?_, to_int16 (256 * ((src[off]).val : Int) + ((src[off + 1]).val : Int)), ?_, ?_⟩
  · unfold nth_pixel pixel_at
    rw [hoff]
    show z_to_pixel (to_int16 (BYTE_SWAP (fread_int16 src
        (nth_seek_offset cfg (r * OUTPUT_IMAGE_WIDTH cfg + c))
        (nth_read_value cfg src u (r * OUTPUT_IMAGE_WIDTH cfg + c))))) u.pixel = _
    rw [h3, hread, hread]
    exact z_to_pixel_ignores_old _ _ _
  · unfold source_grid
    rw [← h1, hb0, hb1]
  · unfold pixel_at
    rw [hoff, hread]

/-! ## Pixels of the output file -/

/-- When no `int` expression overflows, the program terminates and the three
bytes at file offset `54 + r * row_stride + 3 * c` are the pixel computed in the
iteration that handles output coordinate (`r`, `c`). -/
theorem main_pixel_bytes (cfg : Config) (src : List (Fin 256)) (u : Uninit) (fuel r c : Nat)
    (hW : 1 ≤ OUTPUT_IMAGE_WIDTH cfg) (hH : 1 ≤ OUTPUT_IMAGE_HEIGHT cfg)
    (hir : int_range cfg)
    (hfuel : OUTPUT_IMAGE_WIDTH cfg * OUTPUT_IMAGE_HEIGHT cfg + OUTPUT_IMAGE_HEIGHT cfg
      ≤ fuel)
    (hr : r < OUTPUT_IMAGE_HEIGHT cfg) (hc : c < OUTPUT_IMAGE_WIDTH cfg) :
    main cfg src u fuel
      = some (written cfg src u (OUTPUT_IMAGE_HEIGHT cfg - 1) (OUTPUT_IMAGE_WIDTH cfg)) ∧
    ∀ j, j < 3 →
      (written cfg src u (OUTPUT_IMAGE_HEIGHT cfg - 1) (OUTPUT_IMAGE_WIDTH cfg))[
          54 + r * row_stride cfg + 3 * c + j]?
        = [(nth_pixel cfg src u (r * OUTPUT_IMAGE_WIDTH cfg + c)).B,
            (nth_pixel cfg src u (r * OUTPUT_IMAGE_WIDTH cfg + c)).G,
            (nth_pixel cfg src u (r * OUTPUT_IMAGE_WIDTH cfg + c)).R][j]? := by
  refine ⟨main_eq_written cfg src u fuel hW hH hir hfuel, ?_⟩
  intro j hj
  obtain ⟨t, ht⟩ := written_split_pixel cfg src u r c hr hc
  have hget := getElem?_of_split _ _ _ t ht j (by rw [pixel_bytes_length]; exact hj)
  rw [written_length cfg src u r c (int_range_row cfg hir)] at hget
  rw [hget]
  unfold nth_pixel
  rw [pixel_bytes_z_to_pixel]

/-- C10 as stated fails: the 65536 x 65536 grid with `INVERSE_SCALE` 2 is a
valid configuration with `W = H = 65536`, but the `int` product
`OUTPUT_RAW_SINGLE_UNITS` overflows to 0, the loop body is never executed and
the output is the 54-byte header: there is no byte at file offset
`54 + 0*row_stride + 3*0`, where the claim places the B component of the pixel
computed for (0, 0). -/
theorem output_bytes_layout_counterexample :
    valid_config square_grid_config ∧
    OUTPUT_IMAGE_WIDTH square_grid_config = 65536 ∧
    OUTPUT_IMAGE_HEIGHT square_grid_config = 65536 ∧
    OUTPUT_RAW_SINGLE_UNITS square_grid_config = 0 ∧
    ∃ out, main square_grid_config example_source example_uninit 8 = some out ∧
      out.length = 54 ∧
      out[54 + 0 * (OUTPUT_ROW_BYTES square_grid_config).toNat + 3 * 0]? = none ∧
      out[54 + 0 * (OUTPUT_ROW_BYTES square_grid_config).toNat + 3 * 0]?
        ≠ some (nth_pixel square_grid_config example_source example_uninit
            (0 * OUTPUT_IMAGE_WIDTH square_grid_config + 0)).B :=
  ⟨by decide, by decide, by decide, by decide, _, rfl, by decide, by decide, by decide⟩

/-- C10, amended: for every valid configuration (so `W ≥ 1`, `H ≥ 1`) in which
no `int` expression overflows (`int_range`) and every output coordinate
(`r`, `c`) with `r < H`, `c < W`, the program terminates and the bytes at file
offsets `54 + r*row_stride + 3*c`, `+1`, `+2` are the B, G and R components of
the pixel computed for (`r`, `c`), the `(r*W + c)`-th pixel of the loop; when
the source offsets fit the `uint32_t` and the source has at least `2*NLON*NLAT`
bytes this pixel is `pixel_at`, what lines 381-390 compute at that coordinate.
For `r < H - 1` the `row_stride - 3*W` bytes between the pixel bytes of row `r`
and the start of row `r + 1` are all zero. Here `row_stride` is the value of
`OUTPUT_ROW_BYTES`, which is `((24*W + 31)/32)*4`. -/
theorem output_bytes_layout (cfg : Config) (src : List (Fin 256)) (u : Uninit)
    (fuel r c : Nat) (hv : valid_config cfg) (hir : int_range cfg)
    (hfuel : OUTPUT_RAW_SINGLE_UNITS cfg + OUTPUT_IMAGE_HEIGHT cfg ≤ fuel)
    (hr : r < OUTPUT_IMAGE_HEIGHT cfg) (hc : c < OUTPUT_IMAGE_WIDTH cfg) :
    ∃ out, main cfg src u fuel = some out ∧
      out[54 + r * (OUTPUT_ROW_BYTES cfg).toNat + 3 * c]?
        = some (nth_pixel cfg src u (r * OUTPUT_IMAGE_WIDTH cfg + c)).B ∧
      out[54 + r * (OUTPUT_ROW_BYTES cfg).toNat + 3 * c + 1]?
        = some (nth_pixel cfg src u (r * OUTPUT_IMAGE_WIDTH cfg + c)).G ∧
      out[54 + r * (OUTPUT_ROW_BYTES cfg).toNat + 3 * c + 2]?
        = some (nth_pixel cfg src u (r * OUTPUT_IMAGE_WIDTH cfg + c)).R ∧
      (2 * cfg.NLON * cfg.NLAT ≤ UINT32_MOD → 2 * cfg.NLON * cfg.NLAT ≤ src.length →
        nth_pixel cfg src u (r * OUTPUT_IMAGE_WIDTH cfg + c) = pixel_at cfg src r c) ∧
      (r + 1 < OUTPUT_IMAGE_HEIGHT cfg →
        ∀ j, j < (OUTPUT_ROW_BYTES cfg).toNat - 3 * OUTPUT_IMAGE_WIDTH cfg →
          out[54 + r * (OUTPUT_ROW_BYTES cfg).toNat + 3 * OUTPUT_IMAGE_WIDTH cfg + j]?
            = some 0) ∧
      54 + (r + 1) * (OUTPUT_ROW_BYTES cfg).toNat
        = 54 + r * (OUTPUT_ROW_BYTES cfg).toNat + 3 * OUTPUT_IMAGE_WIDTH cfg
          + ((OUTPUT_ROW_BYTES cfg).toNat - 3 * OUTPUT_IMAGE_WIDTH cfg) ∧
      OUTPUT_ROW_BYTES cfg = ((((24 * OUTPUT_IMAGE_WIDTH cfg + 31) / 32) * 4 : Nat) : Int) := by
  have hrow := int_range_row cfg hir
  have hfuel' := fuel_of_units cfg fuel (int_range_count cfg hir) hfuel
  obtain ⟨hmain, hbytes⟩ := main_pixel_bytes cfg src u fuel r c hv.2.1 hv.2.2 hir hfuel' hr hc
  rw [row_bytes_toNat cfg hrow]
  refine ⟨_, hmain, hbytes 0 (by omega), hbytes 1 (by omega), hbytes 2 (by omega),
    fun hsrc32 hsrc => (nth_pixel_eq cfg src u hv hsrc32 hsrc r c hr hc).1, ?_, ?_,
    row_bytes_exact cfg hrow⟩
  · intro hr1 j hj
    obtain ⟨t, ht⟩ := written_split_padding cfg src u r hr1
    have hpad := row_padding_eq cfg hrow
    have hget := getElem?_of_split _ _ _ t ht j (by rw [List.length_replicate]; omega)
    rw [written_length cfg src u r _ hrow] at hget
    rw [hget, List.getElem?_replicate, if_pos (by omega)]
  · have hb := row_stride_bounds cfg
    rw [Nat.succ_mul]
    omega

/-- Witness for the amended C10: the 4 x 4 example grid with `INVERSE_SCALE` 4
(2 x 2 output, row stride 8), output coordinate (0, 1). -/
theorem output_bytes_layout_witness :
    valid_config example_config_scale4 ∧ int_range example_config_scale4 ∧
    ∃ out, main example_config_scale4 example_source example_uninit 8 = some out ∧
      out[54 + 0 * (OUTPUT_ROW_BYTES example_config_scale4).toNat + 3 * 1]?
        = some (nth_pixel example_config_scale4 example_source example_uninit
            (0 * OUTPUT_IMAGE_WIDTH example_config_scale4 + 1)).B ∧
      out[54 + 0 * (OUTPUT_ROW_BYTES example_config_scale4).toNat + 3 * 1 + 1]?
        = some (nth_pixel example_config_scale4 example_source example_uninit
            (0 * OUTPUT_IMAGE_WIDTH example_config_scale4 + 1)).G ∧
      out[54 + 0 * (OUTPUT_ROW_BYTES example_config_scale4).toNat + 3 * 1 + 2]?
        = some (nth_pixel example_config_scale4 example_source example_uninit
            (0 * OUTPUT_IMAGE_WIDTH example_config_scale4 + 1)).R := by
  obtain ⟨out, hmain, hB, hG, hR, _⟩ := output_bytes_layout example_config_scale4
    example_source example_uninit 8 0 1 (by decide) (by decide) (by decide) (by decide)
    (by decide)
  exact ⟨by decide, by decide, out, hmain, hB, hG, hR⟩

/-- C3 as stated fails. For the 4 x 4 example grid with `INVERSE_SCALE` 2 the
pixel written for output coordinate (0, 1) is white, while the sample at source
row `0 * 2`, source column `1 * 2` (byte offset `((0*2)*NLON + 1*2)*2 = 8`) is
101, whose colour has blue component 0. For the 65536 x 131072 grid with
`INVERSE_SCALE` 131072 (output 1 x 2, no `int` overflow) the `uint32_t` offset
of line 381 wraps: the iterations are a pixel write at offset 0, a row reset and
a pixel write at offset 0 again, so the pixel for (1, 0) is read at offset 0 and
not at `(1*s)*NLON + 0*s = 2^33`. For the 65536 x 65536 grid with
`INVERSE_SCALE` 2 the `int` pixel count overflows to 0 and no pixel is written
at all. -/
theorem pixel_source_sample_counterexample :
    (valid_config example_config_scale2 ∧
      2 * example_config_scale2.NLON * example_config_scale2.NLAT ≤ example_source.length ∧
      ∃ out z, main example_config_scale2 example_source example_uninit 32 = some out ∧
        source_grid example_config_scale2 example_source
          (0 * example_config_scale2.INVERSE_SCALE) (1 * example_config_scale2.INVERSE_SCALE)
          = some z ∧
        z = 101 ∧
        out[54 + 0 * (OUTPUT_ROW_BYTES example_config_scale2).toNat + 3 * 1]? = some 255 ∧
        (z_to_pixel z example_uninit.pixel).B = 0 ∧
        out[54 + 0 * (OUTPUT_ROW_BYTES example_config_scale2).toNat + 3 * 1]?
          ≠ some (z_to_pixel z example_uninit.pixel).B) ∧
    (valid_config tall_grid_config ∧ int_range tall_grid_config ∧
      OUTPUT_IMAGE_WIDTH tall_grid_config = 1 ∧ OUTPUT_IMAGE_HEIGHT tall_grid_config = 2 ∧
      loop_events tall_grid_config [] 8 (initial_state tall_grid_config example_uninit)
        = [LoopEvent.pixel_write 0, LoopEvent.row_reset, LoopEvent.pixel_write 0] ∧
      (1 * tall_grid_config.INVERSE_SCALE) * tall_grid_config.NLON
        + 0 * tall_grid_config.INVERSE_SCALE = 8589934592) ∧
    (valid_config square_grid_config ∧
      ∃ out, main square_grid_config example_source example_uninit 8 = some out ∧
        out.length = 54 ∧
        out[54 + 0 * (OUTPUT_ROW_BYTES square_grid_config).toNat + 3 * 0]? = none) :=
  ⟨⟨by decide, by decide, _, _, rfl, rfl, by decide, by decide, by decide, by decide⟩,
    ⟨by decide, by decide, by decide, by decide, by decide, by decide⟩,
    ⟨by decide, _, rfl, by decide, by decide⟩⟩

/-- C3, amended: for every valid configuration (even scale `s`) in which no
`int` expression overflows (`int_range`) and whose source offsets fit the
`uint32_t` (`2*NLON*NLAT ≤ 2^32`), a source of at least `2*NLON*NLAT` bytes and
every output coordinate (`r`, `c`) with `r < OUTPUT_HEIGHT`,
`c < OUTPUT_WIDTH`, the pixel the main loop writes for (`r`, `c`) is
`z_to_pixel` of the source sample at source row `r * (s/2)`, source column
`c * (s/2)`, read most significant byte first; the byte offset sought is
`(r*s)*NLON + c*s`, which is `((r*(s/2))*NLON + c*(s/2)) * 2`. -/
theorem pixel_source_sample (cfg : Config) (src : List (Fin 256)) (u : Uninit)
    (fuel r c : Nat) (hv : valid_config cfg) (hir : int_range cfg)
    (hsrc32 : 2 * cfg.NLON * cfg.NLAT ≤ UINT32_MOD)
    (hsrc : 2 * cfg.NLON * cfg.NLAT ≤ src.length)
    (hfuel : OUTPUT_RAW_SINGLE_UNITS cfg + OUTPUT_IMAGE_HEIGHT cfg ≤ fuel)
    (hr : r < OUTPUT_IMAGE_HEIGHT cfg) (hc : c < OUTPUT_IMAGE_WIDTH cfg) :
    ∃ out z, main cfg src u fuel = some out ∧
      source_grid cfg src (r * (cfg.INVERSE_SCALE / 2)) (c * (cfg.INVERSE_SCALE / 2))
        = some z ∧
      (r * cfg.INVERSE_SCALE) * cfg.NLON + c * cfg.INVERSE_SCALE
        = ((r * (cfg.INVERSE_SCALE / 2)) * cfg.NLON + c * (cfg.INVERSE_SCALE / 2)) * 2 ∧
      out[54 + r * (OUTPUT_ROW_BYTES cfg).toNat + 3 * c]? = some (z_to_pixel z u.pixel).B ∧
      out[54 + r * (OUTPUT_ROW_BYTES cfg).toNat + 3 * c + 1]?
        = some (z_to_pixel z u.pixel).G ∧
      out[54 + r * (OUTPUT_ROW_BYTES cfg).toNat + 3 * c + 2]?
        = some (z_to_pixel z u.pixel).R := by
  have hfuel' := fuel_of_units cfg fuel (int_range_count cfg hir) hfuel
  obtain ⟨hmain, hbytes⟩ := main_pixel_bytes cfg src u fuel r c hv.2.1 hv.2.2 hir hfuel' hr hc
  obtain ⟨hnth, z, hz, hpix⟩ := nth_pixel_eq cfg src u hv hsrc32 hsrc r c hr hc
  rw [hnth, hpix, z_to_pixel_ignores_old z _ u.pixel] at hbytes
  rw [row_bytes_toNat cfg (int_range_row cfg hir)]
  exact ⟨_, z, hmain, hz, (seek_offset_in_source cfg hv hsrc32 r c hr hc).1,
    hbytes 0 (by omega), hbytes 1 (by omega), hbytes 2 (by omega)⟩

/-- Witness for the amended C3: the example grid with `INVERSE_SCALE` 4, output
coordinate (0, 1), which is taken from source row 0, source column 2. -/
theorem pixel_source_sample_witness :
    valid_config example_config_scale4 ∧ int_range example_config_scale4 ∧
    2 * example_config_scale4.NLON * example_config_scale4.NLAT ≤ UINT32_MOD ∧
    2 * example_config_scale4.NLON * example_config_scale4.NLAT ≤ example_source.length ∧
    ∃ out z, main example_config_scale4 example_source example_uninit 8 = some out ∧
      source_grid example_config_scale4 example_source
        (0 * (example_config_scale4.INVERSE_SCALE / 2))
        (1 * (example_config_scale4.INVERSE_SCALE / 2)) = some z ∧
      (0 * example_config_scale4.INVERSE_SCALE) * example_config_scale4.NLON
          + 1 * example_config_scale4.INVERSE_SCALE
        = ((0 * (example_config_scale4.INVERSE_SCALE / 2)) * example_config_scale4.NLON
          + 1 * (example_config_scale4.INVERSE_SCALE / 2)) * 2 ∧
      out[54 + 0 * (OUTPUT_ROW_BYTES example_config_scale4).toNat + 3 * 1]?
        = some (z_to_pixel z example_uninit.pixel).B ∧
      out[54 + 0 * (OUTPUT_ROW_BYTES example_config_scale4).toNat + 3 * 1 + 1]?
        = some (z_to_pixel z example_uninit.pixel).G ∧
      out[54 + 0 * (OUTPUT_ROW_BYTES example_config_scale4).toNat + 3 * 1 + 2]?
        = some (z_to_pixel z example_uninit.pixel).R :=
  ⟨by decide, by decide, by decide, by decide,
    pixel_source_sample example_config_scale4 example_source example_uninit 8 0 1
      (by decide) (by decide) (by decide) (by decide) (by decide) (by decide) (by decide)⟩

/-! ## Size of the output file -/

/-- C4, evaluated where it fails: for the 4 x 4 grid with `INVERSE_SCALE` 4
(2 x 2 output, row stride 8) the program writes 68 bytes for every source and
every initial content of the locals, while `54 + row_stride * height` and the
`file_size` field of the header are 70; for the reference grid with
`INVERSE_SCALE` 64 (675 x 540 output, row stride 2028) it writes 1095171
bytes, while `54 + row_stride * height` and `file_size` are 1095174. The
padding of the last row is never written. -/
theorem output_shorter_than_file_size (src : List (Fin 256)) (u : Uninit) :
    (main example_config_scale4 src u 8).map List.length = some 68 ∧
    54 + OUTPUT_ROW_BYTES example_config_scale4 * OUTPUT_IMAGE_HEIGHT example_config_scale4
      = 70 ∧
    (new_bitmap example_config_scale4).bitmap_file_header.file_size = 70 ∧
    (main reference_config_scale64 src u 365040).map List.length = some 1095171 ∧
    54 + OUTPUT_ROW_BYTES reference_config_scale64
        * OUTPUT_IMAGE_HEIGHT reference_config_scale64 = 1095174 ∧
    (new_bitmap reference_config_scale64).bitmap_file_header.file_size = 1095174 := by
  refine ⟨?_, by decide, by decide, ?_, by decide, by decide⟩
  · rw [main_eq_written example_config_scale4 src u 8 (by decide) (by decide) (by decide)
      (by decide), Option.map_some', written_length _ _ _ _ _ (by decide)]
    rfl
  · rw [main_eq_written reference_config_scale64 src u 365040 (by decide) (by decide)
      (by decide) (by decide), Option.map_some', written_length _ _ _ _ _ (by decide)]
    rfl

/-! ## The end-to-end scenario -/

/-- C8 as stated fails: with the 4 x 4 example grid and `INVERSE_SCALE` 2 the
output image is 4 x 4, not 2 x 2, and output pixel (row 0, col 1) is white
(it is taken from sample 2), not (B=0x00, G=0xFF, R=0x00). -/
theorem scenario_scale2_counterexample :
    ∃ out, main example_config_scale2 example_source example_uninit 32 = some out ∧
      OUTPUT_IMAGE_WIDTH example_config_scale2 = 4 ∧
      OUTPUT_IMAGE_HEIGHT example_config_scale2 = 4 ∧
      (new_bitmap example_config_scale2).dib_header.width_in_pixels ≠ 2 ∧
      (new_bitmap example_config_scale2).dib_header.height_in_pixels ≠ 2 ∧
      (out.drop (54 + 0 * (OUTPUT_ROW_BYTES example_config_scale2).toNat + 3 * 1)).take 3
        = [0xFF, 0xFF, 0xFF] ∧
      (out.drop (54 + 0 * (OUTPUT_ROW_BYTES example_config_scale2).toNat + 3 * 1)).take 3
        ≠ [0x00, 0xFF, 0x00] :=
  ⟨_, rfl, by decide, by decide, by decide, by decide, by decide, by decide⟩

/-- C8, amended: with the 4 x 4 example grid (row 0 is `[1, 2, 101, -1]`, rows
1 to 3 zero, big-endian) and `INVERSE_SCALE` 4 the output image is 2 x 2,
output pixel (0, 0) is (B=0xAA, G=0xDD, R=0x00), output pixel (0, 1) is
(B=0x00, G=0xFF, R=0x00), taken from sample 101, and output pixel (1, 0) is
white. With `INVERSE_SCALE` 2 the output image is 4 x 4: pixel (0, 0) is
(0xAA, 0xDD, 0x00), pixel (0, 1) is white (sample 2), pixel (0, 2) is
(0x00, 0xFF, 0x00) (sample 101) and pixel (1, 0) is white. -/
theorem scenario_example_grid :
    (∃ out, main example_config_scale4 example_source example_uninit 8 = some out ∧
      OUTPUT_IMAGE_WIDTH example_config_scale4 = 2 ∧
      OUTPUT_IMAGE_HEIGHT example_config_scale4 = 2 ∧
      (new_bitmap example_config_scale4).dib_header.width_in_pixels = 2 ∧
      (new_bitmap example_config_scale4).dib_header.height_in_pixels = 2 ∧
      source_grid example_config_scale4 example_source 0 2 = some 101 ∧
      (out.drop (54 + 0 * (OUTPUT_ROW_BYTES example_config_scale4).toNat + 3 * 0)).take 3
        = [0xAA, 0xDD, 0x00] ∧
      (out.drop (54 + 0 * (OUTPUT_ROW_BYTES example_config_scale4).toNat + 3 * 1)).take 3
        = [0x00, 0xFF, 0x00] ∧
      (out.drop (54 + 1 * (OUTPUT_ROW_BYTES example_config_scale4).toNat + 3 * 0)).take 3
        = [0xFF, 0xFF, 0xFF]) ∧
    (∃ out, main example_config_scale2 example_source example_uninit 32 = some out ∧
      OUTPUT_IMAGE_WIDTH example_config_scale2 = 4 ∧
      OUTPUT_IMAGE_HEIGHT example_config_scale2 = 4 ∧
      (out.drop (54 + 0 * (OUTPUT_ROW_BYTES example_config_scale2).toNat + 3 * 0)).take 3
        = [0xAA, 0xDD, 0x00] ∧
      (out.drop (54 + 0 * (OUTPUT_ROW_BYTES example_config_scale2).toNat + 3 * 1)).take 3
        = [0xFF, 0xFF, 0xFF] ∧
      (out.drop (54 + 0 * (OUTPUT_ROW_BYTES example_config_scale2).toNat + 3 * 2)).take 3
        = [0x00, 0xFF, 0x00] ∧
      (out.drop (54 + 1 * (OUTPUT_ROW_BYTES example_config_scale2).toNat + 3 * 0)).take 3
        = [0xFF, 0xFF, 0xFF]) :=
  ⟨⟨_, rfl, by decide, by decide, by decide, by decide, by decide, by decide, by decide,
      by decide⟩,
    ⟨_, rfl, by decide, by decide, by decide, by decide, by decide, by decide⟩⟩

/-! ## Order of the branches of the colour mapper -/

theorem z_to_pixel_eq_chain (z : Int) (bp : bitmap_pixel) :
    z_to_pixel z bp = z_to_pixel_with odd_chain z bp := by
  unfold z_to_pixel z_to_pixel_with
  by_cases hodd : int_bits z &&& 0x1 ≠ 0
  · rw [if_pos hodd, if_pos hodd]
    simp only [odd_chain, first_match, odd_catch_all, decide_eq_true_eq]
    repeat' split
    all_goals rfl
  · rw [if_neg hodd, if_neg hodd]

theorem first_match_perm (z : Int) (last : Colour) {l l' : List ((Int → Bool) × Colour)}
    (hp : l.Perm l') : chain_exclusive z l → first_match z l last = first_match z l' last := by
  induction hp with
  | nil =>
    intro _
    rfl
  | cons x _ ih =>
    intro hex
    obtain ⟨g, v⟩ := x
    simp only [first_match]
    rw [ih (fun a ha b hb => hex a (List.mem_cons_of_mem _ ha) b (List.mem_cons_of_mem _ hb))]
  | swap x y l =>
    intro hex
    obtain ⟨gx, vx⟩ := x
    obtain ⟨gy, vy⟩ := y
    simp only [first_match]
    by_cases hx : gx z = true
    · by_cases hy : gy z = true
      · have hxy := hex (gx, vx) (by simp) (gy, vy) (by simp) hx hy
        simp only [hx, hy, if_true]
        exact hxy.symm
      · simp [hx, hy]
    · by_cases hy : gy z = true
      · simp [hx, hy]
      · simp [hx, hy]
  | trans h1 _ ih1 ih2 =>
    intro hex
    rw [ih1 hex]
    exact ih2 (fun a ha b hb => hex a (h1.mem_iff.mpr ha) b (h1.mem_iff.mpr hb))

theorem odd_chain_pairwise (z : Int) :
    odd_chain.Pairwise (fun a b => ¬ (a.1 z = true ∧ b.1 z = true)) := by
  simp only [odd_chain, List.pairwise_cons, List.mem_cons, List.mem_singleton,
    forall_eq_or_imp, forall_eq, decide_eq_true_eq, List.not_mem_nil, false_implies,
    implies_true, List.Pairwise.nil, and_true]
  omega

theorem odd_chain_exclusive (z : Int) : chain_exclusive z odd_chain := by
  intro a ha b hb h1 h2
  simp only [odd_chain, List.mem_cons, List.mem_singleton, List.not_mem_nil, or_false] at ha hb
  rcases ha with rfl | rfl | rfl | rfl | rfl | rfl | rfl | rfl <;>
    rcases hb with rfl | rfl | rfl | rfl | rfl | rfl | rfl | rfl <;>
    first
      | rfl
      | (exfalso
         simp only [decide_eq_true_eq] at h1 h2
         omega)

theorem odd_chain_none_iff (z : Int) : (∀ b ∈ odd_chain, b.1 z = false) ↔ 400 ≤ z := by
  simp only [odd_chain, List.mem_cons, List.mem_singleton, List.not_mem_nil, or_false,
    forall_eq_or_imp, forall_eq, decide_eq_false_iff_not]
  omega

/-- C11: for every sample `z` (in particular every `int16_t`) no two of the
eight guarded branch conditions of the odd-sample chain hold together, and
none of them holds, so that the final `else` is taken, exactly when `z ≥ 400`;
`z_to_pixel` is the chain evaluated in program order, and evaluating the eight
guarded branches in any other order `chain` (the catch-all kept last) yields
the same pixel. -/
theorem branch_order_irrelevant (z : Int) (bp : bitmap_pixel)
    (chain : List ((Int → Bool) × Colour)) (hperm : chain.Perm odd_chain) :
    odd_chain.Pairwise (fun a b => ¬ (a.1 z = true ∧ b.1 z = true)) ∧
    ((∀ b ∈ odd_chain, b.1 z = false) ↔ 400 ≤ z) ∧
    (first_match z odd_chain odd_catch_all = odd_catch_all ↔ 400 ≤ z) ∧
    odd_chain.length = 8 ∧
    z_to_pixel z bp = z_to_pixel_with odd_chain z bp ∧
    z_to_pixel_with chain z bp = z_to_pixel z bp := by
  refine ⟨odd_chain_pairwise z, odd_chain_none_iff z, ?_, rfl, z_to_pixel_eq_chain z bp, ?_⟩
  · simp only [odd_chain, first_match, odd_catch_all, decide_eq_true_eq]
    constructor
    · intro h
      by_contra hlt
      revert h
      repeat' split
      all_goals first | omega | simp
    · intro h
      repeat (first | rw [if_pos (by omega)] | rw [if_neg (by omega)])
  · rw [z_to_pixel_eq_chain]
    unfold z_to_pixel_with
    rw [first_match_perm z odd_catch_all hperm.symm (odd_chain_exclusive z)]

/-- Witness for C11: the eight guarded branches in reverse order, at the odd
sample 101. -/
theorem branch_order_irrelevant_witness :
    odd_chain.reverse.Perm odd_chain ∧
    z_to_pixel_with odd_chain.reverse 101 { B := 0, G := 0, R := 0 }
      = z_to_pixel 101 { B := 0, G := 0, R := 0 } :=
  ⟨List.reverse_perm odd_chain,
    (branch_order_irrelevant 101 { B := 0, G := 0, R := 0 } odd_chain.reverse
      (List.reverse_perm odd_chain)).2.2.2.2.2⟩

/-! ## The compile-time checks -/

theorem row_padding_check_iff (row_bytes row_bytes_without_padding : Int) :
    row_padding_check row_bytes row_bytes_without_padding = true
      ↔ 0 ≤ row_bytes - row_bytes_without_padding
        ∧ row_bytes - row_bytes_without_padding ≤ 4 := by
  simp only [row_padding_check, Bool.not_eq_true', Bool.or_eq_false_iff, decide_eq_false_iff_not]
  omega

theorem bits_per_pixel_check_iff (bits_per_pixel : Int) :
    bits_per_pixel_check bits_per_pixel = true ↔ bits_per_pixel = 24 := by
  simp [bits_per_pixel_check]

/-- C14 as stated fails: the check accepts 24 bits per pixel with a row stride
of 4 and an unpadded row width of 0, a difference of exactly 4. -/
theorem error_checks_counterexample :
    error_checks 24 4 0 = true ∧ (4 : Int) - 0 ≥ 4 := by
  decide

/-- C14, amended: as a predicate on bits-per-pixel and the two row byte counts,
the configuration check rejects every configuration whose
`row_stride - unpadded_width` is negative or greater than 4 and every
configuration with bits-per-pixel different from 24; it accepts exactly the
configurations with bits-per-pixel 24 and difference in `[0, 4]`, the value 4
included. -/
theorem error_checks_iff (bits_per_pixel row_bytes row_bytes_without_padding : Int) :
    (error_checks bits_per_pixel row_bytes row_bytes_without_padding = true
      ↔ bits_per_pixel = 24 ∧ 0 ≤ row_bytes - row_bytes_without_padding
        ∧ row_bytes - row_bytes_without_padding ≤ 4) ∧
    (row_bytes - row_bytes_without_padding < 0
      → error_checks bits_per_pixel row_bytes row_bytes_without_padding = false) ∧
    (row_bytes - row_bytes_without_padding > 4
      → error_checks bits_per_pixel row_bytes row_bytes_without_padding = false) ∧
    (bits_per_pixel ≠ 24
      → error_checks bits_per_pixel row_bytes row_bytes_without_padding = false) := by
  have hiff : error_checks bits_per_pixel row_bytes row_bytes_without_padding = true
      ↔ bits_per_pixel = 24 ∧ 0 ≤ row_bytes - row_bytes_without_padding
        ∧ row_bytes - row_bytes_without_padding ≤ 4 := by
    unfold error_checks
    rw [Bool.and_eq_true, bits_per_pixel_check_iff, row_padding_check_iff]
  refine ⟨hiff, ?_, ?_, ?_⟩
  · intro h
    rw [← Bool.not_eq_true, hiff]
    omega
  · intro h
    rw [← Bool.not_eq_true, hiff]
    omega
  · intro h
    rw [← Bool.not_eq_true, hiff]
    exact fun h' => h h'.1

/-- Witness for the amended C14: a difference of 5 is rejected. -/
theorem error_checks_iff_witness :
    (9 : Int) - 4 > 4 ∧ error_checks 24 9 4 = false :=
  ⟨by decide, (error_checks_iff 24 9 4).2.2.1 (by decide)⟩

theorem row_padding_check_macros (cfg : Config) :
    row_padding_check (row_stride cfg : Int) (row_width cfg : Int) = true := by
  have hb := row_stride_bounds cfg
  rw [row_padding_check_iff, row_width_eq]
  omega

theorem config_accepted_iff (cfg : Config) :
    config_accepted cfg = true ↔ 2 ≤ cfg.INVERSE_SCALE := by
  unfold config_accepted error_checks
  rw [Bool.and_eq_true, Bool.and_eq_true, row_padding_check_macros, decide_eq_true_eq]
  have hbpp : bits_per_pixel_check (BITS_PER_PIXEL : Int) = true := by decide
  rw [hbpp]
  simp only [and_self, and_true]
  omega

theorem raw_single_units_zero (cfg : Config)
    (hzero : OUTPUT_IMAGE_WIDTH cfg = 0 ∨ OUTPUT_IMAGE_HEIGHT cfg = 0) :
    OUTPUT_RAW_SINGLE_UNITS cfg = 0 := by
  have h0 : to_int32 0 = 0 := by decide
  unfold OUTPUT_RAW_SINGLE_UNITS
  rcases hzero with h | h
  · rw [h, Int.ofNat_zero, Int.zero_mul, h0]
  · rw [h, Int.ofNat_zero, Int.mul_zero, h0]

/-- With no pixel to write the loop is not entered and the program writes the
header only. -/
theorem main_eq_header (cfg : Config) (src : List (Fin 256)) (u : Uninit) (fuel : Nat)
    (hzero : OUTPUT_RAW_SINGLE_UNITS cfg = 0) :
    main cfg src u fuel = some (bitmap_bytes (new_bitmap cfg)) := by
  have hdone : main_loop cfg src fuel (initial_state cfg u) = some (initial_state cfg u) :=
    main_loop_done cfg src fuel _ (by rw [hzero]; exact Int.lt_irrefl 0)
  unfold main
  rw [hdone, Option.map_some']
  unfold write_last_padding
  rw [if_neg (by exact Nat.not_lt_zero _)]
  rfl

/-- C15 as stated fails: the configuration `NLON = NLAT = 4`,
`INVERSE_SCALE = 10` has output width and height zero, passes every check of
the program, and the program writes the 54 header bytes. -/
theorem zero_dimension_counterexample :
    OUTPUT_IMAGE_WIDTH empty_output_config = 0 ∧
    OUTPUT_IMAGE_HEIGHT empty_output_config = 0 ∧
    empty_output_config.INVERSE_SCALE / 2 > empty_output_config.NLON ∧
    config_accepted empty_output_config = true ∧
    main empty_output_config example_source example_uninit 0
      = some (bitmap_bytes (new_bitmap empty_output_config)) ∧
    (bitmap_bytes (new_bitmap empty_output_config)).length = 54 := by
  decide

/-- C15, amended: a configuration with `INVERSE_SCALE ≥ 2` whose computed
output width `NLON/(scale/2)` or height `NLAT/(scale/2)` is zero is not
rejected: the checks of the program pass, and the program writes the 54-byte
header and no pixel byte. The only configurations the build rejects are those
with `INVERSE_SCALE < 2`, whose `INVERSE_SCALE / 2` is a zero divisor. -/
theorem zero_dimension_accepted (cfg : Config) (src : List (Fin 256)) (u : Uninit)
    (fuel : Nat) (hs : 2 ≤ cfg.INVERSE_SCALE)
    (hzero : OUTPUT_IMAGE_WIDTH cfg = 0 ∨ OUTPUT_IMAGE_HEIGHT cfg = 0) :
    config_accepted cfg = true ∧
    main cfg src u fuel = some (bitmap_bytes (new_bitmap cfg)) ∧
    (bitmap_bytes (new_bitmap cfg)).length = 54 ∧
    (∀ cfg' : Config, config_accepted cfg' = true ↔ 2 ≤ cfg'.INVERSE_SCALE) := by
  refine ⟨(config_accepted_iff cfg).mpr hs, main_eq_header cfg src u fuel ?_,
    header_length cfg, config_accepted_iff⟩
  exact raw_single_units_zero cfg hzero

/-- Witness for the amended C15: the configuration `NLON = NLAT = 4`,
`INVERSE_SCALE = 10`. -/
theorem zero_dimension_accepted_witness :
    2 ≤ empty_output_config.INVERSE_SCALE ∧
    (OUTPUT_IMAGE_WIDTH empty_output_config = 0
      ∨ OUTPUT_IMAGE_HEIGHT empty_output_config = 0) ∧
    config_accepted empty_output_config = true ∧
    main empty_output_config example_source example_uninit 3
      = some (bitmap_bytes (new_bitmap empty_output_config)) :=
  ⟨by decide, by decide,
    (zero_dimension_accepted empty_output_config example_source example_uninit 3
      (by decide) (by decide)).1,
    (zero_dimension_accepted empty_output_config example_source example_uninit 3
      (by decide) (by decide)).2.1⟩

/-! ## Iterations of the main loop -/

/-- The iterations still to run from a loop-head state complete the list of all
iterations. -/
theorem loop_events_runs (cfg : Config) (src : List (Fin 256)) (u : Uninit)
    (hW : 1 ≤ OUTPUT_IMAGE_WIDTH cfg)
    (hrow : 24 * OUTPUT_IMAGE_WIDTH cfg + 31 ≤ 2147483647)
    (hcount : OUTPUT_IMAGE_WIDTH cfg * OUTPUT_IMAGE_HEIGHT cfg ≤ 2147483647) :
    ∀ (k fuel r c : Nat) (st : LoopState), LoopInv cfg src u r c st →
      r < OUTPUT_IMAGE_HEIGHT cfg → c ≤ OUTPUT_IMAGE_WIDTH cfg →
      steps_left cfg r c = k → k ≤ fuel →
      events_before cfg r ++ row_events cfg r c ++ loop_events cfg src fuel st
        = events_before cfg (OUTPUT_IMAGE_HEIGHT cfg - 1)
          ++ row_events cfg (OUTPUT_IMAGE_HEIGHT cfg - 1) (OUTPUT_IMAGE_WIDTH cfg) := by
  intro k
  induction k with
  | zero =>
    intro fuel r c st hinv hr hc hk _
    unfold steps_left at hk
    have hk1 : OUTPUT_IMAGE_HEIGHT cfg - 1 - r = 0 := by
      rcases Nat.mul_eq_zero.mp (Nat.add_eq_zero_iff.mp hk).1 with h | h
      · exact h
      · omega
    have hk2 : OUTPUT_IMAGE_WIDTH cfg - c = 0 := (Nat.add_eq_zero_iff.mp hk).2
    have hr' : r = OUTPUT_IMAGE_HEIGHT cfg - 1 := by omega
    have hc' : c = OUTPUT_IMAGE_WIDTH cfg := by omega
    subst hc'
    rw [hr'] at hinv
    have hi : ¬ st.i < OUTPUT_RAW_SINGLE_UNITS cfg := by
      rw [loop_guard_iff cfg src u _ _ st hinv hcount, index_last_eq_total cfg (by omega)]
      omega
    have hnil : loop_events cfg src fuel st = [] := by
      cases fuel with
      | zero => rfl
      | succ f => simp [loop_events, hi]
    rw [hnil, hr', List.append_nil]
  | succ k ih =>
    intro fuel r c st hinv hr hc hk hfuel
    obtain ⟨f, hf⟩ : ∃ f, fuel = f + 1 := ⟨fuel - 1, by omega⟩
    subst hf
    unfold steps_left at hk
    by_cases hcW : c < OUTPUT_IMAGE_WIDTH cfg
    · have hlt := index_lt_total cfg r c hW hr hc (Or.inl hcW)
      have hi : st.i < OUTPUT_RAW_SINGLE_UNITS cfg :=
        (loop_guard_iff cfg src u r c st hinv hcount).mpr hlt
      have hstep := loop_body_pixel cfg src u r c st hinv hcW hrow (by omega)
      have hend := at_end_of_row_false cfg src u r c st hinv hcW hrow
      have hoff := seek_offset_eq cfg src u r c st hinv hcW
      have hk' : steps_left cfg r (c + 1) = k := by
        unfold steps_left
        omega
      have hrun := ih f r (c + 1) (loop_body cfg src st) hstep hr (by omega) hk' (by omega)
      rw [← hrun]
      simp [loop_events, hi, hend, hoff, row_events]
    · have hc' : c = OUTPUT_IMAGE_WIDTH cfg := by omega
      subst hc'
      have hd : OUTPUT_IMAGE_HEIGHT cfg - 1 - r ≠ 0 := by
        intro h0
        rw [h0] at hk
        omega
      obtain ⟨d, hd'⟩ : ∃ d, OUTPUT_IMAGE_HEIGHT cfg - 1 - r = d + 1 :=
        ⟨OUTPUT_IMAGE_HEIGHT cfg - 1 - r - 1, by omega⟩
      have hr1 : r + 1 < OUTPUT_IMAGE_HEIGHT cfg := by omega
      have hi : st.i < OUTPUT_RAW_SINGLE_UNITS cfg :=
        (loop_guard_iff cfg src u r _ st hinv hcount).mpr
          (index_lt_total cfg r _ hW hr hc (Or.inr hr1))
      have hstep := loop_body_reset cfg src u r st hinv hrow
      have hend := at_end_of_row_true cfg src u r st hinv hrow
      have hk' : steps_left cfg (r + 1) 0 = k := by
        unfold steps_left
        have hd2 : OUTPUT_IMAGE_HEIGHT cfg - 1 - (r + 1) = d := by omega
        rw [hd', Nat.succ_mul] at hk
        rw [hd2]
        omega
      have hrun := ih f (r + 1) 0 (loop_body cfg src st) hstep hr1 (by omega) hk' (by omega)
      rw [← hrun]
      simp [loop_events, hi, hend, row_events, events_before]

theorem row_events_length (cfg : Config) (r c : Nat) : (row_events cfg r c).length = c := by
  induction c with
  | zero => rfl
  | succ k ih => simp [row_events, ih]

theorem events_before_length (cfg : Config) (r : Nat) :
    (events_before cfg r).length = r * (OUTPUT_IMAGE_WIDTH cfg + 1) := by
  induction r with
  | zero => simp [events_before]
  | succ k ih =>
    have hmul : (k + 1) * (OUTPUT_IMAGE_WIDTH cfg + 1)
        = k * (OUTPUT_IMAGE_WIDTH cfg + 1) + (OUTPUT_IMAGE_WIDTH cfg + 1) := Nat.succ_mul k _
    simp only [events_before, List.length_append, ih, row_events_length, List.length_singleton]
    omega

theorem row_events_count (cfg : Config) (r c : Nat) :
    (row_events cfg r c).countP LoopEvent.is_pixel_write = c ∧
      (row_events cfg r c).countP (fun e => !e.is_pixel_write) = 0 := by
  induction c with
  | zero => exact ⟨rfl, rfl⟩
  | succ k ih =>
    simp only [row_events, List.countP_append, ih.1, ih.2]
    exact ⟨rfl, rfl⟩

theorem events_before_count (cfg : Config) (r : Nat) :
    (events_before cfg r).countP LoopEvent.is_pixel_write = r * OUTPUT_IMAGE_WIDTH cfg ∧
      (events_before cfg r).countP (fun e => !e.is_pixel_write) = r := by
  induction r with
  | zero => simp [events_before]
  | succ k ih =>
    have hmul : (k + 1) * OUTPUT_IMAGE_WIDTH cfg
        = k * OUTPUT_IMAGE_WIDTH cfg + OUTPUT_IMAGE_WIDTH cfg := Nat.succ_mul k _
    simp only [events_before, List.countP_append, ih.1, ih.2, (row_events_count cfg k _).1,
      (row_events_count cfg k _).2, hmul]
    exact ⟨rfl, rfl⟩

theorem all_events_count (cfg : Config) :
    (all_events cfg).countP LoopEvent.is_pixel_write
        = OUTPUT_IMAGE_WIDTH cfg * OUTPUT_IMAGE_HEIGHT cfg ∧
      (all_events cfg).countP (fun e => !e.is_pixel_write) = OUTPUT_IMAGE_HEIGHT cfg - 1 := by
  unfold all_events
  by_cases hH : OUTPUT_IMAGE_HEIGHT cfg = 0
  · rw [if_pos hH, hH]
    exact ⟨rfl, rfl⟩
  · rw [if_neg hH]
    have hlast := index_last_eq_total cfg (by omega)
    simp only [List.countP_append, (events_before_count cfg _).1, (events_before_count cfg _).2,
      (row_events_count cfg _ _).1, (row_events_count cfg _ _).2]
    exact ⟨hlast, rfl⟩

theorem row_events_split (cfg : Config) (r c : Nat) :
    ∀ n : Nat, c < n → ∃ t, row_events cfg r n
      = row_events cfg r c
        ++ [LoopEvent.pixel_write (nth_seek_offset cfg (r * OUTPUT_IMAGE_WIDTH cfg + c))]
        ++ t := by
  intro n
  induction n with
  | zero =>
    intro h
    omega
  | succ k ih =>
    intro h
    by_cases hk : c = k
    · subst hk
      exact ⟨[], by simp [row_events]⟩
    · obtain ⟨t, ht⟩ := ih (by omega)
      exact ⟨t ++ [LoopEvent.pixel_write
        (nth_seek_offset cfg (r * OUTPUT_IMAGE_WIDTH cfg + k))], by
          simp only [row_events, ht, List.append_assoc]⟩

theorem events_before_split (cfg : Config) (r : Nat) :
    ∀ n : Nat, r < n → ∃ t, events_before cfg n
      = events_before cfg r ++ row_events cfg r (OUTPUT_IMAGE_WIDTH cfg)
        ++ [LoopEvent.row_reset] ++ t := by
  intro n
  induction n with
  | zero =>
    intro h
    omega
  | succ k ih =>
    intro h
    by_cases hk : r = k
    · subst hk
      exact ⟨[], by simp [events_before]⟩
    · obtain ⟨t, ht⟩ := ih (by omega)
      exact ⟨t ++ row_events cfg k (OUTPUT_IMAGE_WIDTH cfg) ++ [LoopEvent.row_reset], by
        simp only [events_before, ht, List.append_assoc]⟩

theorem getElem?_of_middle {α : Type} (l a t : List α) (x : α) (h : l = a ++ [x] ++ t) :
    l[a.length]? = some x := by
  rw [h, List.append_assoc, List.getElem?_append_right (Nat.le_refl _), Nat.sub_self]
  simp

/-- The iteration number `r * (W + 1) + c` is the pixel write for output
coordinate (`r`, `c`). -/
theorem all_events_pixel (cfg : Config) (r c : Nat) (hr : r < OUTPUT_IMAGE_HEIGHT cfg)
    (hc : c < OUTPUT_IMAGE_WIDTH cfg) :
    (all_events cfg)[r * (OUTPUT_IMAGE_WIDTH cfg + 1) + c]?
      = some (LoopEvent.pixel_write
          (nth_seek_offset cfg (r * OUTPUT_IMAGE_WIDTH cfg + c))) := by
  have hH : ¬ OUTPUT_IMAGE_HEIGHT cfg = 0 := by omega
  obtain ⟨t1, ht1⟩ := row_events_split cfg r c (OUTPUT_IMAGE_WIDTH cfg) hc
  have hlen : (events_before cfg r ++ row_events cfg r c).length
      = r * (OUTPUT_IMAGE_WIDTH cfg + 1) + c := by
    rw [List.length_append, events_before_length, row_events_length]
  rw [← hlen]
  unfold all_events
  rw [if_neg hH]
  by_cases hlast : r = OUTPUT_IMAGE_HEIGHT cfg - 1
  · apply getElem?_of_middle _ _ t1
    rw [← hlast, ht1]
    simp only [List.append_assoc]
  · obtain ⟨t2, ht2⟩ := events_before_split cfg r (OUTPUT_IMAGE_HEIGHT cfg - 1) (by omega)
    apply getElem?_of_middle _ _ (t1 ++ [LoopEvent.row_reset] ++ t2
      ++ row_events cfg (OUTPUT_IMAGE_HEIGHT cfg - 1) (OUTPUT_IMAGE_WIDTH cfg))
    rw [ht2, ht1]
    simp only [List.append_assoc]

/-- The iteration number `r * (W + 1) + W` is the row reset after output row
`r`, when that row is not the last one. -/
theorem all_events_reset (cfg : Config) (r : Nat) (hr : r + 1 < OUTPUT_IMAGE_HEIGHT cfg) :
    (all_events cfg)[r * (OUTPUT_IMAGE_WIDTH cfg + 1) + OUTPUT_IMAGE_WIDTH cfg]?
      = some LoopEvent.row_reset := by
  have hH : ¬ OUTPUT_IMAGE_HEIGHT cfg = 0 := by omega
  obtain ⟨t2, ht2⟩ := events_before_split cfg r (OUTPUT_IMAGE_HEIGHT cfg - 1) (by omega)
  have hlen : (events_before cfg r ++ row_events cfg r (OUTPUT_IMAGE_WIDTH cfg)).length
      = r * (OUTPUT_IMAGE_WIDTH cfg + 1) + OUTPUT_IMAGE_WIDTH cfg := by
    rw [List.length_append, events_before_length, row_events_length]
  rw [← hlen]
  apply getElem?_of_middle _ _
    (t2 ++ row_events cfg (OUTPUT_IMAGE_HEIGHT cfg - 1) (OUTPUT_IMAGE_WIDTH cfg))
  unfold all_events
  rw [if_neg hH, ht2]
  simp only [List.append_assoc]

theorem loop_events_eq (cfg : Config) (src : List (Fin 256)) (u : Uninit) (fuel : Nat)
    (hW : 1 ≤ OUTPUT_IMAGE_WIDTH cfg) (hir : int_range cfg)
    (hfuel : OUTPUT_IMAGE_WIDTH cfg * OUTPUT_IMAGE_HEIGHT cfg + OUTPUT_IMAGE_HEIGHT cfg
      ≤ fuel) :
    loop_events cfg src fuel (initial_state cfg u) = all_events cfg := by
  unfold all_events
  by_cases hH : OUTPUT_IMAGE_HEIGHT cfg = 0
  · have hzero : OUTPUT_RAW_SINGLE_UNITS cfg = 0 := raw_single_units_zero cfg (Or.inr hH)
    have hi : ¬ (initial_state cfg u).i < OUTPUT_RAW_SINGLE_UNITS cfg := by
      rw [hzero]
      exact Int.lt_irrefl 0
    rw [if_pos hH]
    cases fuel with
    | zero => rfl
    | succ f => simp [loop_events, hi]
  · rw [if_neg hH]
    have hstart := steps_left_start cfg (by omega)
    have hrun := loop_events_runs cfg src u hW (int_range_row cfg hir) (int_range_count cfg hir)
      (steps_left cfg 0 0) fuel 0 0 (initial_state cfg u) (initial_state_inv cfg src u)
      (by omega) (by omega) rfl (by omega)
    simpa [events_before, row_events] using hrun

/-- The state in which the loop exits when no `int` expression overflows. -/
theorem main_loop_final (cfg : Config) (src : List (Fin 256)) (u : Uninit) (fuel : Nat)
    (hW : 1 ≤ OUTPUT_IMAGE_WIDTH cfg) (hir : int_range cfg)
    (hfuel : OUTPUT_IMAGE_WIDTH cfg * OUTPUT_IMAGE_HEIGHT cfg + OUTPUT_IMAGE_HEIGHT cfg
      ≤ fuel) :
    ∃ st', main_loop cfg src fuel (initial_state cfg u) = some st' ∧
      st'.i = ((OUTPUT_IMAGE_WIDTH cfg * OUTPUT_IMAGE_HEIGHT cfg : Nat) : Int) ∧
      (1 ≤ OUTPUT_IMAGE_WIDTH cfg * OUTPUT_IMAGE_HEIGHT cfg →
        st'.current_output_column = 3 * OUTPUT_IMAGE_WIDTH cfg) ∧
      ¬ st'.current_output_column > int_bits (OUTPUT_ROW_BYTES_WITHOUT_PADDING cfg) ∧
      write_last_padding cfg st' = st'.output_file := by
  have hrow := int_range_row cfg hir
  have hcount := int_range_count cfg hir
  have hbits := row_width_bits cfg hrow
  by_cases hH : OUTPUT_IMAGE_HEIGHT cfg = 0
  · have hzero : OUTPUT_RAW_SINGLE_UNITS cfg = 0 := raw_single_units_zero cfg (Or.inr hH)
    have hi : ¬ (initial_state cfg u).i < OUTPUT_RAW_SINGLE_UNITS cfg := by
      rw [hzero]
      exact Int.lt_irrefl 0
    refine ⟨initial_state cfg u, main_loop_done cfg src fuel _ hi, ?_, ?_, ?_, ?_⟩
    · rw [hH, Nat.mul_zero]
      rfl
    · intro h
      rw [hH, Nat.mul_zero] at h
      omega
    · exact Nat.not_lt_zero _
    · unfold write_last_padding
      rw [if_neg (by exact Nat.not_lt_zero _)]
  · have hstart := steps_left_start cfg (by omega)
    obtain ⟨st', hrun, hinv⟩ := main_loop_runs cfg src u hW hrow hcount (steps_left cfg 0 0)
      fuel 0 0 (initial_state cfg u) (initial_state_inv cfg src u) (by omega) (by omega) rfl
      (by omega)
    refine ⟨st', hrun, ?_, fun _ => hinv.column_eq, ?_, ?_⟩
    · rw [hinv.i_eq, index_last_eq_total cfg (by omega)]
    · rw [hinv.column_eq, hbits]
      omega
    · unfold write_last_padding
      rw [hinv.column_eq, hbits]
      simp

theorem to_int32_range (x : Int) : -2147483648 ≤ to_int32 x ∧ to_int32 x ≤ 2147483647 := by
  unfold to_int32
  omega

/-- The two kinds of iteration: a pixel write increments `i` (an `i` below the
`int` loop bound cannot overflow), a row reset leaves `i` unchanged and is
followed by a pixel write. -/
theorem loop_body_kinds (cfg : Config) (src : List (Fin 256)) (st : LoopState)
    (hW : 1 ≤ OUTPUT_IMAGE_WIDTH cfg)
    (hrow : 24 * OUTPUT_IMAGE_WIDTH cfg + 31 ≤ 2147483647) :
    (0 ≤ st.i → st.i < OUTPUT_RAW_SINGLE_UNITS cfg → at_end_of_row cfg st = false →
      (loop_body cfg src st).i = st.i + 1 ∧
      (loop_body cfg src st).output_file
        = bitmap_write_pixel st.output_file (loop_body cfg src st).pixel) ∧
    (at_end_of_row cfg st = true →
      (loop_body cfg src st).i = st.i ∧
      (loop_body cfg src st).output_file = write_bitmap_row_padding cfg st.output_file ∧
      at_end_of_row cfg (loop_body cfg src st) = false) := by
  have hpb : PIXEL_BYTES = 3 := rfl
  have hbits := row_width_bits cfg hrow
  constructor
  · intro h0 hlt h
    have hmax : OUTPUT_RAW_SINGLE_UNITS cfg ≤ 2147483647 := (to_int32_range _).2
    have hinc : to_int32 (st.i + 1) = st.i + 1 := to_int32_eq _ (by omega) (by omega)
    unfold loop_body
    rw [h]
    exact ⟨hinc, rfl⟩
  · intro h
    unfold loop_body
    rw [h]
    refine ⟨rfl, rfl, ?_⟩
    show at_end_of_row cfg { st with
      output_file := write_bitmap_row_padding cfg st.output_file
      current_output_column := 0
      current_output_row := (st.current_output_row + cfg.INVERSE_SCALE) % UINT32_MOD
      source_row_x := 0 } = false
    unfold at_end_of_row
    rw [decide_eq_false_iff_not, uint32_mod_eq, hbits, hpb]
    show ¬ (0 + 3) % 4294967296 > 3 * OUTPUT_IMAGE_WIDTH cfg
    omega

/-- C12 as stated fails: the 65536 x 65536 grid with `INVERSE_SCALE` 2 has
`W = 65536 ≥ 1` and `W*H = 2^32` output pixels, but the `int` loop bound
`OUTPUT_RAW_SINGLE_UNITS` overflows to 0: the loop exits at once with `i = 0`,
having performed no iteration and no pixel write. -/
theorem loop_terminates_row_major_counterexample :
    1 ≤ OUTPUT_IMAGE_WIDTH square_grid_config ∧
    OUTPUT_IMAGE_WIDTH square_grid_config * OUTPUT_IMAGE_HEIGHT square_grid_config
      = 4294967296 ∧
    OUTPUT_RAW_SINGLE_UNITS square_grid_config = 0 ∧
    (main_loop square_grid_config example_source 8
        (initial_state square_grid_config example_uninit)).map (fun st => st.i) = some 0 ∧
    loop_events square_grid_config example_source 8
        (initial_state square_grid_config example_uninit) = [] ∧
    (loop_events square_grid_config example_source 8
        (initial_state square_grid_config example_uninit)).countP LoopEvent.is_pixel_write
      ≠ OUTPUT_IMAGE_WIDTH square_grid_config * OUTPUT_IMAGE_HEIGHT square_grid_config := by
  decide

/-- C12, amended: for every configuration with output width `W ≥ 1` and height
`H ≥ 0` in which no `int` expression overflows (`int_range`) the main loop
terminates within `W*H + H` iterations with `i = W*H`; its iterations are the
list `all_events`: for each output row `W` consecutive pixel writes, in
row-major order (the `(r*W + c)`-th pixel write seeks for output coordinate
(`r`, `c`)), with one row reset between two rows, so exactly `W*H` pixel writes
and `H - 1` row resets. An iteration that is not at the end of a row writes one
pixel and increments `i`; a row reset leaves `i` unchanged and is followed by a
pixel write. -/
theorem loop_terminates_row_major (cfg : Config) (src : List (Fin 256)) (u : Uninit)
    (fuel : Nat) (hW : 1 ≤ OUTPUT_IMAGE_WIDTH cfg) (hir : int_range cfg)
    (hfuel : OUTPUT_RAW_SINGLE_UNITS cfg + OUTPUT_IMAGE_HEIGHT cfg ≤ fuel) :
    (∃ st', main_loop cfg src fuel (initial_state cfg u) = some st' ∧
      st'.i = ((OUTPUT_IMAGE_WIDTH cfg * OUTPUT_IMAGE_HEIGHT cfg : Nat) : Int)) ∧
    loop_events cfg src fuel (initial_state cfg u) = all_events cfg ∧
    (all_events cfg).countP LoopEvent.is_pixel_write
      = OUTPUT_IMAGE_WIDTH cfg * OUTPUT_IMAGE_HEIGHT cfg ∧
    (all_events cfg).countP (fun e => !e.is_pixel_write) = OUTPUT_IMAGE_HEIGHT cfg - 1 ∧
    (∀ r c, r < OUTPUT_IMAGE_HEIGHT cfg → c < OUTPUT_IMAGE_WIDTH cfg →
      (all_events cfg)[r * (OUTPUT_IMAGE_WIDTH cfg + 1) + c]?
        = some (LoopEvent.pixel_write
            (nth_seek_offset cfg (r * OUTPUT_IMAGE_WIDTH cfg + c)))) ∧
    (∀ r, r + 1 < OUTPUT_IMAGE_HEIGHT cfg →
      (all_events cfg)[r * (OUTPUT_IMAGE_WIDTH cfg + 1) + OUTPUT_IMAGE_WIDTH cfg]?
        = some LoopEvent.row_reset) ∧
    (∀ st, 0 ≤ st.i → st.i < OUTPUT_RAW_SINGLE_UNITS cfg → at_end_of_row cfg st = false →
      (loop_body cfg src st).i = st.i + 1 ∧
      (loop_body cfg src st).output_file
        = bitmap_write_pixel st.output_file (loop_body cfg src st).pixel) ∧
    (∀ st, at_end_of_row cfg st = true →
      (loop_body cfg src st).i = st.i ∧
      (loop_body cfg src st).output_file = write_bitmap_row_padding cfg st.output_file ∧
      at_end_of_row cfg (loop_body cfg src st) = false) := by
  have hrow := int_range_row cfg hir
  have hfuel' := fuel_of_units cfg fuel (int_range_count cfg hir) hfuel
  obtain ⟨st', hrun, hi, _, _⟩ := main_loop_final cfg src u fuel hW hir hfuel'
  exact ⟨⟨st', hrun, hi⟩, loop_events_eq cfg src u fuel hW hir hfuel',
    (all_events_count cfg).1, (all_events_count cfg).2,
    fun r c hr hc => all_events_pixel cfg r c hr hc,
    fun r hr => all_events_reset cfg r hr,
    fun st => (loop_body_kinds cfg src st hW hrow).1,
    fun st => (loop_body_kinds cfg src st hW hrow).2⟩

/-- Witness for the amended C12: the 4 x 4 example grid with `INVERSE_SCALE` 4
(2 x 2 output): four pixel writes and one row reset. -/
theorem loop_terminates_row_major_witness :
    1 ≤ OUTPUT_IMAGE_WIDTH example_config_scale4 ∧
    int_range example_config_scale4 ∧
    OUTPUT_RAW_SINGLE_UNITS example_config_scale4
      + OUTPUT_IMAGE_HEIGHT example_config_scale4 ≤ (6 : Nat) ∧
    loop_events example_config_scale4 example_source 6
        (initial_state example_config_scale4 example_uninit)
      = all_events example_config_scale4 ∧
    (all_events example_config_scale4).countP LoopEvent.is_pixel_write
      = OUTPUT_IMAGE_WIDTH example_config_scale4 * OUTPUT_IMAGE_HEIGHT example_config_scale4 :=
  ⟨by decide, by decide, by decide,
    (loop_terminates_row_major example_config_scale4 example_source example_uninit 6
      (by decide) (by decide) (by decide)).2.1,
    (loop_terminates_row_major example_config_scale4 example_source example_uninit 6
      (by decide) (by decide) (by decide)).2.2.1⟩

/-! ## Loop invariant at the loop heads -/

theorem loop_heads_inv (cfg : Config) (src : List (Fin 256)) (u : Uninit)
    (hW : 1 ≤ OUTPUT_IMAGE_WIDTH cfg)
    (hrow : 24 * OUTPUT_IMAGE_WIDTH cfg + 31 ≤ 2147483647)
    (hcount : OUTPUT_IMAGE_WIDTH cfg * OUTPUT_IMAGE_HEIGHT cfg ≤ 2147483647) :
    ∀ (fuel r c : Nat) (st : LoopState), LoopInv cfg src u r c st →
      c ≤ OUTPUT_IMAGE_WIDTH cfg →
      r * OUTPUT_IMAGE_WIDTH cfg + c ≤ OUTPUT_IMAGE_WIDTH cfg * OUTPUT_IMAGE_HEIGHT cfg →
      r ≤ OUTPUT_IMAGE_HEIGHT cfg - 1 →
      ∀ (k : Nat) (stk : LoopState), (loop_heads cfg src fuel st)[k]? = some stk →
        ∃ c', c' ≤ OUTPUT_IMAGE_WIDTH cfg ∧
          LoopInv cfg src u (r + resets_before cfg (loop_heads cfg src fuel st) k) c' stk ∧
          (r + resets_before cfg (loop_heads cfg src fuel st) k) * OUTPUT_IMAGE_WIDTH cfg + c'
            ≤ OUTPUT_IMAGE_WIDTH cfg * OUTPUT_IMAGE_HEIGHT cfg ∧
          r + resets_before cfg (loop_heads cfg src fuel st) k
            ≤ OUTPUT_IMAGE_HEIGHT cfg - 1 := by
  intro fuel
  induction fuel with
  | zero =>
    intro r c st hinv hc hle hrH k stk hk
    cases k with
    | zero =>
      simp only [loop_heads, List.getElem?_cons_zero, Option.some.injEq] at hk
      subst hk
      exact ⟨c, hc, by simpa [resets_before] using hinv, by simpa [resets_before] using hle,
        by simpa [resets_before] using hrH⟩
    | succ j => simp [loop_heads] at hk
  | succ f ih =>
    intro r c st hinv hc hle hrH k stk hk
    cases k with
    | zero =>
      simp only [loop_heads, List.getElem?_cons_zero, Option.some.injEq] at hk
      subst hk
      exact ⟨c, hc, by simpa [resets_before] using hinv, by simpa [resets_before] using hle,
        by simpa [resets_before] using hrH⟩
    | succ j =>
      by_cases hi : st.i < OUTPUT_RAW_SINGLE_UNITS cfg
      · have htail : loop_heads cfg src (f + 1) st
            = st :: loop_heads cfg src f (loop_body cfg src st) := by
          simp [loop_heads, hi]
        rw [htail, List.getElem?_cons_succ] at hk
        rw [htail]
        have hcount' : resets_before cfg (st :: loop_heads cfg src f (loop_body cfg src st))
              (j + 1)
            = resets_before cfg (loop_heads cfg src f (loop_body cfg src st)) j
              + (if at_end_of_row cfg st = true then 1 else 0) := by
          simp [resets_before, List.countP_cons]
        rw [hcount']
        rw [loop_guard_iff cfg src u r c st hinv hcount] at hi
        by_cases hcW : c < OUTPUT_IMAGE_WIDTH cfg
        · have hstep := loop_body_pixel cfg src u r c st hinv hcW hrow (by omega)
          have hend := at_end_of_row_false cfg src u r c st hinv hcW hrow
          obtain ⟨c', hc', hinv', hle', hrH'⟩ := ih r (c + 1) (loop_body cfg src st) hstep
            (by omega) (by omega) hrH j stk hk
          rw [hend]
          exact ⟨c', hc', by simpa using hinv', by simpa using hle', by simpa using hrH'⟩
        · have hcW' : c = OUTPUT_IMAGE_WIDTH cfg := by omega
          subst hcW'
          have hstep := loop_body_reset cfg src u r st hinv hrow
          have hend := at_end_of_row_true cfg src u r st hinv hrow
          have hmul : (r + 1) * OUTPUT_IMAGE_WIDTH cfg
              = r * OUTPUT_IMAGE_WIDTH cfg + OUTPUT_IMAGE_WIDTH cfg := Nat.succ_mul r _
          have hr1 : r + 1 < OUTPUT_IMAGE_HEIGHT cfg := by
            rw [← hmul, Nat.mul_comm (OUTPUT_IMAGE_WIDTH cfg)] at hi
            exact Nat.lt_of_mul_lt_mul_right hi
          obtain ⟨c', hc', hinv', hle', hrH'⟩ := ih (r + 1) 0 (loop_body cfg src st) hstep
            (by omega) (by omega) (by omega) j stk hk
          have hidx : r + 1 + resets_before cfg (loop_heads cfg src f (loop_body cfg src st)) j
              = r + (resets_before cfg (loop_heads cfg src f (loop_body cfg src st)) j + 1) := by
            omega
          rw [hidx] at hinv' hle' hrH'
          rw [hend]
          exact ⟨c', hc', by simpa using hinv', by simpa using hle', by simpa using hrH'⟩
      · have htail : loop_heads cfg src (f + 1) st = [st] := by
          simp [loop_heads, hi]
        rw [htail] at hk
        simp at hk

/-- C19 as stated fails. The 65536 x 65536 grid with `INVERSE_SCALE` 2 has
`W = 65536 ≥ 1` and `W*H = 2^32 ≥ 1`, but the `int` loop bound overflows to 0
and the loop exits with `current_output_column = 0`, not `3*W = 196608`. For
the grid with the odd `INVERSE_SCALE = 613566757` (output 7 x 1, no `int`
overflow) the `uint32_t` counter `source_row_x` wraps: at the last loop head
`current_output_column = 21` and `source_row_x = 3`, not
`scale * (21 / 3) = 2^32 + 3`. -/
theorem loop_head_invariant_counterexample :
    (1 ≤ OUTPUT_IMAGE_WIDTH square_grid_config ∧
      1 ≤ OUTPUT_IMAGE_WIDTH square_grid_config * OUTPUT_IMAGE_HEIGHT square_grid_config ∧
      OUTPUT_RAW_SINGLE_UNITS square_grid_config = 0 ∧
      (main_loop square_grid_config example_source 8
          (initial_state square_grid_config example_uninit)).map
        (fun st => st.current_output_column) = some 0 ∧
      3 * OUTPUT_IMAGE_WIDTH square_grid_config = 196608 ∧
      (main_loop square_grid_config example_source 8
          (initial_state square_grid_config example_uninit)).map
        (fun st => st.current_output_column)
        ≠ some (3 * OUTPUT_IMAGE_WIDTH square_grid_config)) ∧
    (OUTPUT_IMAGE_WIDTH odd_scale_config = 7 ∧ OUTPUT_IMAGE_HEIGHT odd_scale_config = 1 ∧
      int_range odd_scale_config ∧
      ((loop_heads odd_scale_config example_source 8
          (initial_state odd_scale_config example_uninit))[7]?).map
        (fun st => (st.current_output_column, st.source_row_x)) = some (21, 3) ∧
      odd_scale_config.INVERSE_SCALE * (21 / 3) = 4294967299) := by
  decide

/-- C19, amended: loop invariant of the main loop, for every configuration with
`W ≥ 1` in which no `int` expression overflows (`int_range`) and whose
`uint32_t` counters do not wrap (`scale*W < 2^32`, `scale*(H-1) < 2^32`). At
every loop-head state `current_output_column` is a multiple of 3 between 0 and
`3*W`, `source_row_x = scale * (current_output_column / 3)`,
`current_output_row = scale * n` and `i = W * n + current_output_column / 3`,
where `n` is the number of row resets performed so far. When the loop exits,
`current_output_column = 3*W` (if `W*H ≥ 1`), the test
`current_output_column > OUTPUT_ROW_BYTES_WITHOUT_PADDING` after the loop is
false and the final padding write is not executed. -/
theorem loop_head_invariant (cfg : Config) (src : List (Fin 256)) (u : Uninit) (fuel : Nat)
    (hW : 1 ≤ OUTPUT_IMAGE_WIDTH cfg) (hir : int_range cfg)
    (hx : cfg.INVERSE_SCALE * OUTPUT_IMAGE_WIDTH cfg < UINT32_MOD)
    (hy : cfg.INVERSE_SCALE * (OUTPUT_IMAGE_HEIGHT cfg - 1) < UINT32_MOD) :
    (∀ (k : Nat) (st : LoopState),
      (loop_heads cfg src fuel (initial_state cfg u))[k]? = some st →
        st.current_output_column % 3 = 0 ∧
        st.current_output_column ≤ 3 * OUTPUT_IMAGE_WIDTH cfg ∧
        st.source_row_x = cfg.INVERSE_SCALE * (st.current_output_column / 3) ∧
        st.current_output_row = cfg.INVERSE_SCALE
          * resets_before cfg (loop_heads cfg src fuel (initial_state cfg u)) k ∧
        st.i = ((OUTPUT_IMAGE_WIDTH cfg
            * resets_before cfg (loop_heads cfg src fuel (initial_state cfg u)) k
          + st.current_output_column / 3 : Nat) : Int)) ∧
    (OUTPUT_RAW_SINGLE_UNITS cfg + OUTPUT_IMAGE_HEIGHT cfg ≤ fuel →
      ∃ st', main_loop cfg src fuel (initial_state cfg u) = some st' ∧
        (1 ≤ OUTPUT_IMAGE_WIDTH cfg * OUTPUT_IMAGE_HEIGHT cfg →
          st'.current_output_column = 3 * OUTPUT_IMAGE_WIDTH cfg) ∧
        ¬ st'.current_output_column > int_bits (OUTPUT_ROW_BYTES_WITHOUT_PADDING cfg) ∧
        write_last_padding cfg st' = st'.output_file) := by
  have hrow := int_range_row cfg hir
  have hcount := int_range_count cfg hir
  rw [uint32_mod_eq] at hx hy
  constructor
  · intro k st hk
    obtain ⟨c', hc', hinv, -, hn⟩ := loop_heads_inv cfg src u hW hrow hcount fuel 0 0
      (initial_state cfg u) (initial_state_inv cfg src u) (by omega) (by omega) (by omega)
      k st hk
    rw [Nat.zero_add] at hinv hn
    generalize resets_before cfg (loop_heads cfg src fuel (initial_state cfg u)) k = n
      at hinv hn
    have hsx : cfg.INVERSE_SCALE * c' ≤ cfg.INVERSE_SCALE * OUTPUT_IMAGE_WIDTH cfg :=
      Nat.mul_le_mul_left _ hc'
    have hsy : cfg.INVERSE_SCALE * n ≤ cfg.INVERSE_SCALE * (OUTPUT_IMAGE_HEIGHT cfg - 1) :=
      Nat.mul_le_mul_left _ hn
    have hcol := hinv.column_eq
    have hdiv : st.current_output_column / 3 = c' := by omega
    refine ⟨by omega, by omega, ?_, ?_, ?_⟩
    · rw [hinv.source_x_eq, hdiv, uint32_mod_eq]
      exact Nat.mod_eq_of_lt (by omega)
    · rw [hinv.row_eq, uint32_mod_eq]
      exact Nat.mod_eq_of_lt (by omega)
    · rw [hinv.i_eq, hdiv, Nat.mul_comm]
  · intro hfuel
    have hfuel' := fuel_of_units cfg fuel hcount hfuel
    obtain ⟨st', hrun, _, hcol, htest, hlast⟩ := main_loop_final cfg src u fuel hW hir hfuel'
    exact ⟨st', hrun, hcol, htest, hlast⟩

/-- Witness for the amended C19: the 4 x 4 example grid with `INVERSE_SCALE` 4. -/
theorem loop_head_invariant_witness :
    1 ≤ OUTPUT_IMAGE_WIDTH example_config_scale4 ∧
    int_range example_config_scale4 ∧
    example_config_scale4.INVERSE_SCALE * OUTPUT_IMAGE_WIDTH example_config_scale4
      < UINT32_MOD ∧
    example_config_scale4.INVERSE_SCALE * (OUTPUT_IMAGE_HEIGHT example_config_scale4 - 1)
      < UINT32_MOD ∧
    OUTPUT_RAW_SINGLE_UNITS example_config_scale4
      + OUTPUT_IMAGE_HEIGHT example_config_scale4 ≤ (6 : Nat) ∧
    ∃ st', main_loop example_config_scale4 example_source 6
        (initial_state example_config_scale4 example_uninit) = some st' ∧
      (1 ≤ OUTPUT_IMAGE_WIDTH example_config_scale4
          * OUTPUT_IMAGE_HEIGHT example_config_scale4 →
        st'.current_output_column = 3 * OUTPUT_IMAGE_WIDTH example_config_scale4) ∧
      ¬ st'.current_output_column
        > int_bits (OUTPUT_ROW_BYTES_WITHOUT_PADDING example_config_scale4) ∧
      write_last_padding example_config_scale4 st' = st'.output_file :=
  ⟨by decide, by decide, by decide, by decide, by decide,
    (loop_head_invariant example_config_scale4 example_source example_uninit 6
      (by decide) (by decide) (by decide) (by decide)).2 (by decide)⟩

/-! ## Seek offsets and the source file -/

theorem nth_seek_offset_eq (cfg : Config) (r c : Nat) (hc : c < OUTPUT_IMAGE_WIDTH cfg) :
    nth_seek_offset cfg (r * OUTPUT_IMAGE_WIDTH cfg + c)
      = (cfg.INVERSE_SCALE * (r * cfg.NLON + c)) % UINT32_MOD := by
  have hdiv : (r * OUTPUT_IMAGE_WIDTH cfg + c) / OUTPUT_IMAGE_WIDTH cfg = r := by
    rw [Nat.add_comm, Nat.add_mul_div_right _ _ (by omega), Nat.div_eq_of_lt hc, Nat.zero_add]
  have hmod : (r * OUTPUT_IMAGE_WIDTH cfg + c) % OUTPUT_IMAGE_WIDTH cfg = c := by
    rw [Nat.add_comm, Nat.add_mul_mod_self_right, Nat.mod_eq_of_lt hc]
  unfold nth_seek_offset
  rw [hdiv, hmod, Nat.mul_add, Nat.mul_assoc]

/-- Arithmetic of the sampling: for stride `k ≥ 1` and an output coordinate
(`r`, `c`) with `r < NLAT / k`, `c < NLON / k`, the sample at source row `k*r`,
source column `k*c` lies in the grid and its two bytes lie in a file of
`2 * NLON * NLAT` bytes. -/
theorem sample_in_grid (nlon nlat k r c : Nat) (hk : 1 ≤ k) (hr : r < nlat / k)
    (hc : c < nlon / k) :
    k * c < nlon ∧ k * r < nlat ∧
      2 * k * (r * nlon + c) = 2 * (k * r * nlon + k * c) ∧
      2 * k * (r * nlon + c) + 2 ≤ 2 * nlon * nlat := by
  have hrk : (r + 1) * k ≤ nlat := (Nat.le_div_iff_mul_le (by omega)).mp hr
  have hck : (c + 1) * k ≤ nlon := (Nat.le_div_iff_mul_le (by omega)).mp hc
  rw [Nat.succ_mul] at hrk hck
  have hrc : r * k = k * r := Nat.mul_comm r k
  have hcc : c * k = k * c := Nat.mul_comm c k
  have hexp : 2 * k * (r * nlon + c) = 2 * (k * r * nlon + k * c) := by ring
  have hmul : (k * r + 1) * nlon ≤ nlat * nlon := Nat.mul_le_mul_right _ (by omega)
  have hmul2 : (k * r + 1) * nlon = (k * r) * nlon + nlon := Nat.succ_mul _ _
  have hcomm : 2 * nlon * nlat = 2 * (nlat * nlon) := by ring
  refine ⟨by omega, by omega, hexp, ?_⟩
  rw [hexp, hcomm]
  omega

/-- The iteration for output coordinate (`r`, `c`) seeks to
`INVERSE_SCALE * (r * NLON + c)`, computed modulo `2^32`. -/
theorem loop_event_at (cfg : Config) (src : List (Fin 256)) (u : Uninit) (fuel r c : Nat)
    (hir : int_range cfg)
    (hfuel : OUTPUT_IMAGE_WIDTH cfg * OUTPUT_IMAGE_HEIGHT cfg + OUTPUT_IMAGE_HEIGHT cfg
      ≤ fuel)
    (hr : r < OUTPUT_IMAGE_HEIGHT cfg) (hc : c < OUTPUT_IMAGE_WIDTH cfg) :
    (loop_events cfg src fuel (initial_state cfg u))[r * (OUTPUT_IMAGE_WIDTH cfg + 1) + c]?
      = some (LoopEvent.pixel_write
          ((cfg.INVERSE_SCALE * (r * cfg.NLON + c)) % UINT32_MOD)) := by
  rw [loop_events_eq cfg src u fuel (by omega) hir hfuel, all_events_pixel cfg r c hr hc,
    nth_seek_offset_eq cfg r c hc]

theorem output_dims_of_stride (cfg : Config) (k : Nat) (hs : cfg.INVERSE_SCALE = 2 * k) :
    cfg.INVERSE_SCALE / 2 = k ∧ OUTPUT_IMAGE_WIDTH cfg = cfg.NLON / k
      ∧ OUTPUT_IMAGE_HEIGHT cfg = cfg.NLAT / k := by
  have hk : cfg.INVERSE_SCALE / 2 = k := by omega
  unfold OUTPUT_IMAGE_WIDTH OUTPUT_IMAGE_HEIGHT
  rw [hk]
  exact ⟨rfl, rfl, rfl⟩

/-- C16 as stated fails. For the 65536 x 131072 grid with
`INVERSE_SCALE = 131072 = 2 * 65536` (output 1 x 2, no `int` overflow) the
`uint32_t` computation of line 381 wraps: the iteration for output coordinate
(1, 0) seeks to offset 0, not to `s*(1*NLON + 0) = 2^33`. For the grid of one
row of 178956972 samples with `INVERSE_SCALE = 2 * 1` the `int` product
`24 * W` overflows and the row-end test of line 369 holds after one pixel: the
second iteration is a row reset, not the pixel write at offset
`s*(0*NLON + 1) = 2` for output coordinate (0, 1). -/
theorem seek_offset_halved_stride_counterexample :
    (tall_grid_config.INVERSE_SCALE = 2 * 65536 ∧
      65536 ≤ min tall_grid_config.NLON tall_grid_config.NLAT ∧
      1 < tall_grid_config.NLAT / 65536 ∧ 0 < tall_grid_config.NLON / 65536 ∧
      int_range tall_grid_config ∧
      (loop_events tall_grid_config [] 8 (initial_state tall_grid_config example_uninit))[
          1 * (OUTPUT_IMAGE_WIDTH tall_grid_config + 1) + 0]?
        = some (LoopEvent.pixel_write 0) ∧
      tall_grid_config.INVERSE_SCALE * (1 * tall_grid_config.NLON + 0) = 8589934592 ∧
      (loop_events tall_grid_config [] 8 (initial_state tall_grid_config example_uninit))[
          1 * (OUTPUT_IMAGE_WIDTH tall_grid_config + 1) + 0]?
        ≠ some (LoopEvent.pixel_write
            (tall_grid_config.INVERSE_SCALE * (1 * tall_grid_config.NLON + 0)))) ∧
    (folded_row_config.INVERSE_SCALE = 2 * 1 ∧
      1 ≤ min folded_row_config.NLON folded_row_config.NLAT ∧
      0 < folded_row_config.NLAT / 1 ∧ 1 < folded_row_config.NLON / 1 ∧
      2 * folded_row_config.NLON * folded_row_config.NLAT ≤ UINT32_MOD ∧
      OUTPUT_ROW_BYTES_WITHOUT_PADDING folded_row_config = 4 ∧
      (loop_events folded_row_config [] 8 (initial_state folded_row_config example_uninit))[
          0 * (OUTPUT_IMAGE_WIDTH folded_row_config + 1) + 1]?
        = some LoopEvent.row_reset ∧
      (loop_events folded_row_config [] 8 (initial_state folded_row_config example_uninit))[
          0 * (OUTPUT_IMAGE_WIDTH folded_row_config + 1) + 1]?
        ≠ some (LoopEvent.pixel_write
            (folded_row_config.INVERSE_SCALE * (0 * folded_row_config.NLON + 1)))) := by
  decide

/-- C16, amended: for every grid `NLON x NLAT` in which no `int` expression
overflows (`int_range`) and whose byte offsets fit the `uint32_t` seek
computation (`2*NLON*NLAT ≤ 2^32`), every even scale `s = 2k` with
`1 ≤ k ≤ min(NLON, NLAT)` and every output coordinate (`r`, `c`) with
`r < NLAT/k`, `c < NLON/k`, the iteration of the main loop for (`r`, `c`) seeks
to byte offset `s*(r*NLON + c)`, which is twice the row-major index
`k*r*NLON + k*c` of the sample at source row `r*k`, source column `c*k`
(`k*c < NLON`, `k*r < NLAT`): the sampling stride on each axis is `s/2 = k`,
and for `s = 2` the output coordinates are the grid coordinates, so every
source sample is visited. -/
theorem seek_offset_halved_stride (cfg : Config) (src : List (Fin 256)) (u : Uninit)
    (fuel k r c : Nat) (hs : cfg.INVERSE_SCALE = 2 * k) (hk : 1 ≤ k)
    (hkmin : k ≤ min cfg.NLON cfg.NLAT) (hr : r < cfg.NLAT / k) (hc : c < cfg.NLON / k)
    (hir : int_range cfg)
    (hsrc32 : 2 * cfg.NLON * cfg.NLAT ≤ UINT32_MOD)
    (hfuel : OUTPUT_RAW_SINGLE_UNITS cfg + OUTPUT_IMAGE_HEIGHT cfg ≤ fuel) :
    (loop_events cfg src fuel (initial_state cfg u))[r * (OUTPUT_IMAGE_WIDTH cfg + 1) + c]?
      = some (LoopEvent.pixel_write (cfg.INVERSE_SCALE * (r * cfg.NLON + c))) ∧
    (∀ st, LoopInv cfg src u r c st →
      seek_offset cfg st = cfg.INVERSE_SCALE * (r * cfg.NLON + c)) ∧
    cfg.INVERSE_SCALE * (r * cfg.NLON + c) = 2 * (k * r * cfg.NLON + k * c) ∧
    cfg.INVERSE_SCALE * (r * cfg.NLON + c) = ((r * k) * cfg.NLON + c * k) * 2 ∧
    k * c < cfg.NLON ∧ k * r < cfg.NLAT ∧
    cfg.INVERSE_SCALE / 2 = k ∧
    1 ≤ OUTPUT_IMAGE_WIDTH cfg ∧ 1 ≤ OUTPUT_IMAGE_HEIGHT cfg ∧
    (cfg.INVERSE_SCALE = 2 →
      OUTPUT_IMAGE_WIDTH cfg = cfg.NLON ∧ OUTPUT_IMAGE_HEIGHT cfg = cfg.NLAT ∧
      cfg.INVERSE_SCALE * (r * cfg.NLON + c) = (r * cfg.NLON + c) * 2) := by
  obtain ⟨hk2, hWk, hHk⟩ := output_dims_of_stride cfg k hs
  obtain ⟨h1, h2, h3, h4⟩ := sample_in_grid cfg.NLON cfg.NLAT k r c hk hr hc
  have hr' : r < OUTPUT_IMAGE_HEIGHT cfg := by rw [hHk]; exact hr
  have hc' : c < OUTPUT_IMAGE_WIDTH cfg := by rw [hWk]; exact hc
  have hfuel' := fuel_of_units cfg fuel (int_range_count cfg hir) hfuel
  have hlt : cfg.INVERSE_SCALE * (r * cfg.NLON + c) < UINT32_MOD := by
    rw [hs]
    omega
  have hev := loop_event_at cfg src u fuel r c hir hfuel' hr' hc'
  rw [Nat.mod_eq_of_lt hlt] at hev
  refine ⟨hev, ?_, by rw [hs]; exact h3, ?_, h1, h2, hk2, by omega, by omega, ?_⟩
  · intro st hinv
    rw [seek_offset_eq cfg src u r c st hinv hc', nth_seek_offset_eq cfg r c hc',
      Nat.mod_eq_of_lt hlt]
  · rw [hs]
    ring
  · intro h2s
    have hk1 : k = 1 := by omega
    subst hk1
    rw [hWk, hHk, Nat.div_one, Nat.div_one, h2s]
    exact ⟨rfl, rfl, Nat.mul_comm _ _⟩

/-- Witness for the amended C16: the 4 x 4 example grid with `INVERSE_SCALE` 4
(`k = 2`), output coordinate (1, 1): the loop seeks to byte 20, sample (2, 2). -/
theorem seek_offset_halved_stride_witness :
    example_config_scale4.INVERSE_SCALE = 2 * 2 ∧
    2 ≤ min example_config_scale4.NLON example_config_scale4.NLAT ∧
    1 < example_config_scale4.NLAT / 2 ∧ 1 < example_config_scale4.NLON / 2 ∧
    int_range example_config_scale4 ∧
    2 * example_config_scale4.NLON * example_config_scale4.NLAT ≤ UINT32_MOD ∧
    (loop_events example_config_scale4 example_source 6
        (initial_state example_config_scale4 example_uninit))[
          1 * (OUTPUT_IMAGE_WIDTH example_config_scale4 + 1) + 1]?
      = some (LoopEvent.pixel_write
          (example_config_scale4.INVERSE_SCALE * (1 * example_config_scale4.NLON + 1))) :=
  ⟨by decide, by decide, by decide, by decide, by decide, by decide,
    (seek_offset_halved_stride example_config_scale4 example_source example_uninit 6 2 1 1
      (by decide) (by decide) (by decide) (by decide) (by decide) (by decide) (by decide)
      (by decide)).1⟩

/-- C17 as stated fails: for the grid of one row of 178956972 samples with
`INVERSE_SCALE = 2 * 1` the `int` product `24 * W` overflows,
`OUTPUT_ROW_BYTES_WITHOUT_PADDING` is 4 and the row-end test of line 369 holds
after one pixel. The third iteration therefore seeks to offset
`2 * NLON = 357913944`, the length of the full-size source: no byte can be read
there and `read_value` keeps its old content. -/
theorem reads_inside_source_counterexample :
    folded_row_config.INVERSE_SCALE = 2 * 1 ∧
    1 ≤ min folded_row_config.NLON folded_row_config.NLAT ∧
    OUTPUT_ROW_BYTES_WITHOUT_PADDING folded_row_config = 4 ∧
    loop_events folded_row_config [] 3 (initial_state folded_row_config example_uninit)
      = [LoopEvent.pixel_write 0, LoopEvent.row_reset, LoopEvent.pixel_write 357913944] ∧
    2 * folded_row_config.NLON * folded_row_config.NLAT = 357913944 ∧
    ¬ (357913944 + 2 ≤ 2 * folded_row_config.NLON * folded_row_config.NLAT) ∧
    (∀ (src : List (Fin 256)) (old : Int),
      src.length = 2 * folded_row_config.NLON * folded_row_config.NLAT →
        src[357913944]? = none ∧ fread_int16 src 357913944 old = old) := by
  refine ⟨by decide, by decide, by decide, by decide, by decide, by decide, ?_⟩
  intro src old hlen
  have hlen' : src.length = 357913944 := hlen
  have hnone : src[357913944]? = none := List.getElem?_eq_none (by omega)
  refine ⟨hnone, ?_⟩
  unfold fread_int16
  rw [hnone]

/-- C17, amended: for every grid `NLON x NLAT` in which no `int` expression
overflows (`int_range`), every even scale `s = 2k` with
`1 ≤ k ≤ min(NLON, NLAT)` and every output coordinate (`r`, `c`) with
`r < NLAT/k`, `c < NLON/k`, the offset `s*(r*NLON + c)` is even and
`s*(r*NLON + c) + 2 ≤ 2*NLON*NLAT`; the offset `off` the loop seeks to for
(`r`, `c`) is that value in `uint32_t` arithmetic, is even and satisfies
`off + 2 ≤ 2*NLON*NLAT`, so with a source of exactly `2*NLON*NLAT` bytes both
bytes are read and the result does not depend on the old content of
`read_value`: the short-read cases of `fread` do not occur. -/
theorem reads_inside_source (cfg : Config) (src : List (Fin 256)) (u : Uninit)
    (fuel k r c : Nat) (hs : cfg.INVERSE_SCALE = 2 * k) (hk : 1 ≤ k)
    (hkmin : k ≤ min cfg.NLON cfg.NLAT) (hr : r < cfg.NLAT / k) (hc : c < cfg.NLON / k)
    (hir : int_range cfg)
    (hfuel : OUTPUT_RAW_SINGLE_UNITS cfg + OUTPUT_IMAGE_HEIGHT cfg ≤ fuel) :
    cfg.INVERSE_SCALE * (r * cfg.NLON + c) + 2 ≤ 2 * cfg.NLON * cfg.NLAT ∧
    (cfg.INVERSE_SCALE * (r * cfg.NLON + c)) % 2 = 0 ∧
    ∃ off, off = (cfg.INVERSE_SCALE * (r * cfg.NLON + c)) % UINT32_MOD ∧
      (loop_events cfg src fuel (initial_state cfg u))[
          r * (OUTPUT_IMAGE_WIDTH cfg + 1) + c]? = some (LoopEvent.pixel_write off) ∧
      off + 2 ≤ 2 * cfg.NLON * cfg.NLAT ∧
      off % 2 = 0 ∧
      (src.length = 2 * cfg.NLON * cfg.NLAT →
        ∃ b0 b1 : Fin 256, src[off]? = some b0 ∧ src[off + 1]? = some b1 ∧
          ∀ old, fread_int16 src off old
            = to_int16 ((b0.val : Int) + 256 * (b1.val : Int))) := by
  obtain ⟨hk2, hWk, hHk⟩ := output_dims_of_stride cfg k hs
  obtain ⟨h1, h2, h3, h4⟩ := sample_in_grid cfg.NLON cfg.NLAT k r c hk hr hc
  have hr' : r < OUTPUT_IMAGE_HEIGHT cfg := by rw [hHk]; exact hr
  have hc' : c < OUTPUT_IMAGE_WIDTH cfg := by rw [hWk]; exact hc
  have hfuel' := fuel_of_units cfg fuel (int_range_count cfg hir) hfuel
  have hM := uint32_mod_eq
  have hexact : cfg.INVERSE_SCALE * (r * cfg.NLON + c) + 2 ≤ 2 * cfg.NLON * cfg.NLAT := by
    rw [hs]
    exact h4
  have heven : (cfg.INVERSE_SCALE * (r * cfg.NLON + c)) % 2 = 0 := by
    rw [hs, Nat.mul_assoc]
    omega
  refine ⟨hexact, heven, _, rfl, loop_event_at cfg src u fuel r c hir hfuel' hr' hc',
    ?_, ?_, ?_⟩
  · have hle := Nat.mod_le (cfg.INVERSE_SCALE * (r * cfg.NLON + c)) UINT32_MOD
    omega
  · rw [hM]
    omega
  · intro hlen
    have hle := Nat.mod_le (cfg.INVERSE_SCALE * (r * cfg.NLON + c)) UINT32_MOD
    generalize (cfg.INVERSE_SCALE * (r * cfg.NLON + c)) % UINT32_MOD = off at hle
    have hlt0 : off < src.length := by omega
    have hlt1 : off + 1 < src.length := by omega
    have hb0 : src[off]? = some src[off] := List.getElem?_eq_getElem hlt0
    have hb1 : src[off + 1]? = some src[off + 1] := List.getElem?_eq_getElem hlt1
    refine ⟨src[off], src[off + 1], hb0, hb1, ?_⟩
    intro old
    simp only [fread_int16, hb0, hb1]

/-- Witness for the amended C17: the 4 x 4 example grid with `INVERSE_SCALE` 4,
output coordinate (1, 1): offset 20 of the 32-byte source. -/
theorem reads_inside_source_witness :
    example_config_scale4.INVERSE_SCALE = 2 * 2 ∧
    2 ≤ min example_config_scale4.NLON example_config_scale4.NLAT ∧
    1 < example_config_scale4.NLAT / 2 ∧ 1 < example_config_scale4.NLON / 2 ∧
    int_range example_config_scale4 ∧
    example_config_scale4.INVERSE_SCALE * (1 * example_config_scale4.NLON + 1) + 2
      ≤ 2 * example_config_scale4.NLON * example_config_scale4.NLAT ∧
    (example_config_scale4.INVERSE_SCALE * (1 * example_config_scale4.NLON + 1)) % 2 = 0 :=
  ⟨by decide, by decide, by decide, by decide, by decide,
    (reads_inside_source example_config_scale4 example_source example_uninit 6 2 1 1
      (by decide) (by decide) (by decide) (by decide) (by decide) (by decide)
      (by decide)).1,
    (reads_inside_source example_config_scale4 example_source example_uninit 6 2 1 1
      (by decide) (by decide) (by decide) (by decide) (by decide) (by decide)
      (by decide)).2.1⟩

/-- No `int` expression overflows for the reference grid, whatever the scale:
the output is at most 21600 x 17280 and `row_stride * height` is at most
`64800 * 17280 = 1119744000`. -/
theorem reference_grid_int_range (s : Nat) (d : DPI)
    (hW : 1 ≤ OUTPUT_IMAGE_WIDTH (reference_grid s d)) : int_range (reference_grid s d) := by
  have hWle : OUTPUT_IMAGE_WIDTH (reference_grid s d) ≤ 21600 := Nat.div_le_self _ _
  have hHle : OUTPUT_IMAGE_HEIGHT (reference_grid s d) ≤ 17280 := Nat.div_le_self _ _
  have hs : s / 2 ≤ 21600 := by
    by_contra hgt
    have h0 : OUTPUT_IMAGE_WIDTH (reference_grid s d) = 0 :=
      Nat.div_eq_of_lt (by show 21600 < s / 2; omega)
    omega
  have hrb : row_stride (reference_grid s d) ≤ 64800 := by
    rw [row_stride_formula]
    omega
  have hcount : OUTPUT_IMAGE_WIDTH (reference_grid s d) * OUTPUT_IMAGE_HEIGHT (reference_grid s d)
      ≤ 21600 * 17280 := Nat.mul_le_mul hWle hHle
  have hbytes : row_stride (reference_grid s d) * OUTPUT_IMAGE_HEIGHT (reference_grid s d)
      ≤ 64800 * 17280 := Nat.mul_le_mul hrb hHle
  refine ⟨?_, ?_, ?_, ?_, ?_, ?_⟩
  · show 21600 ≤ 2147483647
    omega
  · show 17280 ≤ 2147483647
    omega
  · show s ≤ 2147483647
    omega
  · show 24 * OUTPUT_IMAGE_WIDTH (reference_grid s d) + 31 ≤ 2147483647
    omega
  · show OUTPUT_IMAGE_WIDTH (reference_grid s d) * OUTPUT_IMAGE_HEIGHT (reference_grid s d)
      ≤ 2147483647
    omega
  · show row_stride (reference_grid s d) * OUTPUT_IMAGE_HEIGHT (reference_grid s d)
      ≤ 2147483647
    omega

/-- C20: for the reference grid `NLON = 21600`, `NLAT = 17280` and every even
scale `s ≥ 2` with nonzero output dimensions, the value
`current_output_row * NLON + source_row_x` computed for every output
coordinate (`r`, `c`) is `s*(r*NLON + c)`, at most `2*21600*17280 = 746496000`
and so below `2^32`: the `uint32_t` computation of line 381 does not wrap and
the loop seeks to exactly `s*(r*NLON + c)`. The header file size
`54 + row_stride*height` is at most 1119744054 and is stored in the 32-bit
field without wrapping. -/
theorem reference_grid_no_wrap (s : Nat) (d : DPI) (src : List (Fin 256)) (u : Uninit)
    (fuel r c : Nat) (heven : s % 2 = 0) (hs : 2 ≤ s)
    (hW : 1 ≤ OUTPUT_IMAGE_WIDTH (reference_grid s d))
    (hH : 1 ≤ OUTPUT_IMAGE_HEIGHT (reference_grid s d))
    (hr : r < OUTPUT_IMAGE_HEIGHT (reference_grid s d))
    (hc : c < OUTPUT_IMAGE_WIDTH (reference_grid s d))
    (hfuel : OUTPUT_RAW_SINGLE_UNITS (reference_grid s d)
      + OUTPUT_IMAGE_HEIGHT (reference_grid s d) ≤ fuel) :
    s * (r * 21600 + c) ≤ 746496000 ∧
    2 * 21600 * 17280 = 746496000 ∧
    746496000 < UINT32_MOD ∧
    (∀ st, LoopInv (reference_grid s d) src u r c st →
      st.current_output_row * (reference_grid s d).NLON + st.source_row_x
        = s * (r * 21600 + c) ∧
      st.current_output_row * (reference_grid s d).NLON + st.source_row_x < UINT32_MOD ∧
      seek_offset (reference_grid s d) st = s * (r * 21600 + c)) ∧
    (loop_events (reference_grid s d) src fuel (initial_state (reference_grid s d) u))[
        r * (OUTPUT_IMAGE_WIDTH (reference_grid s d) + 1) + c]?
      = some (LoopEvent.pixel_write (s * (r * 21600 + c))) ∧
    OUTPUT_FILE_SIZE (reference_grid s d) ≤ 1119744054 ∧
    1119744054 < UINT32_MOD ∧
    (new_bitmap (reference_grid s d)).bitmap_file_header.file_size
      = 54 + OUTPUT_ROW_BYTES (reference_grid s d) * OUTPUT_IMAGE_HEIGHT (reference_grid s d) := by
  have hM := uint32_mod_eq
  have hir := reference_grid_int_range s d hW
  have hrow := int_range_row _ hir
  have hcount := int_range_count _ hir
  have hbytes := int_range_bytes _ hir
  have hfuel' := fuel_of_units _ fuel hcount hfuel
  have hs2 : (reference_grid s d).INVERSE_SCALE = 2 * (s / 2) := by
    show s = 2 * (s / 2)
    omega
  obtain ⟨_, hWk, hHk⟩ := output_dims_of_stride (reference_grid s d) (s / 2) hs2
  have hWle : OUTPUT_IMAGE_WIDTH (reference_grid s d) ≤ 21600 := Nat.div_le_self _ _
  have hHle : OUTPUT_IMAGE_HEIGHT (reference_grid s d) ≤ 17280 := Nat.div_le_self _ _
  obtain ⟨_, _, _, h4⟩ := sample_in_grid 21600 17280 (s / 2) r c (by omega)
    (by rw [hHk] at hr; exact hr) (by rw [hWk] at hc; exact hc)
  have hsk : 2 * (s / 2) = s := by omega
  rw [hsk] at h4
  have hbound : s * (r * 21600 + c) ≤ 746496000 := by omega
  have hev := loop_event_at (reference_grid s d) src u fuel r c hir hfuel' hr hc
  have hnl : (reference_grid s d).NLON = 21600 := rfl
  have hsc : (reference_grid s d).INVERSE_SCALE = s := rfl
  rw [hnl, hsc, hM, Nat.mod_eq_of_lt (by omega)] at hev
  have hrb : row_stride (reference_grid s d) ≤ 64800 := by
    rw [row_stride_formula]
    omega
  have hprod : row_stride (reference_grid s d) * OUTPUT_IMAGE_HEIGHT (reference_grid s d)
      ≤ 64800 * 17280 := Nat.mul_le_mul hrb hHle
  have hsz := file_size_exact (reference_grid s d) hrow hbytes
  have hfile := new_bitmap_file_size_exact (reference_grid s d) hrow hbytes
  refine ⟨hbound, by norm_num, by rw [hM]; norm_num, ?_, hev, by omega, by rw [hM]; norm_num,
    ?_⟩
  · intro st hinv
    have hsr : s * r ≤ s * (r * 21600 + c) := Nat.mul_le_mul_left _ (by omega)
    have hsc' : s * c ≤ s * (r * 21600 + c) := Nat.mul_le_mul_left _ (by omega)
    have hrow' : st.current_output_row = s * r := by
      rw [hinv.row_eq, hsc, hM]
      exact Nat.mod_eq_of_lt (by omega)
    have hx : st.source_row_x = s * c := by
      rw [hinv.source_x_eq, hsc, hM]
      exact Nat.mod_eq_of_lt (by omega)
    have hval : st.current_output_row * (reference_grid s d).NLON + st.source_row_x
        = s * (r * 21600 + c) := by
      rw [hrow', hx, hnl]
      ring
    refine ⟨hval, by rw [hval, hM]; omega, ?_⟩
    rw [seek_offset_eq _ src u r c st hinv hc, nth_seek_offset_eq _ r c hc, hnl, hsc, hM]
    exact Nat.mod_eq_of_lt (by omega)
  · rw [hfile, row_bytes_exact _ hrow]
    push_cast
    ring

/-- Witness for C20: `INVERSE_SCALE` 16 (output 2700 x 2160), output
coordinate (2159, 2699), the last pixel. -/
theorem reference_grid_no_wrap_witness :
    16 % 2 = 0 ∧ 2 ≤ 16 ∧
    2159 < OUTPUT_IMAGE_HEIGHT (reference_grid 16 DPI.DPI_72) ∧
    2699 < OUTPUT_IMAGE_WIDTH (reference_grid 16 DPI.DPI_72) ∧
    16 * (2159 * 21600 + 2699) ≤ 746496000 ∧
    OUTPUT_FILE_SIZE (reference_grid 16 DPI.DPI_72) ≤ 1119744054 :=
  ⟨by decide, by decide, by decide, by decide,
    (reference_grid_no_wrap 16 DPI.DPI_72 [] example_uninit 5834160 2159 2699 (by decide)
      (by decide) (by decide) (by decide) (by decide) (by decide) (by decide)).1,
    (reference_grid_no_wrap 16 DPI.DPI_72 [] example_uninit 5834160 2159 2699 (by decide)
      (by decide) (by decide) (by decide) (by decide) (by decide) (by decide)).2.2.2.2.2.1⟩

/-! ## Output without padding and the written length -/

theorem pixel_stream_length (cfg : Config) (src : List (Fin 256)) (u : Uninit) (n : Nat) :
    (pixel_stream cfg src u n).length = 3 * n := by
  induction n with
  | zero => rfl
  | succ k ih =>
    simp only [pixel_stream, List.length_append, ih, pixel_bytes_length]
    omega

theorem pixel_stream_row (cfg : Config) (src : List (Fin 256)) (u : Uninit) (r c : Nat) :
    pixel_stream cfg src u (r * OUTPUT_IMAGE_WIDTH cfg) ++ row_pixels cfg src u r c
      = pixel_stream cfg src u (r * OUTPUT_IMAGE_WIDTH cfg + c) := by
  induction c with
  | zero => simp [row_pixels]
  | succ k ih =>
    rw [← Nat.add_assoc]
    simp only [row_pixels, pixel_stream, ← List.append_assoc, ih]

theorem rows_before_no_padding (cfg : Config) (src : List (Fin 256)) (u : Uninit)
    (hpad : row_padding cfg = 0) (r : Nat) :
    rows_before cfg src u r = pixel_stream cfg src u (r * OUTPUT_IMAGE_WIDTH cfg) := by
  induction r with
  | zero => simp [rows_before, pixel_stream]
  | succ k ih =>
    simp only [rows_before, hpad, List.replicate_zero, List.append_nil, ih, pixel_stream_row]
    rw [Nat.succ_mul]

theorem row_padding_zero_iff (cfg : Config)
    (hrow : 24 * OUTPUT_IMAGE_WIDTH cfg + 31 ≤ 2147483647) :
    row_padding cfg = 0 ↔ (3 * OUTPUT_IMAGE_WIDTH cfg) % 4 = 0 := by
  have hb := row_stride_bounds cfg
  rw [row_padding_eq cfg hrow]
  omega

/-- C13 as stated fails: the output width 100000000 has `3*W` divisible by 4,
but the `int` product `24 * W` overflows, the difference of the two row macros
is 4 and `write_bitmap_row_padding` writes four zero bytes. -/
theorem no_padding_output_counterexample :
    OUTPUT_IMAGE_WIDTH wide_row_config = 100000000 ∧
    (3 * OUTPUT_IMAGE_WIDTH wide_row_config) % 4 = 0 ∧
    OUTPUT_ROW_BYTES wide_row_config - OUTPUT_ROW_BYTES_WITHOUT_PADDING wide_row_config = 4 ∧
    write_bitmap_row_padding wide_row_config [] = [0, 0, 0, 0] ∧
    write_bitmap_row_padding wide_row_config [] ≠ [] := by
  decide

/-- C13, amended: for every configuration in which no `int` expression
overflows (`int_range`) and whose output width `W` has `3*W` divisible by 4 the
row stride equals `3*W`, `write_bitmap_row_padding` writes no byte, and the
whole output is the 54-byte header followed by exactly `3*W*H` pixel bytes, the
pixels in the order they are computed with nothing between rows. -/
theorem no_padding_output (cfg : Config) (src : List (Fin 256)) (u : Uninit) (fuel : Nat)
    (h4 : (3 * OUTPUT_IMAGE_WIDTH cfg) % 4 = 0) (hir : int_range cfg)
    (hfuel : OUTPUT_RAW_SINGLE_UNITS cfg + OUTPUT_IMAGE_HEIGHT cfg ≤ fuel) :
    OUTPUT_ROW_BYTES cfg = 3 * (OUTPUT_IMAGE_WIDTH cfg : Int) ∧
    OUTPUT_ROW_BYTES cfg - OUTPUT_ROW_BYTES_WITHOUT_PADDING cfg = 0 ∧
    (∀ fp, write_bitmap_row_padding cfg fp = fp) ∧
    main cfg src u fuel
      = some (bitmap_bytes (new_bitmap cfg)
          ++ pixel_stream cfg src u (OUTPUT_IMAGE_WIDTH cfg * OUTPUT_IMAGE_HEIGHT cfg)) ∧
    (bitmap_bytes (new_bitmap cfg)).length = 54 ∧
    (pixel_stream cfg src u (OUTPUT_IMAGE_WIDTH cfg * OUTPUT_IMAGE_HEIGHT cfg)).length
      = 3 * OUTPUT_IMAGE_WIDTH cfg * OUTPUT_IMAGE_HEIGHT cfg := by
  have hrow := int_range_row cfg hir
  have hcount := int_range_count cfg hir
  have hfuel' := fuel_of_units cfg fuel hcount hfuel
  have hb := row_stride_bounds cfg
  have hpad : row_padding cfg = 0 := (row_padding_zero_iff cfg hrow).mpr h4
  have hstride : row_stride cfg = 3 * OUTPUT_IMAGE_WIDTH cfg := by omega
  refine ⟨?_, ?_, ?_, ?_, header_length cfg, ?_⟩
  · rw [row_bytes_exact cfg hrow, hstride]
    push_cast
    rfl
  · rw [row_bytes_exact cfg hrow, row_bytes_without_padding_exact cfg hrow, hstride]
    exact Int.sub_self _
  · intro fp
    rw [write_bitmap_row_padding_eq, hpad]
    simp
  · by_cases hzero : OUTPUT_IMAGE_WIDTH cfg * OUTPUT_IMAGE_HEIGHT cfg = 0
    · have hz : OUTPUT_RAW_SINGLE_UNITS cfg = 0 := by
        rw [raw_single_units_exact cfg hcount, hzero]
        rfl
      rw [main_eq_header cfg src u fuel hz, hzero]
      simp [pixel_stream]
    · have hpos : 0 < OUTPUT_IMAGE_WIDTH cfg * OUTPUT_IMAGE_HEIGHT cfg :=
        Nat.pos_of_ne_zero hzero
      have hW : 1 ≤ OUTPUT_IMAGE_WIDTH cfg := Nat.pos_of_mul_pos_right hpos
      have hH : 1 ≤ OUTPUT_IMAGE_HEIGHT cfg := Nat.pos_of_mul_pos_left hpos
      have hlast := index_last_eq_total cfg hH
      rw [main_eq_written cfg src u fuel hW hH hir hfuel']
      unfold written
      rw [rows_before_no_padding cfg src u hpad, List.append_assoc, pixel_stream_row, hlast]
  · rw [pixel_stream_length, Nat.mul_assoc]

/-- Witness for the amended C13: the checked-in configuration, width 21600, has
`3 * 21600 = 64800` divisible by 4. -/
theorem no_padding_output_witness :
    OUTPUT_IMAGE_WIDTH reference_config = 21600 ∧
    (3 * OUTPUT_IMAGE_WIDTH reference_config) % 4 = 0 ∧
    int_range reference_config ∧
    OUTPUT_ROW_BYTES reference_config = 3 * (OUTPUT_IMAGE_WIDTH reference_config : Int) ∧
    (∀ fp, write_bitmap_row_padding reference_config fp = fp) ∧
    main reference_config [] example_uninit 373265280
      = some (bitmap_bytes (new_bitmap reference_config)
          ++ pixel_stream reference_config [] example_uninit
            (OUTPUT_IMAGE_WIDTH reference_config * OUTPUT_IMAGE_HEIGHT reference_config)) :=
  ⟨by decide, by decide, by decide,
    (no_padding_output reference_config [] example_uninit 373265280 (by decide) (by decide)
      (by decide)).1,
    (no_padding_output reference_config [] example_uninit 373265280 (by decide) (by decide)
      (by decide)).2.2.1,
    (no_padding_output reference_config [] example_uninit 373265280 (by decide) (by decide)
      (by decide)).2.2.2.1⟩

/-- C18 as stated fails. The 65536 x 65536 grid with `INVERSE_SCALE` 2 has
`W ≥ 1`, `H ≥ 1` and row stride `3*W`, but the `int` loop bound overflows to 0
and the program writes the 54 header bytes only, not
`54 + 3*W*H + (H-1)*(row_stride - 3*W) = 12884901942`. For the grid of one row
of 100000000 samples `3*W` is a multiple of 4 and the claimed length is
`54 + 3*W*H = 300000054`, but the `file_size` field of the header is
4058096442. -/
theorem written_length_formula_counterexample :
    (1 ≤ OUTPUT_IMAGE_WIDTH square_grid_config ∧
      1 ≤ OUTPUT_IMAGE_HEIGHT square_grid_config ∧
      (main square_grid_config example_source example_uninit 8).map List.length = some 54 ∧
      54 + 3 * OUTPUT_IMAGE_WIDTH square_grid_config * OUTPUT_IMAGE_HEIGHT square_grid_config
          + (OUTPUT_IMAGE_HEIGHT square_grid_config - 1)
            * (((24 * OUTPUT_IMAGE_WIDTH square_grid_config + 31) / 32) * 4
              - 3 * OUTPUT_IMAGE_WIDTH square_grid_config) = 12884901942) ∧
    (1 ≤ OUTPUT_IMAGE_WIDTH wide_row_config ∧ 1 ≤ OUTPUT_IMAGE_HEIGHT wide_row_config ∧
      (3 * OUTPUT_IMAGE_WIDTH wide_row_config) % 4 = 0 ∧
      54 + 3 * OUTPUT_IMAGE_WIDTH wide_row_config * OUTPUT_IMAGE_HEIGHT wide_row_config
          + (OUTPUT_IMAGE_HEIGHT wide_row_config - 1)
            * (((24 * OUTPUT_IMAGE_WIDTH wide_row_config + 31) / 32) * 4
              - 3 * OUTPUT_IMAGE_WIDTH wide_row_config) = 300000054 ∧
      (new_bitmap wide_row_config).bitmap_file_header.file_size = 4058096442) := by
  decide

/-- C18, amended: for every configuration with `W ≥ 1` and `H ≥ 1` in which no
`int` expression overflows (`int_range`) the program writes exactly
`54 + 3*W*H + (H-1)*(row_stride - 3*W)` bytes: the loop performs `H - 1` row
resets, each writing the row padding, and the statement after the loop writes
nothing. The written length is `row_stride - 3*W` bytes short of the
`file_size` field of the header and equals it if and only if `3*W` is a
multiple of 4. Here `row_stride` is the value of `OUTPUT_ROW_BYTES`, which is
`((24*W + 31)/32)*4`. -/
theorem written_length_formula (cfg : Config) (src : List (Fin 256)) (u : Uninit)
    (fuel : Nat) (hW : 1 ≤ OUTPUT_IMAGE_WIDTH cfg) (hH : 1 ≤ OUTPUT_IMAGE_HEIGHT cfg)
    (hir : int_range cfg)
    (hfuel : OUTPUT_RAW_SINGLE_UNITS cfg + OUTPUT_IMAGE_HEIGHT cfg ≤ fuel) :
    ∃ out, main cfg src u fuel = some out ∧
      out.length = 54 + 3 * OUTPUT_IMAGE_WIDTH cfg * OUTPUT_IMAGE_HEIGHT cfg
        + (OUTPUT_IMAGE_HEIGHT cfg - 1)
          * ((OUTPUT_ROW_BYTES cfg).toNat - 3 * OUTPUT_IMAGE_WIDTH cfg) ∧
      (new_bitmap cfg).bitmap_file_header.file_size
        = 54 + (OUTPUT_ROW_BYTES cfg).toNat * OUTPUT_IMAGE_HEIGHT cfg ∧
      out.length + ((OUTPUT_ROW_BYTES cfg).toNat - 3 * OUTPUT_IMAGE_WIDTH cfg)
        = (new_bitmap cfg).bitmap_file_header.file_size ∧
      (out.length = (new_bitmap cfg).bitmap_file_header.file_size
        ↔ (3 * OUTPUT_IMAGE_WIDTH cfg) % 4 = 0) ∧
      (loop_events cfg src fuel (initial_state cfg u)).countP (fun e => !e.is_pixel_write)
        = OUTPUT_IMAGE_HEIGHT cfg - 1 ∧
      (∀ fp, (write_bitmap_row_padding cfg fp).length
        = fp.length + ((OUTPUT_ROW_BYTES cfg).toNat - 3 * OUTPUT_IMAGE_WIDTH cfg)) ∧
      (∃ st', main_loop cfg src fuel (initial_state cfg u) = some st' ∧
        write_last_padding cfg st' = st'.output_file) ∧
      OUTPUT_ROW_BYTES cfg = ((((24 * OUTPUT_IMAGE_WIDTH cfg + 31) / 32) * 4 : Nat) : Int) := by
  have hrow := int_range_row cfg hir
  have hcount := int_range_count cfg hir
  have hbytes := int_range_bytes cfg hir
  have hfuel' := fuel_of_units cfg fuel hcount hfuel
  have hb := row_stride_bounds cfg
  have hfile := new_bitmap_file_size_exact cfg hrow hbytes
  obtain ⟨st', hrun, -, -, -, hlast⟩ := main_loop_final cfg src u fuel hW hir hfuel'
  have hmain := main_eq_written cfg src u fuel hW hH hir hfuel'
  have hevents : (loop_events cfg src fuel (initial_state cfg u)).countP
      (fun e => !e.is_pixel_write) = OUTPUT_IMAGE_HEIGHT cfg - 1 := by
    rw [loop_events_eq cfg src u fuel hW hir hfuel']
    exact (all_events_count cfg).2
  have hpadlen : ∀ fp, (write_bitmap_row_padding cfg fp).length
      = fp.length + (row_stride cfg - 3 * OUTPUT_IMAGE_WIDTH cfg) := by
    intro fp
    rw [write_bitmap_row_padding_eq, List.length_append, List.length_replicate,
      row_padding_eq cfg hrow]
  have hlen0 := written_length cfg src u (OUTPUT_IMAGE_HEIGHT cfg - 1)
    (OUTPUT_IMAGE_WIDTH cfg) hrow
  have hexact := row_bytes_exact cfg hrow
  rw [row_bytes_toNat cfg hrow]
  refine ⟨_, hmain, ?_, ?_, ?_, ?_, hevents, hpadlen, ⟨st', hrun, hlast⟩, hexact⟩
  all_goals
    clear hmain hevents hpadlen hexact hrun hlast hfuel hfuel' hir hrow hcount hbytes
    generalize (new_bitmap cfg).bitmap_file_header.file_size = fs at hfile ⊢
    generalize (written cfg src u (OUTPUT_IMAGE_HEIGHT cfg - 1)
      (OUTPUT_IMAGE_WIDTH cfg)).length = len at hlen0 ⊢
    subst hfile
    subst hlen0
    obtain ⟨h, hh⟩ : ∃ h, OUTPUT_IMAGE_HEIGHT cfg = h + 1 :=
      ⟨OUTPUT_IMAGE_HEIGHT cfg - 1, by omega⟩
    obtain ⟨p, hp⟩ : ∃ p, row_stride cfg = 3 * OUTPUT_IMAGE_WIDTH cfg + p :=
      ⟨row_stride cfg - 3 * OUTPUT_IMAGE_WIDTH cfg, by omega⟩
    simp only [hh, hp, Nat.add_sub_cancel, Nat.add_sub_cancel_left]
    generalize OUTPUT_IMAGE_WIDTH cfg = w at hp hb hW ⊢
  · ring
  · ring
  · ring
  · have hp3 : p < 4 := by omega
    have hmod : (3 * w) % 4 = 0 ↔ p = 0 := by omega
    rw [hmod]
    constructor
    · intro heq
      have h1 : 54 + h * (3 * w + p) + 3 * w + p = (3 * w + p) * (h + 1) + 54 := by ring
      omega
    · intro h0
      subst h0
      ring

/-- Witness for the amended C18: the 4 x 4 example grid with `INVERSE_SCALE` 4
(2 x 2 output, row stride 8): 68 bytes are written, the header says 70. -/
theorem written_length_formula_witness :
    1 ≤ OUTPUT_IMAGE_WIDTH example_config_scale4 ∧
    1 ≤ OUTPUT_IMAGE_HEIGHT example_config_scale4 ∧
    int_range example_config_scale4 ∧
    ∃ out, main example_config_scale4 example_source example_uninit 6 = some out ∧
      out.length = 54 + 3 * OUTPUT_IMAGE_WIDTH example_config_scale4
          * OUTPUT_IMAGE_HEIGHT example_config_scale4
        + (OUTPUT_IMAGE_HEIGHT example_config_scale4 - 1)
          * ((OUTPUT_ROW_BYTES example_config_scale4).toNat
            - 3 * OUTPUT_IMAGE_WIDTH example_config_scale4) := by
  obtain ⟨out, hmain, hlen, _⟩ := written_length_formula example_config_scale4 example_source
    example_uninit 6 (by decide) (by decide) (by decide) (by decide)
  exact ⟨by decide, by decide, by decide, out, hmain, hlen⟩

end GravMap
